import Mathlib

/-!
# OpenSVC decoder filter (`src/filters/dec_opensvc.c`)

A shallow embedding of the filter context `GF_OSVCDecCtx` and of the code that
works on it: `osvcdec_configure_pid` with the channel registry it keeps,
`osvcdec_process_event`, `osvcdec_drop_frameinfo` and `osvcdec_process` with its
synchronizer, frame metadata queue, unit extraction loop and output.

Conventions of the embedding:

* C pointers are natural numbers, `0` being `NULL`;
* `u32` values are natural numbers, reduced modulo `2^32` wherever the C code
  can wrap;
* a C array is a list; a read or write outside the array is undefined
  behaviour in C and is reported as `none`;
* calls into the host (`gf_filter_*`) and into the decode engine
  (`SVCDecoder_*`, `decodeNAL`, `SetCommandLayer`, `GetDqIdMax`, `UpdateLayer`,
  `gf_media_nalu_next_start_code`) are parameters: what they
  return is an input of the embedded function, and calls that leave the
  context untouched (logging, output pid properties) are not represented.
-/

namespace OpenSVC

/-! ## Machine arithmetic and arrays -/

/-- Reduction of a natural number to the range of the C type `u32`. -/
def u32 (n : Nat) : Nat := n % 4294967296

/-- The C statement `x--` on a `u32`, wrapping below zero. -/
def u32_dec (n : Nat) : Nat := (n + 4294967295) % 4294967296

/-- The C call `memmove(&a[dst], &a[src], sizeof(a[0]) * n)`: `n` entries are copied from
index `src` to index `dst` as if through a temporary buffer. A move of zero entries touches
nothing; a move that reads or writes an entry outside the array gives `none`. -/
def memmove {α : Type} (a : List α) (dst src n : Nat) : Option (List α) :=
  if n = 0 then some a
  else if src + n ≤ a.length ∧ dst + n ≤ a.length then
    some (a.take dst ++ ((a.drop src).take n ++ a.drop (dst + n)))
  else none

/-- The C assignment `a[i] = v`; `none` when `i` is outside the array. -/
def store {α : Type} (a : List α) (i : Nat) (v : α) : Option (List α) :=
  if i < a.length then some (a.set i v) else none

/-! ## Data model -/

/-- The constant `SVC_MAX_STREAMS` (line 42). -/
def SVC_MAX_STREAMS : Nat := 3

/-- The error codes `osvcdec_configure_pid` returns. -/
inductive GF_Err
  | GF_OK
  | GF_NOT_SUPPORTED
  | GF_REQUIRES_NEW_INSTANCE
  | GF_NON_COMPLIANT_BITSTREAM
  | GF_IO_ERR
  deriving DecidableEq, Repr

/-- The struct `GF_SVCStream` (lines 44-50). -/
structure GF_SVCStream where
  ipid : Nat
  cfg_crc : Nat
  id : Nat
  dep_id : Nat
  deriving DecidableEq, Repr

/-- The struct `OSVCDecFrameInfo` (lines 52-57). -/
structure OSVCDecFrameInfo where
  cts : Nat
  duration : Nat
  sap_type : Nat
  seek_flag : Nat
  deriving DecidableEq, Repr

/-- The struct `GF_Fraction`: a signed numerator and an unsigned denominator. -/
structure GF_Fraction where
  num : Int
  den : Nat
  deriving DecidableEq, Repr

/-- The struct `GF_OSVCDecCtx` (lines 59-81). `streams` stands for the array of
`SVC_MAX_STREAMS` entries, `frame_infos` for the heap array of `frame_infos_alloc` records. -/
structure GF_OSVCDecCtx where
  opid : Nat
  streams : List GF_SVCStream
  nb_streams : Nat
  active_streams : Nat
  width : Nat
  stride : Nat
  height : Nat
  out_size : Nat
  pixel_ar : GF_Fraction
  nalu_size_length : Nat
  codec : Nat
  LimitDqId : Int
  MaxDqId : Int
  DqIdTable : List Int
  TemporalId : Int
  TemporalCom : Int
  frame_infos : List OSVCDecFrameInfo
  frame_infos_alloc : Nat
  frame_infos_size : Nat
  layers : List Int
  deriving DecidableEq, Repr

/-- An all-zero `GF_SVCStream`, as left by `memset` and by the zero-initialised context. -/
def zero_stream : GF_SVCStream := ⟨0, 0, 0, 0⟩

/-- The context as the filter session allocates it (`private_size` bytes, all zero). -/
def ctx_init : GF_OSVCDecCtx where
  opid := 0
  streams := List.replicate SVC_MAX_STREAMS zero_stream
  nb_streams := 0
  active_streams := 0
  width := 0
  stride := 0
  height := 0
  out_size := 0
  pixel_ar := ⟨0, 0⟩
  nalu_size_length := 0
  codec := 0
  LimitDqId := 0
  MaxDqId := 0
  DqIdTable := List.replicate 8 0
  TemporalId := 0
  TemporalCom := 0
  frame_infos := []
  frame_infos_alloc := 0
  frame_infos_size := 0
  layers := List.replicate 4 0

/-! ## What the host and the engine report for one configure call -/

/-- One sequence parameter set of the decoder configuration, as `gf_avc_get_sps_info`
reads it (lines 202-207). -/
structure GF_AVCConfigSlot where
  w : Nat
  h : Nat
  par_n : Int
  par_d : Int
  deriving DecidableEq, Repr

/-- The fields of `GF_AVCConfig` the filter uses: the prefix width, the sequence parameter
sets, and the number of picture parameter sets (each is only handed to the engine). -/
structure GF_AVCConfig where
  nal_unit_size : Nat
  sequenceParameterSets : List GF_AVCConfigSlot
  pictureParameterSets : Nat
  deriving DecidableEq, Repr

/-- The property `GF_PROP_PID_DECODER_CONFIG` of a pid: whether `value.data` is non-null,
`data_len`, the value of `gf_crc_32` on the data, and the result of `gf_odf_avc_cfg_read`
on it (`none` for a record that cannot be parsed). -/
structure DecoderConfig where
  has_data : Bool
  data_len : Nat
  crc : Nat
  cfg : Option GF_AVCConfig
  deriving DecidableEq, Repr

/-- The pid handed to `osvcdec_configure_pid` together with what the host answers about it:
`gf_filter_pid_check_caps` and the four properties the function reads (`none` for a
property that is not set). -/
structure PidProps where
  pid : Nat
  check_caps : Bool
  dependency_id : Option Nat
  prop_id : Option Nat
  esid : Option Nat
  decoder_config : Option DecoderConfig
  deriving DecidableEq, Repr

/-- The collaborators of a configure call whose code is outside this file.
`SVCDecoder_init h` gives whether the engine opened (false for `SVC_STATUS_ERROR`) and the
handle it leaves in `ctx->codec`; `SetCommandLayer cmd dqmax dq tcom tid` gives the command
table and the temporal command it leaves behind; `gf_filter_pid_new` is the new output pid;
`res0` is the value of the local `res` before its first assignment. -/
structure Extern where
  SVCDecoder_init : Nat → Bool × Nat
  SetCommandLayer : List Int → Int → Int → Int → Int → List Int × Int
  gf_filter_pid_new : Nat
  res0 : Int

/-! ## `osvcdec_configure_pid`: removal (lines 94-116) -/

/-- The loop of lines 104-113, entered at index `i` with `n` iterations left. -/
def remove_scan (ctx : GF_OSVCDecCtx) (pid : Nat) : Nat → Nat → Option (GF_Err × GF_OSVCDecCtx)
  | 0, _ => some (GF_Err.GF_OK, ctx)
  | n + 1, i =>
    match ctx.streams[i]? with
    | none => none
    | some s =>
      if s.ipid = pid then
        match memmove (ctx.streams.set i { s with ipid := 0, cfg_crc := 0 }) i (i + 1)
            (ctx.nb_streams - 1) with
        | none => none
        | some moved =>
          some (GF_Err.GF_OK,
            { ctx with
              streams := moved
              nb_streams := u32_dec ctx.nb_streams
              active_streams := u32_dec ctx.active_streams })
      else remove_scan ctx pid n (i + 1)

/-- The branch `if (is_remove)` of lines 94-116. -/
def configure_remove (ctx : GF_OSVCDecCtx) (pid : Nat) : Option (GF_Err × GF_OSVCDecCtx) :=
  match ctx.streams[0]? with
  | none => none
  | some s0 =>
    if s0.ipid = pid then
      some (GF_Err.GF_OK,
        { ctx with
          streams := List.replicate SVC_MAX_STREAMS zero_stream
          opid := 0
          nb_streams := 0
          active_streams := 0
          codec := 0 })
    else remove_scan ctx pid ctx.nb_streams 0

/-! ## `osvcdec_configure_pid`: the registry (lines 127-188) -/

/-- The loop of lines 130-132, entered at index `i` with `n` iterations left: true when it
reaches an entry holding this pid with this checksum (the function then returns `GF_OK`). -/
def same_cfg_scan (streams : List GF_SVCStream) (pid cfg_crc : Nat) : Nat → Nat → Option Bool
  | 0, _ => some false
  | n + 1, i =>
    match streams[i]? with
    | none => none
    | some s =>
      if s.ipid = pid ∧ s.cfg_crc = cfg_crc then some true
      else same_cfg_scan streams pid cfg_crc n (i + 1)

/-- The loop of lines 136-141, entered at index `i` with `n` iterations left: every entry
holding this pid takes the new checksum and sets `found`. -/
def found_scan (pid cfg_crc : Nat) :
    Nat → Nat → List GF_SVCStream → Bool → Option (List GF_SVCStream × Bool)
  | 0, _, streams, found => some (streams, found)
  | n + 1, i, streams, found =>
    match streams[i]? with
    | none => none
    | some s =>
      if s.ipid = pid then
        found_scan pid cfg_crc n (i + 1) (streams.set i { s with cfg_crc := cfg_crc }) true
      else found_scan pid cfg_crc n (i + 1) streams found

/-- How the loop of lines 147-178 ends. -/
inductive Scan
  | conflict
  | placed (streams : List GF_SVCStream)
  | not_placed
  deriving DecidableEq, Repr

/-- The loop of lines 147-178 for the new entry `e`, entered at index `i` with `n`
iterations left. `conflict` is the return of line 151, `placed` a `break` with
`found = GF_TRUE`, `not_placed` the end of the loop. -/
def insert_scan (streams : List GF_SVCStream) (nb_streams : Nat) (e : GF_SVCStream) :
    Nat → Nat → Option Scan
  | 0, _ => some Scan.not_placed
  | n + 1, i =>
    match streams[i]? with
    | none => none
    | some s =>
      if e.dep_id = 0 ∧ s.dep_id = 0 then some Scan.conflict
      else if s.id = e.dep_id then
        match (if nb_streams > i + 2 then memmove streams (i + 1) (i + 2) (nb_streams - i - 1)
               else some streams) with
        | none => none
        | some moved => (store moved (i + 1) e).map Scan.placed
      else if s.dep_id = e.id then
        match (if nb_streams > i + 1 then memmove streams (i + 1) i (nb_streams - i)
               else some streams) with
        | none => none
        | some moved => (store moved i e).map Scan.placed
      else insert_scan streams nb_streams e n (i + 1)

/-- The outcome of a block of the function: it returns there, or control goes on. -/
inductive Flow
  | ret (e : GF_Err) (ctx : GF_OSVCDecCtx)
  | next (ctx : GF_OSVCDecCtx)
  deriving DecidableEq, Repr

/-- Lines 135-188: the pid is looked up among the active channels and, when it is not
there, inserted in the registry. -/
def configure_registry (ctx : GF_OSVCDecCtx) (pid id dep_id cfg_crc : Nat) : Option Flow :=
  match found_scan pid cfg_crc ctx.active_streams 0 ctx.streams false with
  | none => none
  | some (streams1, found) =>
    let ctx1 := { ctx with streams := streams1 }
    if found then some (Flow.next ctx1)
    else if ctx1.nb_streams = SVC_MAX_STREAMS then some (Flow.ret GF_Err.GF_NOT_SUPPORTED ctx1)
    else
      let e : GF_SVCStream := ⟨pid, cfg_crc, id, dep_id⟩
      match insert_scan streams1 ctx1.nb_streams e ctx1.nb_streams 0 with
      | none => none
      | some Scan.conflict => some (Flow.ret GF_Err.GF_REQUIRES_NEW_INSTANCE ctx1)
      | some (Scan.placed streams2) =>
        some (Flow.next
          { ctx1 with
            streams := streams2
            nb_streams := u32 (ctx1.nb_streams + 1)
            active_streams := u32 (ctx1.nb_streams + 1) })
      | some Scan.not_placed =>
        match store streams1 ctx1.nb_streams e with
        | none => none
        | some streams2 =>
          some (Flow.next
            { ctx1 with
              streams := streams2
              nb_streams := u32 (ctx1.nb_streams + 1)
              active_streams := u32 (ctx1.nb_streams + 1) })

/-! ## `osvcdec_configure_pid`: decoder configuration and geometry (lines 190-269) -/

/-- The body of the loop of lines 201-225 for the first sequence parameter set (`i == 0`):
the base layer sets the picture size when it is larger than the current one. The later
sets are only handed to the engine. -/
def apply_first_sps (ctx : GF_OSVCDecCtx) (sps : List GF_AVCConfigSlot) : GF_OSVCDecCtx :=
  match sps with
  | [] => ctx
  | slc :: _ =>
    if ctx.width < slc.w ∨ ctx.height < slc.h then
      { ctx with
        width := slc.w
        height := slc.h
        pixel_ar :=
          if 0 < slc.par_n ∧ 0 < slc.par_d then ⟨slc.par_n, slc.par_d.toNat⟩ else ctx.pixel_ar }
    else ctx

/-- Lines 250-269: stride, layer bounds, output size and the output pid. -/
def configure_geometry (ext : Extern) (ctx : GF_OSVCDecCtx) : GF_OSVCDecCtx :=
  let stride := u32 (ctx.width + 32)
  { ctx with
    stride := stride
    LimitDqId := -1
    MaxDqId := 0
    out_size := u32 (u32 (stride * ctx.height) * 3) / 2
    opid := if ctx.opid = 0 then ext.gf_filter_pid_new else ctx.opid }

/-- Lines 190-269, entered with the decoder configuration property `p` of the pid. -/
def configure_decoder (ext : Extern) (ctx : GF_OSVCDecCtx) (dep_id : Nat)
    (p : Option DecoderConfig) : GF_Err × GF_OSVCDecCtx :=
  match (match p with
         | some dc => if dc.has_data then some dc else none
         | none => none) with
  | some dc =>
    match dc.cfg with
    | none => (GF_Err.GF_NON_COMPLIANT_BITSTREAM, ctx)
    | some cfg =>
      let opened : Bool × GF_OSVCDecCtx :=
        if dep_id = 0 then
          let r := ext.SVCDecoder_init ctx.codec
          (r.1, { ctx with nalu_size_length := cfg.nal_unit_size, codec := r.2 })
        else (true, ctx)
      if opened.1 = false then (GF_Err.GF_IO_ERR, opened.2)
      else
        let ctx2 : GF_OSVCDecCtx :=
          { opened.2 with
            layers := (ext.SetCommandLayer opened.2.layers 255 0 ext.res0 0).1 }
        (GF_Err.GF_OK, configure_geometry ext (apply_first_sps ctx2 cfg.sequenceParameterSets))
  | none =>
    if ctx.nalu_size_length ≠ 0 then (GF_Err.GF_NOT_SUPPORTED, ctx)
    else
      let ctx1 : GF_OSVCDecCtx := { ctx with nalu_size_length := 0 }
      let opened : Bool × GF_OSVCDecCtx :=
        if ctx1.codec = 0 then
          let r := ext.SVCDecoder_init ctx1.codec
          if r.1 = false then (false, { ctx1 with codec := r.2 })
          else
            (true,
              { ctx1 with
                codec := r.2
                layers := (ext.SetCommandLayer ctx1.layers 255 0 ext.res0 0).1 })
        else (true, ctx1)
      if opened.1 = false then (GF_Err.GF_IO_ERR, opened.2)
      else (GF_Err.GF_OK, configure_geometry ext { opened.2 with pixel_ar := ⟨1, 1⟩ })

/-! ## `osvcdec_configure_pid` (lines 83-270) -/

/-- The dependency id read at lines 120-121: zero when the property is not set. -/
def PidProps.dep_id (pp : PidProps) : Nat := pp.dependency_id.getD 0

/-- The id read at lines 123-125: `GF_PROP_PID_ID`, else `GF_PROP_PID_ESID`, else zero. -/
def PidProps.id (pp : PidProps) : Nat :=
  match pp.prop_id with
  | some v => v
  | none => pp.esid.getD 0

/-- The decoder configuration when the test of line 128 passes: the property is set, its
data is non-null and its length is not zero. -/
def PidProps.checked_config (pp : PidProps) : Option DecoderConfig :=
  match pp.decoder_config with
  | some dc => if dc.has_data ∧ dc.data_len ≠ 0 then some dc else none
  | none => none

/-- The value of `cfg_crc` after line 129: the checksum of the configuration data, zero
when the test of line 128 fails. -/
def PidProps.cfg_crc (pp : PidProps) : Nat :=
  match pp.checked_config with
  | some dc => dc.crc
  | none => 0

/-- The function `osvcdec_configure_pid` (lines 83-270): the code returned and the context
it leaves, `none` when the call accesses an array out of its bounds. -/
def osvcdec_configure_pid (ext : Extern) (ctx : GF_OSVCDecCtx) (pp : PidProps)
    (is_remove : Bool) : Option (GF_Err × GF_OSVCDecCtx) :=
  if is_remove then configure_remove ctx pp.pid
  else if pp.check_caps = false then some (GF_Err.GF_NOT_SUPPORTED, ctx)
  else
    match (match pp.checked_config with
           | some dc => same_cfg_scan ctx.streams pp.pid dc.crc ctx.nb_streams 0
           | none => some false) with
    | none => none
    | some true => some (GF_Err.GF_OK, ctx)
    | some false =>
      match configure_registry ctx pp.pid pp.id pp.dep_id pp.cfg_crc with
      | none => none
      | some (Flow.ret e ctx1) => some (e, ctx1)
      | some (Flow.next ctx1) => some (configure_decoder ext ctx1 pp.dep_id pp.decoder_config)

/-- The context after a run of configure calls with `is_remove` false, whatever each call
returns; `none` when one of them accesses an array out of its bounds. -/
def attach_all (ext : Extern) : GF_OSVCDecCtx → List PidProps → Option GF_OSVCDecCtx
  | ctx, [] => some ctx
  | ctx, pp :: rest =>
    match osvcdec_configure_pid ext ctx pp false with
    | none => none
    | some r => attach_all ext r.2 rest

/-! ## The frame metadata queue (lines 296-302 and 355-385) -/

/-- The call `gf_realloc(a, sizeof(OSVCDecFrameInfo) * n)`: the first `n` records of `a`
are kept, and a slot the block gains at index `k` holds `fresh k`, the indeterminate
content of newly allocated memory. -/
def gf_realloc (a : List OSVCDecFrameInfo) (n : Nat) (fresh : Nat → OSVCDecFrameInfo) :
    List OSVCDecFrameInfo :=
  a.take n ++ (List.range (n - a.length)).map fun k => fresh (a.length + k)

/-- The function `osvcdec_drop_frameinfo` (lines 296-302). -/
def osvcdec_drop_frameinfo (ctx : GF_OSVCDecCtx) : Option GF_OSVCDecCtx :=
  if ctx.frame_infos_size ≠ 0 then
    match memmove ctx.frame_infos 0 1 (ctx.frame_infos_size - 1) with
    | none => none
    | some moved =>
      some { ctx with frame_infos_size := ctx.frame_infos_size - 1, frame_infos := moved }
  else some ctx

/-- The loop of lines 361-374 for the record `r` (its `cts` is `min_cts`), entered at index
`i` with `n` iterations left: the value of `i` when the loop is left, and the array. -/
def queue_scan (fi : List OSVCDecFrameInfo) (size : Nat) (r : OSVCDecFrameInfo) :
    Nat → Nat → Option (Nat × List OSVCDecFrameInfo)
  | 0, i => some (i, fi)
  | n + 1, i =>
    match fi[i]? with
    | none => none
    | some x =>
      if x.cts = r.cts then some (i, fi)
      else if x.cts > r.cts then
        match memmove fi (i + 1) i (size - i) with
        | none => none
        | some moved => (store moved i r).map fun a => (i, a)
      else queue_scan fi size r n (i + 1)

/-- Lines 355-385 of `osvcdec_process`: the metadata of the reference packet, gathered in
`r` (`r.cts` is `min_cts`), is queued. `fresh` is the content of newly allocated slots. -/
def process_queue_cts (ctx : GF_OSVCDecCtx) (r : OSVCDecFrameInfo)
    (fresh : Nat → OSVCDecFrameInfo) : Option GF_OSVCDecCtx :=
  let ctx1 : GF_OSVCDecCtx :=
    if ctx.frame_infos_size = ctx.frame_infos_alloc then
      { ctx with
        frame_infos_alloc := u32 (ctx.frame_infos_alloc + 10)
        frame_infos := gf_realloc ctx.frame_infos (u32 (ctx.frame_infos_alloc + 10)) fresh }
    else ctx
  let size := ctx1.frame_infos_size
  match (if size = 0 then some true
         else (ctx1.frame_infos[size - 1]?).map fun x => decide (x.cts ≠ r.cts)) with
  | none => none
  | some search =>
    match (if search then queue_scan ctx1.frame_infos size r size 0
           else some (size, ctx1.frame_infos)) with
    | none => none
    | some (i, fi) =>
      match (if i = size then store fi i r else some fi) with
      | none => none
      | some fi2 => some { ctx1 with frame_infos := fi2, frame_infos_size := u32 (size + 1) }

/-- The records in the queue: the first `frame_infos_size` entries of the array. -/
def queued (ctx : GF_OSVCDecCtx) : List OSVCDecFrameInfo :=
  ctx.frame_infos.take ctx.frame_infos_size

/-- One operation on the queue: a push of lines 355-385 or a call of
`osvcdec_drop_frameinfo`. -/
inductive QueueOp
  | push (r : OSVCDecFrameInfo)
  | pop
  deriving DecidableEq, Repr

/-- The context after a run of queue operations. -/
def run_queue (fresh : Nat → OSVCDecFrameInfo) :
    GF_OSVCDecCtx → List QueueOp → Option GF_OSVCDecCtx
  | ctx, [] => some ctx
  | ctx, QueueOp.push r :: rest =>
    match process_queue_cts ctx r fresh with
    | none => none
    | some ctx1 => run_queue fresh ctx1 rest
  | ctx, QueueOp.pop :: rest =>
    match osvcdec_drop_frameinfo ctx with
    | none => none
    | some ctx1 => run_queue fresh ctx1 rest

/-! ## The unit extraction loop (lines 446-497) -/

/-- The loop of lines 449-451, entered at index `i` with `n` iterations left: the bytes
`ptr[i]` are shifted into `nalu_size`. `none` when a byte outside the packet is read. -/
def read_nalu_size (data : List Nat) (ptr : Nat) : Nat → Nat → Nat → Option Nat
  | 0, _, nalu_size => some nalu_size
  | n + 1, i, nalu_size =>
    match data[ptr + i]? with
    | none => none
    | some b => read_nalu_size data ptr n (i + 1) (u32 (nalu_size * 256 + b))

/-- How the loop of lines 446-497 is left: `data_size` reached zero, a `break`, a read of
a length byte outside the packet, or the iteration budget of the embedding ran out. -/
inductive LoopEnd
  | finished
  | stopped
  | bad_read
  | no_fuel
  deriving DecidableEq, Repr

/-- What the loop of lines 446-497 did: the units handed to `decodeNAL` in order, each as
the offset of `ptr` in the packet and the value of `nalu_size`, the final `got_pic`, and
how the loop was left. -/
structure Extracted where
  units : List (Nat × Nat)
  got_pic : Int
  ending : LoopEnd
  deriving DecidableEq, Repr

/-- The loop of lines 446-497 over the packet `data`, with `fuel` iterations allowed.
`w` is `ctx->nalu_size_length`; `next_start_code ptr data_size` is the result of
`gf_media_nalu_next_start_code` and the `sc_size` it stores; `decodeNAL k ptr nalu_size` is
the result of the `k`-th call of `decodeNAL` in this loop. The state of the loop is the
offset `ptr`, `data_size`, `nalu_size`, `got_pic` and the units handed over so far. -/
def extract_loop (data : List Nat) (w : Nat) (next_start_code : Nat → Nat → Nat × Nat)
    (decodeNAL : Nat → Nat → Nat → Int) :
    Nat → Nat → Nat → Nat → Int → List (Nat × Nat) → Extracted
  | 0, _, _, _, got_pic, units => ⟨units, got_pic, LoopEnd.no_fuel⟩
  | fuel + 1, ptr, data_size, nalu_size, got_pic, units =>
    if data_size = 0 then ⟨units, got_pic, LoopEnd.finished⟩
    else if w ≠ 0 then
      match read_nalu_size data ptr w 0 nalu_size with
      | none => ⟨units, got_pic, LoopEnd.bad_read⟩
      | some nalu =>
        let res := decodeNAL units.length (ptr + w) nalu
        let got_pic1 := if got_pic = 0 ∧ res > 0 then res else got_pic
        let units1 := units ++ [(ptr + w, nalu)]
        if data_size < u32 (nalu + w) then ⟨units1, got_pic1, LoopEnd.stopped⟩
        else
          extract_loop data w next_start_code decodeNAL fuel (ptr + w + nalu)
            (data_size - u32 (nalu + w)) nalu got_pic1 units1
    else
      let found := next_start_code ptr data_size
      let res := decodeNAL units.length ptr found.1
      let got_pic1 := if got_pic = 0 ∧ res > 0 then res else got_pic
      let units1 := units ++ [(ptr, found.1)]
      if found.2 = 0 ∨ data_size < u32 (found.1 + found.2) then
        ⟨units1, got_pic1, LoopEnd.stopped⟩
      else
        extract_loop data w next_start_code decodeNAL fuel (ptr + found.1 + found.2)
          (data_size - u32 (found.1 + found.2)) found.1 got_pic1 units1

/-- The extraction of a whole packet in length-prefixed mode: the loop is entered with
`ptr` at the start of the packet, `data_size` its length and `nalu_size = 0`
(lines 427-430); one iteration per remaining byte is allowed, and one more. -/
def extract_units (data : List Nat) (w : Nat) (decodeNAL : Nat → Nat → Nat → Int) :
    Extracted :=
  extract_loop data w (fun _ _ => (0, 0)) decodeNAL (data.length + 1) 0 data.length 0 0 []

/-! ## Properties the claims speak of -/

/-- The array entry `ctx->streams[i]`, an all-zero entry standing for an index outside. -/
def entry (ctx : GF_OSVCDecCtx) (i : Nat) : GF_SVCStream := ctx.streams.getD i zero_stream

/-- The registered channels: the first `nb_streams` entries of `streams`. -/
def registered (ctx : GF_OSVCDecCtx) : List GF_SVCStream := ctx.streams.take ctx.nb_streams

/-- The order the registry is meant to keep: a registered channel whose dependency id is
the id of another registered channel sits at a higher index than that channel. -/
def dependency_ordered (ctx : GF_OSVCDecCtx) : Prop :=
  ∀ i < ctx.nb_streams, ∀ j < ctx.nb_streams,
    i ≠ j → (entry ctx i).dep_id = (entry ctx j).id → j < i

instance (ctx : GF_OSVCDecCtx) : Decidable (dependency_ordered ctx) :=
  inferInstanceAs (Decidable (∀ i < ctx.nb_streams, ∀ j < ctx.nb_streams,
    i ≠ j → (entry ctx i).dep_id = (entry ctx j).id → j < i))

/-- The spec's insertion, first case: the new entry goes right after the first channel
whose id is the new dependency id; `none` when there is no such channel. -/
def spec_insert_after (e : GF_SVCStream) : List GF_SVCStream → Option (List GF_SVCStream)
  | [] => none
  | s :: rest =>
    if s.id = e.dep_id then some (s :: e :: rest)
    else (spec_insert_after e rest).map fun r => s :: r

/-- The spec's insertion, second case: the new entry goes right before the first channel
whose dependency id is the new id; `none` when there is no such channel. -/
def spec_insert_before (e : GF_SVCStream) : List GF_SVCStream → Option (List GF_SVCStream)
  | [] => none
  | s :: rest =>
    if s.dep_id = e.id then some (e :: s :: rest)
    else (spec_insert_before e rest).map fun r => s :: r

/-- The insertion as the spec words it (section 4.1): after the first channel whose id is
the new dependency id, else before the first channel whose dependency id is the new id,
else at the end. -/
def spec_insert (l : List GF_SVCStream) (e : GF_SVCStream) : List GF_SVCStream :=
  match spec_insert_after e l with
  | some r => r
  | none =>
    match spec_insert_before e l with
    | some r => r
    | none => l ++ [e]

/-- The queue is in ascending order of `cts`. -/
def cts_ascending (ctx : GF_OSVCDecCtx) : Prop :=
  ((queued ctx).map OSVCDecFrameInfo.cts).Pairwise (fun a b => a ≤ b)

instance (ctx : GF_OSVCDecCtx) : Decidable (cts_ascending ctx) :=
  inferInstanceAs (Decidable (List.Pairwise _ _))

/-- No two records of the queue have the same `cts`. -/
def cts_distinct (ctx : GF_OSVCDecCtx) : Prop :=
  ((queued ctx).map OSVCDecFrameInfo.cts).Nodup

instance (ctx : GF_OSVCDecCtx) : Decidable (cts_distinct ctx) :=
  inferInstanceAs (Decidable (List.Nodup _))

/-- The `w` bytes of the big-endian length field holding `len`. -/
def length_field (w len : Nat) : List Nat :=
  (List.range w).map fun i => len / 256 ^ (w - 1 - i) % 256

/-- A packet in length-prefixed framing: each payload behind its `w`-byte length field. -/
def encode_records (w : Nat) : List (List Nat) → List Nat
  | [] => []
  | payload :: rest => length_field w payload.length ++ payload ++ encode_records w rest

/-- Where the payloads of `encode_records` lie in a packet that starts at offset `at0`:
the offset and the length of each. -/
def payload_units (w : Nat) : Nat → List (List Nat) → List (Nat × Nat)
  | _, [] => []
  | at0, payload :: rest =>
    (at0 + w, payload.length) :: payload_units w (at0 + w + payload.length) rest

/-- A unit, given by its offset and length, lies inside a packet of `size` bytes. -/
def unit_inside (size : Nat) (u : Nat × Nat) : Prop := u.1 + u.2 ≤ size

instance (size : Nat) (u : Nat × Nat) : Decidable (unit_inside size u) :=
  inferInstanceAs (Decidable (u.1 + u.2 ≤ size))

/-! ## Concrete collaborators, pids and states -/

/-- Collaborators for the concrete runs: the engine opens with handle 1, `SetCommandLayer`
leaves the table and the temporal command as they are, the new output pid is 2. -/
def ext_sample : Extern := ⟨fun _ => (true, 1), fun cmd _ _ tcom _ => (cmd, tcom), 2, 0⟩

/-- A pid that passes the capability check and has an id, a dependency id and no decoder
configuration. -/
def plain_pid (pid id dep_id : Nat) : PidProps := ⟨pid, true, some dep_id, some id, none, none⟩

/-- A pid that passes the capability check and has an id, a dependency id and a decoder
configuration of eight bytes with checksum `crc`, 4-byte length fields and no parameter
sets. -/
def avc_pid (pid id dep_id crc : Nat) : PidProps :=
  ⟨pid, true, some dep_id, some id, none, some ⟨true, 8, crc, some ⟨4, [], 0⟩⟩⟩

/-- The context after the chain base (pid 10, id 1), middle layer (pid 20, id 2, depends
on 1) and top layer (pid 30, id 3, depends on 2) was attached in this order. -/
def ctx_chain : GF_OSVCDecCtx :=
  { ctx_init with
    opid := 2
    streams := [⟨10, 0, 1, 0⟩, ⟨20, 0, 2, 1⟩, ⟨30, 0, 3, 2⟩]
    nb_streams := 3
    active_streams := 3
    stride := 32
    pixel_ar := ⟨1, 1⟩
    codec := 1
    LimitDqId := -1 }

/-- The context after the top layer (pid 30, id 3, depends on 2) and then the base
(pid 10, id 1) was attached. -/
def ctx_top_base : GF_OSVCDecCtx :=
  { ctx_chain with
    streams := [⟨30, 0, 3, 2⟩, ⟨10, 0, 1, 0⟩, zero_stream]
    nb_streams := 2
    active_streams := 2 }

/-- The context after a base without decoder configuration (pid 10, id 1) was attached and
the process step observed the quality id 16. -/
def ctx_base_running : GF_OSVCDecCtx :=
  { ctx_chain with
    streams := [⟨10, 0, 1, 0⟩, zero_stream, zero_stream]
    nb_streams := 1
    active_streams := 1
    MaxDqId := 16 }

/-- The context after a base with decoder configuration (pid 10, id 1, checksum 7) and an
enhancement layer (pid 20, id 2, depends on 1, checksum 9) was attached. -/
def ctx_avc_pair : GF_OSVCDecCtx :=
  { ctx_chain with
    streams := [⟨10, 7, 1, 0⟩, ⟨20, 9, 2, 1⟩, zero_stream]
    nb_streams := 2
    active_streams := 2
    nalu_size_length := 4
    pixel_ar := ⟨0, 0⟩ }

/-- A metadata record with the given `cts`, duration 40, no random access, no seek. -/
def frame_at (cts : Nat) : OSVCDecFrameInfo := ⟨cts, 40, 0, 0⟩

/-- Newly allocated memory that happens to be all zero. -/
def fresh_zero : Nat → OSVCDecFrameInfo := fun _ => ⟨0, 0, 0, 0⟩

/-! ## `osvcdec_process_event` (lines 273-294) -/

/-- The filter events the function tells apart: a quality switch, up or down, and any
other event. -/
inductive GF_FilterEvent
  | quality_switch (up : Bool)
  | other
  deriving DecidableEq, Repr

/-- The fields of the context the engine call `UpdateLayer` reads and writes through its
pointer arguments. -/
structure LayerState where
  DqIdTable : List Int
  LimitDqId : Int
  TemporalCom : Int
  TemporalId : Int
  deriving DecidableEq, Repr

/-- The layer state of a context. -/
def layer_state (ctx : GF_OSVCDecCtx) : LayerState :=
  ⟨ctx.DqIdTable, ctx.LimitDqId, ctx.TemporalCom, ctx.TemporalId⟩

/-- The call `UpdateLayer(ctx->DqIdTable, &ctx->LimitDqId, &ctx->TemporalCom,
&ctx->TemporalId, ctx->MaxDqId, command)` of lines 283 and 287, for an engine whose
`UpdateLayer` maps the layer state, `MaxDqId` and the command to the layer state it
leaves. -/
def call_UpdateLayer (UpdateLayer : LayerState → Int → Int → LayerState)
    (ctx : GF_OSVCDecCtx) (command : Int) : GF_OSVCDecCtx :=
  let l := UpdateLayer (layer_state ctx) ctx.MaxDqId command
  { ctx with
    DqIdTable := l.DqIdTable
    LimitDqId := l.LimitDqId
    TemporalCom := l.TemporalCom
    TemporalId := l.TemporalId }

/-- The function `osvcdec_process_event` (lines 273-294): the value returned (always
`GF_FALSE`) and the context it leaves. -/
def osvcdec_process_event (UpdateLayer : LayerState → Int → Int → LayerState)
    (ctx : GF_OSVCDecCtx) (fevt : GF_FilterEvent) : Bool × GF_OSVCDecCtx :=
  match fevt with
  | GF_FilterEvent.quality_switch up =>
    if up then
      let ctx1 : GF_OSVCDecCtx :=
        if ctx.LimitDqId = -1 then { ctx with LimitDqId := ctx.MaxDqId } else ctx
      if ctx1.LimitDqId < ctx1.MaxDqId then (false, call_UpdateLayer UpdateLayer ctx1 1)
      else (false, ctx1)
    else if ctx.LimitDqId > 0 then (false, call_UpdateLayer UpdateLayer ctx 0)
    else (false, ctx)
  | GF_FilterEvent.other => (false, ctx)

/-- The context after a run of events. -/
def run_events (UpdateLayer : LayerState → Int → Int → LayerState) :
    GF_OSVCDecCtx → List GF_FilterEvent → GF_OSVCDecCtx
  | ctx, [] => ctx
  | ctx, fevt :: rest =>
    run_events UpdateLayer (osvcdec_process_event UpdateLayer ctx fevt).2 rest

/-- Modelled from the spec: the engine function `UpdateLayer` of the OpenSVC library, which
is not part of the source file. It moves the ceiling one layer in the commanded direction:
`LimitDqId` goes up by one for command 1 and down by one for any other command. What the
call leaves in the table and in the temporal fields is given by `relayer`. -/
def UpdateLayer_one_layer (relayer : LayerState → Int → Int → List Int × Int × Int)
    (l : LayerState) (MaxDqId command : Int) : LayerState :=
  let r := relayer l MaxDqId command
  ⟨r.1, if command = 1 then l.LimitDqId + 1 else l.LimitDqId - 1, r.2.1, r.2.2⟩

/-! ## `osvcdec_process`: input packets and collaborators -/

/-- The constant `GF_FILTER_NO_TS`, the `u64` value that stands for an absent time. -/
def GF_FILTER_NO_TS : Nat := 18446744073709551615

/-- Reduction of a natural number to the range of the C type `u64`. -/
def u64 (n : Nat) : Nat := n % 18446744073709551616

/-- The conversion of an `int` to `u32`, as in a comparison of an `int` with a `u32`. -/
def int_to_u32 (x : Int) : Nat := (x % 4294967296).toNat

/-- The conversion of a `u32` to `int` (two's complement). -/
def u32_to_int (n : Nat) : Int :=
  if n % 4294967296 < 2147483648 then ((n % 4294967296 : Nat) : Int)
  else ((n % 4294967296 : Nat) : Int) - 4294967296

/-- An input packet as the host reports it: decode and presentation time, the data
(`none` when `gf_filter_pck_get_data` gives `NULL`), the duration, the random-access type
(a value of `GF_FilterSAPType`, below 256) and the seek flag. -/
structure GF_FilterPacket where
  dts : Nat
  cts : Nat
  data : Option (List Nat)
  duration : Nat
  sap : Nat
  seek_flag : Bool
  deriving DecidableEq, Repr

/-- The call `gf_filter_pck_get_dts`. -/
def gf_filter_pck_get_dts (p : GF_FilterPacket) : Nat := u64 p.dts

/-- The call `gf_filter_pck_get_cts`. -/
def gf_filter_pck_get_cts (p : GF_FilterPacket) : Nat := u64 p.cts

/-- The decode time of lines 330-340 and 401-403: the `dts`, or the `cts` when the `dts`
is `GF_FILTER_NO_TS`. -/
def effective_dts (p : GF_FilterPacket) : Nat :=
  if gf_filter_pck_get_dts p = GF_FILTER_NO_TS then gf_filter_pck_get_cts p
  else gf_filter_pck_get_dts p

/-- The packet queues of the input pids after `gf_filter_pid_drop_packet` on `pid`, whose
queue was `q` with one packet ahead of it. -/
def set_queue (pending : Nat → List GF_FilterPacket) (pid : Nat) (q : List GF_FilterPacket) :
    Nat → List GF_FilterPacket :=
  fun x => if x = pid then q else pending x

/-- The struct `OPENSVCFRAME` as far as the filter reads it: the size of the picture, as
the unsigned values compared with `ctx->width` and `ctx->height`. -/
structure OPENSVCFRAME where
  Width : Nat
  Height : Nat
  deriving DecidableEq, Repr

/-- The collaborators of one process step whose code is outside this file.
`GetDqIdMax data data_size nalu_size_length DqIdTable flag` gives the value returned and the
table left; `next_start_code data ptr data_size` is `gf_media_nalu_next_start_code` on the
bytes at offset `ptr`, with the `sc_size` it stores; `decodeNAL idx k ptr nalu_size` is the
result of the `k`-th call of `decodeNAL` for the packet of channel `idx`; `pic` is what the
engine left in `pic` when the loop of lines 388-501 ends; `fresh` is the content of newly
allocated memory. -/
structure StepEnv where
  GetDqIdMax : List Nat → Nat → Nat → List Int → Nat → Nat × List Int
  next_start_code : List Nat → Nat → Nat → Nat × Nat
  decodeNAL : Nat → Nat → Nat → Nat → Int
  pic : OPENSVCFRAME
  fresh : Nat → OSVCDecFrameInfo

/-- A packet sent on the output pid (lines 525-535): its size, the three plane copies as
offset and length in its data, and the properties set on it. -/
structure OutPacket where
  size : Nat
  copies : List (Nat × Nat)
  cts : Nat
  sap : Nat
  duration : Nat
  deriving DecidableEq, Repr

/-- What one call of `osvcdec_process` did (it always returns `GF_OK`): the context and
the input queues it leaves, the units handed to `decodeNAL` (channel index, offset in the
packet, `nalu_size`), the packets sent, whether `gf_filter_pid_set_eos` was called, the
value of `has_pic`, and whether the output properties of lines 511-517 were set. -/
structure Stepped where
  ctx : GF_OSVCDecCtx
  pending : Nat → List GF_FilterPacket
  decoded : List (Nat × Nat × Nat)
  sent : List OutPacket
  eos_sent : Bool
  has_pic : Bool
  resized : Bool

/-! ## `osvcdec_process`: the synchronizer (lines 318-353) -/

/-- The state of the loop of lines 318-348: the input queues and the locals `nb_eos`,
`min_dts`, `min_cts` and `pck_ref` (`none` for `NULL`). -/
structure Sync where
  pending : Nat → List GF_FilterPacket
  nb_eos : Nat
  min_dts : Nat
  min_cts : Nat
  pck_ref : Option GF_FilterPacket

/-- How the loop of lines 318-348 is left: by the `return GF_OK` of line 326, with the
input queues as they are then, or at its end. -/
inductive SyncEnd
  | postponed (pending : Nat → List GF_FilterPacket)
  | scanned (s : Sync)

/-- Lines 340-347: a packet with data takes over as the reference when its decode time is
below `min_dts`. -/
def sync_pick (s : Sync) (p : GF_FilterPacket) : Sync :=
  if s.min_dts > effective_dts p then
    { s with
      min_dts := effective_dts p
      min_cts :=
        if gf_filter_pck_get_cts p = GF_FILTER_NO_TS then effective_dts p
        else gf_filter_pck_get_cts p
      pck_ref := some p }
  else s

/-- The body of the loop of lines 318-348 for the channel with input pid `pid`, whose
packet queue is the list. A packet without data is dropped and the body runs again on the
same channel (`idx--; continue`, lines 335-339), that is on the rest of the queue. -/
def sync_channel (pid : Nat) (eos : Bool) : List GF_FilterPacket → Sync → SyncEnd
  | [], s =>
    if eos then SyncEnd.scanned { s with nb_eos := u32 (s.nb_eos + 1) }
    else SyncEnd.postponed s.pending
  | p :: rest, s =>
    match p.data with
    | none => sync_channel pid eos rest { s with pending := set_queue s.pending pid rest }
    | some _ => SyncEnd.scanned (sync_pick s p)

/-- The loop of lines 318-348, entered at channel `i` with `n` channels left. -/
def sync_scan (ctx : GF_OSVCDecCtx) (eos : Nat → Bool) : Nat → Nat → Sync → Option SyncEnd
  | 0, _, s => some (SyncEnd.scanned s)
  | n + 1, i, s =>
    match ctx.streams[i]? with
    | none => none
    | some st =>
      match sync_channel st.ipid (eos st.ipid) (s.pending st.ipid) s with
      | SyncEnd.postponed pending => some (SyncEnd.postponed pending)
      | SyncEnd.scanned s1 => sync_scan ctx eos n (i + 1) s1

/-- The locals of the synchronizer before the loop (lines 307-316). -/
def sync_start (pending : Nat → List GF_FilterPacket) : Sync :=
  ⟨pending, 0, GF_FILTER_NO_TS, GF_FILTER_NO_TS, none⟩

/-! ## `osvcdec_process`: decoding (lines 387-501) -/

/-- Lines 427-497 for one packet: in start-code mode the first start code is skipped, or
the packet is discarded (`none`) when there is none; then the extraction loop runs with
`fuel` iterations allowed. -/
def unit_extraction (fuel : Nat) (next_start_code : List Nat → Nat → Nat → Nat × Nat)
    (decodeNAL : Nat → Nat → Nat → Int) (w : Nat) (data : List Nat) : Option Extracted :=
  if w = 0 then
    let found := next_start_code data 0 data.length
    if found.2 ≠ 0 then
      some (extract_loop data w (next_start_code data) decodeNAL fuel
        (u32 (found.1 + found.2))
        (u32 (data.length + (4294967296 - u32 (found.1 + found.2)))) 0 0 [])
    else none
  else some (extract_loop data w (next_start_code data) decodeNAL fuel 0 data.length 0 0 [])

/-- The state of the loop of lines 388-501: the context, the input queues, the units
handed to `decodeNAL` so far and `has_pic`. -/
structure Decode where
  ctx : GF_OSVCDecCtx
  pending : Nat → List GF_FilterPacket
  decoded : List (Nat × Nat × Nat)
  has_pic : Bool

/-- Lines 411-425: the quality id of the access unit is read, `MaxDqId` follows it, the
ceiling `LimitDqId` caps it, and the command table is set. -/
def select_layers (ext : Extern) (env : StepEnv) (ctx : GF_OSVCDecCtx) (data : List Nat) :
    GF_OSVCDecCtx :=
  let dq := env.GetDqIdMax data data.length ctx.nalu_size_length ctx.DqIdTable
    (if ctx.nalu_size_length ≠ 0 then 1 else 0)
  let maxDqIdInAU := u32 dq.1
  let MaxDqId : Int :=
    if int_to_u32 ctx.MaxDqId ≤ maxDqIdInAU then u32_to_int maxDqIdInAU else ctx.MaxDqId
  let capped : Nat :=
    if 0 ≤ ctx.LimitDqId ∧ int_to_u32 ctx.LimitDqId < maxDqIdInAU then int_to_u32 ctx.LimitDqId
    else maxDqIdInAU
  let cmd := ext.SetCommandLayer ctx.layers MaxDqId (u32_to_int capped) ctx.TemporalCom
    ctx.TemporalId
  { ctx with DqIdTable := dq.2, MaxDqId := MaxDqId, layers := cmd.1, TemporalCom := cmd.2 }

/-- The body of the loop of lines 388-501 for channel `idx` with input pid `pid`, whose
packet queue is the list. When a packet is discarded for want of a start code the body
runs again on the same channel (`idx--; continue`, lines 440-442), that is on the rest of
the queue. `none` when the extraction reads outside the packet or does not end within
`fuel` iterations. -/
def decode_channel (fuel : Nat) (ext : Extern) (env : StepEnv) (idx pid min_dts min_cts : Nat) :
    List GF_FilterPacket → Decode → Option Decode
  | [], d => some d
  | p :: rest, d =>
    if idx ≥ d.ctx.active_streams then
      some { d with pending := set_queue d.pending pid rest }
    else if (min_dts ≠ GF_FILTER_NO_TS ∧ min_dts ≠ effective_dts p) ∨
        (min_dts = GF_FILTER_NO_TS ∧ min_cts ≠ gf_filter_pck_get_cts p) then some d
    else
      let data := p.data.getD []
      let ctx1 := select_layers ext env d.ctx data
      match unit_extraction fuel env.next_start_code (env.decodeNAL idx)
          ctx1.nalu_size_length data with
      | none =>
        decode_channel fuel ext env idx pid min_dts min_cts rest
          { d with ctx := ctx1, pending := set_queue d.pending pid rest }
      | some x =>
        if x.ending = LoopEnd.bad_read ∨ x.ending = LoopEnd.no_fuel then none
        else
          some
            { ctx := ctx1
              pending := set_queue d.pending pid rest
              decoded := d.decoded ++ x.units.map fun u => (idx, u.1, u.2)
              has_pic := d.has_pic || decide (x.got_pic ≠ 0) }

/-- The loop of lines 388-501, entered at channel `i` with `n` channels left. -/
def decode_scan (fuel : Nat) (ext : Extern) (env : StepEnv) (min_dts min_cts : Nat) :
    Nat → Nat → Decode → Option Decode
  | 0, _, d => some d
  | n + 1, i, d =>
    match d.ctx.streams[i]? with
    | none => none
    | some st =>
      match decode_channel fuel ext env i st.ipid min_dts min_cts (d.pending st.ipid) d with
      | none => none
      | some d1 => decode_scan fuel ext env min_dts min_cts n (i + 1) d1

/-! ## `osvcdec_process`: output (lines 502-538) and the whole step -/

/-- The value of `ctx->out_size` for a stride and a height (lines 253 and 509):
`stride * height * 3 / 2` in `u32`. -/
def frame_size (stride height : Nat) : Nat := u32 (u32 (stride * height) * 3) / 2

/-- The three `memcpy` calls of lines 526-528 as offset and length in the output data:
luma, first chroma, second chroma, each computed in `u32`. -/
def plane_copies (stride height : Nat) : List (Nat × Nat) :=
  [(0, u32 (stride * height)),
   (u32 (stride * height), u32 (stride * height) / 4),
   (u32 (u32 (5 * stride) * height) / 4, u32 (stride * height) / 4)]

/-- Lines 504-518: the context takes the size of the picture when it differs. -/
def resize_to (pic : OPENSVCFRAME) (ctx : GF_OSVCDecCtx) : GF_OSVCDecCtx :=
  if pic.Width ≠ ctx.width ∨ pic.Height ≠ ctx.height then
    { ctx with
      width := pic.Width
      stride := u32 (pic.Width + 32)
      height := pic.Height
      out_size := frame_size (u32 (pic.Width + 32)) pic.Height }
  else ctx

/-- Lines 502-538, entered with the state the decoding loop left. -/
def process_output (env : StepEnv) (d : Decode) : Option Stepped :=
  if d.has_pic = false then some ⟨d.ctx, d.pending, d.decoded, [], false, false, false⟩
  else
    let resized : Bool := decide (env.pic.Width ≠ d.ctx.width ∨ env.pic.Height ≠ d.ctx.height)
    let ctx1 := resize_to env.pic d.ctx
    match ctx1.frame_infos[0]? with
    | none => none
    | some head =>
      if head.seek_flag ≠ 0 then
        (osvcdec_drop_frameinfo ctx1).map fun ctx2 =>
          ⟨ctx2, d.pending, d.decoded, [], false, true, resized⟩
      else
        (osvcdec_drop_frameinfo ctx1).map fun ctx2 =>
          ⟨ctx2, d.pending, d.decoded,
            [⟨ctx1.out_size, plane_copies ctx1.stride ctx1.height, head.cts, head.sap_type,
              head.duration⟩],
            false, true, resized⟩

/-- How the part of `osvcdec_process` ahead of line 502 ends: the function returns there,
or the decoding loop was run. -/
inductive Front
  | returned (r : Stepped)
  | decoded (d : Decode)

/-- Lines 318-501 of `osvcdec_process`: synchronizer, metadata queue and decoding loop. -/
def process_front (fuel : Nat) (ext : Extern) (env : StepEnv) (ctx : GF_OSVCDecCtx)
    (pending : Nat → List GF_FilterPacket) (eos : Nat → Bool) : Option Front :=
  match sync_scan ctx eos ctx.active_streams 0 (sync_start pending) with
  | none => none
  | some (SyncEnd.postponed pending1) =>
    some (Front.returned ⟨ctx, pending1, [], [], false, false, false⟩)
  | some (SyncEnd.scanned s) =>
    if s.nb_eos = ctx.active_streams then
      some (Front.returned ⟨ctx, s.pending, [], [], true, false, false⟩)
    else if s.min_cts = GF_FILTER_NO_TS then
      some (Front.returned ⟨ctx, s.pending, [], [], false, false, false⟩)
    else
      match s.pck_ref with
      | none => none
      | some pck_ref =>
        match process_queue_cts ctx
            ⟨s.min_cts, pck_ref.duration, pck_ref.sap, if pck_ref.seek_flag then 1 else 0⟩
            env.fresh with
        | none => none
        | some ctx1 =>
          (decode_scan fuel ext env s.min_dts s.min_cts ctx1.nb_streams 0
            ⟨ctx1, s.pending, [], false⟩).map Front.decoded

/-- The function `osvcdec_process` (lines 304-539) on the context `ctx`, with the packet
queues `pending` and the end-of-stream flags `eos` of the input pids. `fuel` is the number
of iterations allowed to each unit extraction loop. `none` when the call accesses memory
out of bounds or an extraction loop does not end within `fuel` iterations. -/
def osvcdec_process (fuel : Nat) (ext : Extern) (env : StepEnv) (ctx : GF_OSVCDecCtx)
    (pending : Nat → List GF_FilterPacket) (eos : Nat → Bool) : Option Stepped :=
  match process_front fuel ext env ctx pending eos with
  | none => none
  | some (Front.returned r) => some r
  | some (Front.decoded d) => process_output env d

/-- The results of a run of process steps, one set of collaborators for each step. -/
def run_steps (fuel : Nat) (ext : Extern) (eos : Nat → Bool) :
    List StepEnv → GF_OSVCDecCtx → (Nat → List GF_FilterPacket) → Option (List Stepped)
  | [], _, _ => some []
  | env :: envs, ctx, pending =>
    match osvcdec_process fuel ext env ctx pending eos with
    | none => none
    | some r => (run_steps fuel ext eos envs r.ctx r.pending).map fun rs => r :: rs

/-- The ceiling is unset or between 0 and the observed maximum. -/
def ceiling_ok (ctx : GF_OSVCDecCtx) : Prop :=
  ctx.LimitDqId = -1 ∨ (0 ≤ ctx.LimitDqId ∧ ctx.LimitDqId ≤ ctx.MaxDqId)

instance (ctx : GF_OSVCDecCtx) : Decidable (ceiling_ok ctx) :=
  inferInstanceAs (Decidable (_ ∨ _))

/-- Two regions, each given by offset and length, do not overlap. -/
def regions_disjoint (a b : Nat × Nat) : Prop := a.1 + a.2 ≤ b.1 ∨ b.1 + b.2 ≤ a.1

/-- The pending access unit of a channel: the first packet of its queue that carries
data. -/
def pending_unit : List GF_FilterPacket → Option GF_FilterPacket
  | [] => none
  | p :: rest =>
    match p.data with
    | none => pending_unit rest
    | some _ => some p

/-- The pending access units of the channels `i`, ..., `i + n - 1`, in index order. -/
def active_units (ctx : GF_OSVCDecCtx) (pending : Nat → List GF_FilterPacket) :
    Nat → Nat → List GF_FilterPacket
  | 0, _ => []
  | n + 1, i =>
    (pending_unit (pending (entry ctx i).ipid)).toList ++ active_units ctx pending n (i + 1)

/-- Two synchronizer states hold the same selection. -/
def same_choice (s t : Sync) : Prop :=
  s.min_dts = t.min_dts ∧ s.min_cts = t.min_cts ∧ s.pck_ref = t.pck_ref

/-- The heap array holds `frame_infos_alloc` records, the queue fits in it, and the next
growth of the array does not wrap in `u32`. -/
def queue_ok (ctx : GF_OSVCDecCtx) : Prop :=
  ctx.frame_infos.length = ctx.frame_infos_alloc ∧
    ctx.frame_infos_size ≤ ctx.frame_infos_alloc ∧
    ctx.frame_infos_alloc + 10 < 4294967296

instance (ctx : GF_OSVCDecCtx) : Decidable (queue_ok ctx) :=
  inferInstanceAs (Decidable (_ ∧ _ ∧ _))

/-- The second context differs from the first in the fields the decoding loop writes at
most: `DqIdTable`, `MaxDqId`, `layers` and `TemporalCom`. -/
def layers_only (c c1 : GF_OSVCDecCtx) : Prop :=
  c1 = { c with
    DqIdTable := c1.DqIdTable
    MaxDqId := c1.MaxDqId
    layers := c1.layers
    TemporalCom := c1.TemporalCom }

/-- The second context differs from the first in the fields of the metadata queue at
most. -/
def queue_only (c c1 : GF_OSVCDecCtx) : Prop :=
  c1 = { c with
    frame_infos := c1.frame_infos
    frame_infos_alloc := c1.frame_infos_alloc
    frame_infos_size := c1.frame_infos_size }

/-- The relation `stride = width + 32`, `out_size = stride * height * 3 / 2`, in `u32`. -/
def geometry_ok (ctx : GF_OSVCDecCtx) : Prop :=
  ctx.stride = u32 (ctx.width + 32) ∧ ctx.out_size = u32 (u32 (ctx.stride * ctx.height) * 3) / 2

instance (ctx : GF_OSVCDecCtx) : Decidable (geometry_ok ctx) :=
  inferInstanceAs (Decidable (_ ∧ _))

/-- The geometry fields of a context: width, height, stride and output size. -/
def geometry (ctx : GF_OSVCDecCtx) : Nat × Nat × Nat × Nat :=
  (ctx.width, ctx.height, ctx.stride, ctx.out_size)

/-- The context holds one channel with input pid `pid` and prefix width `w`, and its
metadata queue is empty in an array of `frame_infos_alloc` records. -/
def single_channel (ctx : GF_OSVCDecCtx) (pid w : Nat) : Prop :=
  (ctx.streams[0]?).map GF_SVCStream.ipid = some pid ∧
    ctx.nb_streams = 1 ∧ ctx.active_streams = 1 ∧ ctx.nalu_size_length = w ∧
    ctx.frame_infos_size = 0 ∧ ctx.frame_infos.length = ctx.frame_infos_alloc

instance (ctx : GF_OSVCDecCtx) (pid w : Nat) : Decidable (single_channel ctx pid w) :=
  inferInstanceAs (Decidable (_ ∧ _ ∧ _ ∧ _ ∧ _ ∧ _))

/-- The access unit `p` has a presentation time and no seek flag, and with the
collaborators `env` its extraction in a single-channel step hands it to the engine,
ends within `fuel` iterations without a read outside the packet, and completes a
picture. -/
def completes_picture (fuel : Nat) (env : StepEnv) (w : Nat) (p : GF_FilterPacket) : Bool :=
  !p.seek_flag && decide (gf_filter_pck_get_cts p ≠ GF_FILTER_NO_TS) &&
    match p.data with
    | none => false
    | some data =>
      match unit_extraction fuel env.next_start_code (env.decodeNAL 0) w data with
      | none => false
      | some x =>
        decide (x.got_pic ≠ 0) && decide (x.ending ≠ LoopEnd.bad_read) &&
          decide (x.ending ≠ LoopEnd.no_fuel)

/-- The fields that tell which channels are attached and how their packets are framed
are the same in both contexts. -/
def same_setup (c c1 : GF_OSVCDecCtx) : Prop :=
  c1.streams = c.streams ∧ c1.nb_streams = c.nb_streams ∧
    c1.active_streams = c.active_streams ∧ c1.nalu_size_length = c.nalu_size_length

/-- The packets sent in a run of process steps, in order. -/
def all_sent : List Stepped → List OutPacket
  | [] => []
  | r :: rs => r.sent ++ all_sent rs

/-- Collaborators for the concrete process steps: `GetDqIdMax` finds quality id 0 and
leaves the table, no start code is found, every `decodeNAL` call returns 1 (a picture is
complete), the picture is 16 by 16, and newly allocated memory is all zero. -/
def env_sample : StepEnv :=
  ⟨fun _ _ _ table _ => (0, table), fun _ _ _ => (0, 0), fun _ _ _ _ => 1, ⟨16, 16⟩, fresh_zero⟩

/-- The input queues when only the pid `pid` has packets, `q`. -/
def one_queue (pid : Nat) (q : List GF_FilterPacket) : Nat → List GF_FilterPacket :=
  fun x => if x = pid then q else []

/-- An access unit with decode and presentation time `t`: one unit of one byte behind a
4-byte length field, duration 40, random-access type 1, no seek flag. -/
def unit_packet (t : Nat) : GF_FilterPacket := ⟨t, t, some [0, 0, 0, 1, 9], 40, 1, false⟩

/-- The context after a base with decoder configuration (pid 10, id 1, checksum 7, 4-byte
length fields) was attached. -/
def ctx_avc_base : GF_OSVCDecCtx :=
  { ctx_avc_pair with
    streams := [⟨10, 7, 1, 0⟩, zero_stream, zero_stream]
    nb_streams := 1
    active_streams := 1 }

/-- The head packet of a queue, if there is one, carries data. -/
def head_has_data : List GF_FilterPacket → Bool
  | [] => true
  | p :: _ => p.data.isSome

/-- The selection the loop of lines 318-348 ends with: `min_dts`, `min_cts` and `pck_ref`;
`none` when the loop is left by the return of line 326 or reads outside the array. -/
def sync_choice : Option SyncEnd → Option (Nat × Nat × Option GF_FilterPacket)
  | some (SyncEnd.scanned s) => some (s.min_dts, s.min_cts, s.pck_ref)
  | _ => none

/-- An access unit with data and neither decode nor presentation time. -/
def untimed_packet : GF_FilterPacket :=
  ⟨GF_FILTER_NO_TS, GF_FILTER_NO_TS, some [0, 0, 0, 1, 9], 40, 1, false⟩

/-- The input queues of a base (pid 10) with an access unit at time 5 and of an
enhancement layer (pid 20) with a packet without data ahead of an access unit at time 3. -/
def two_queues : Nat → List GF_FilterPacket :=
  fun x =>
    if x = 10 then [unit_packet 5]
    else if x = 20 then [⟨0, 0, none, 0, 0, false⟩, unit_packet 3]
    else []

/-- An `UpdateLayer` that leaves the table and the temporal fields as they are. -/
def relayer_sample : LayerState → Int → Int → List Int × Int × Int :=
  fun l _ _ => (l.DqIdTable, l.TemporalCom, l.TemporalId)

/-! ## Runs of calls -/

/-- One call of the host into the filter, with what the host and the engine hold for it:
a configure call, a process step or an event. -/
inductive Call
  | configure (ext : Extern) (pp : PidProps) (is_remove : Bool)
  | process (fuel : Nat) (ext : Extern) (env : StepEnv)
      (pending : Nat → List GF_FilterPacket) (eos : Nat → Bool)
  | event (UpdateLayer : LayerState → Int → Int → LayerState) (fevt : GF_FilterEvent)

/-- The context a call leaves; `none` when the call reads or writes outside an array or
an extraction does not end within its fuel. -/
def call_ctx (ctx : GF_OSVCDecCtx) : Call → Option GF_OSVCDecCtx
  | Call.configure ext pp is_remove =>
    (osvcdec_configure_pid ext ctx pp is_remove).map Prod.snd
  | Call.process fuel ext env pending eos =>
    (osvcdec_process fuel ext env ctx pending eos).map Stepped.ctx
  | Call.event UpdateLayer fevt => some (osvcdec_process_event UpdateLayer ctx fevt).2

/-- The contexts after each call of a run of calls. -/
def run_calls : List Call → GF_OSVCDecCtx → Option (List GF_OSVCDecCtx)
  | [], _ => some []
  | c :: cs, ctx =>
    match call_ctx ctx c with
    | none => none
    | some c1 => (run_calls cs c1).map (fun l => c1 :: l)

/-- A run of three calls: a process step on the access unit at time 1 of pid 10, in which
the engine completes a picture of 16 by 16, a quality switch up, and the attach of an
enhancement layer (pid 20, id 2, dependency-id 1) without decoder configuration. -/
def calls_sample : List Call :=
  [Call.process 4 ext_sample env_sample (one_queue 10 [unit_packet 1]) (fun _ => false),
    Call.event (UpdateLayer_one_layer relayer_sample) (GF_FilterEvent.quality_switch true),
    Call.configure ext_sample (plain_pid 20 2 1) false]

/-! ## The geometry update of a configure call -/

/-- Whether a configure call runs lines 250-253: it is an attach that passes the
capability check, is not answered by the early return of line 131, goes through lines
135-188 without return, and leaves lines 190-249 without an error. -/
def reaches_geometry_update (ext : Extern) (ctx : GF_OSVCDecCtx) (pp : PidProps)
    (is_remove : Bool) : Bool :=
  if is_remove then false
  else if pp.check_caps = false then false
  else
    match (match pp.checked_config with
           | some dc => same_cfg_scan ctx.streams pp.pid dc.crc ctx.nb_streams 0
           | none => some false) with
    | none => false
    | some true => false
    | some false =>
      match configure_registry ctx pp.pid pp.id pp.dep_id pp.cfg_crc with
      | none => false
      | some (Flow.ret _ _) => false
      | some (Flow.next ctx1) =>
        decide ((configure_decoder ext ctx1 pp.dep_id pp.decoder_config).1 = GF_Err.GF_OK)

/-- The geometry fields after a process step that completed a picture of another size
(lines 506-509). -/
def picture_geometry (pic : OPENSVCFRAME) : Nat × Nat × Nat × Nat :=
  (pic.Width, pic.Height, u32 (pic.Width + 32), frame_size (u32 (pic.Width + 32)) pic.Height)

/-- A base (pid 10, id 1) whose decoder configuration, eight bytes with checksum 7, is one
that `gf_odf_avc_cfg_read` cannot parse. -/
def unparsed_pid : PidProps := ⟨10, true, some 0, some 1, none, some ⟨true, 8, 7, none⟩⟩

/-- The context after the attach of `unparsed_pid` to the zero-initialised context: the
call returned at line 192, with the pid registered and the geometry fields all zero. -/
def ctx_unparsed : GF_OSVCDecCtx :=
  { ctx_init with
    streams := [⟨10, 7, 1, 0⟩, zero_stream, zero_stream]
    nb_streams := 1
    active_streams := 1 }

/-! ## The stream counters and the branch of lines 395-398 -/

/-- The two counters agree and do not exceed the capacity, and the array `streams` has its
`SVC_MAX_STREAMS` entries. -/
def counters_ok (ctx : GF_OSVCDecCtx) : Prop :=
  ctx.active_streams = ctx.nb_streams ∧ ctx.nb_streams ≤ SVC_MAX_STREAMS ∧
    ctx.streams.length = SVC_MAX_STREAMS

instance (ctx : GF_OSVCDecCtx) : Decidable (counters_ok ctx) :=
  inferInstanceAs (Decidable (_ ∧ _ ∧ _))

/-- Whether the body of the loop of lines 388-501 for channel `idx`, run as in
`decode_channel`, reaches line 396: a packet is dropped because `idx` is at or above
`active_streams`. -/
def decode_channel_drops (fuel : Nat) (ext : Extern) (env : StepEnv)
    (idx pid min_dts min_cts : Nat) : List GF_FilterPacket → Decode → Bool
  | [], _ => false
  | p :: rest, d =>
    if idx ≥ d.ctx.active_streams then true
    else if (min_dts ≠ GF_FILTER_NO_TS ∧ min_dts ≠ effective_dts p) ∨
        (min_dts = GF_FILTER_NO_TS ∧ min_cts ≠ gf_filter_pck_get_cts p) then false
    else
      let data := p.data.getD []
      let ctx1 := select_layers ext env d.ctx data
      match unit_extraction fuel env.next_start_code (env.decodeNAL idx)
          ctx1.nalu_size_length data with
      | none =>
        decode_channel_drops fuel ext env idx pid min_dts min_cts rest
          { d with ctx := ctx1, pending := set_queue d.pending pid rest }
      | some _ => false

/-- Whether the loop of lines 388-501, entered at channel `i` with `n` channels left,
reaches line 396 for one of its channels. -/
def decode_scan_drops (fuel : Nat) (ext : Extern) (env : StepEnv) (min_dts min_cts : Nat) :
    Nat → Nat → Decode → Bool
  | 0, _, _ => false
  | n + 1, i, d =>
    match d.ctx.streams[i]? with
    | none => false
    | some st =>
      decode_channel_drops fuel ext env i st.ipid min_dts min_cts (d.pending st.ipid) d ||
        match decode_channel fuel ext env i st.ipid min_dts min_cts (d.pending st.ipid) d with
        | none => false
        | some d1 => decode_scan_drops fuel ext env min_dts min_cts n (i + 1) d1

/-- Whether a call of `osvcdec_process` reaches line 396. -/
def process_drops (fuel : Nat) (ext : Extern) (env : StepEnv) (ctx : GF_OSVCDecCtx)
    (pending : Nat → List GF_FilterPacket) (eos : Nat → Bool) : Bool :=
  match sync_scan ctx eos ctx.active_streams 0 (sync_start pending) with
  | some (SyncEnd.scanned s) =>
    if s.nb_eos = ctx.active_streams then false
    else if s.min_cts = GF_FILTER_NO_TS then false
    else
      match s.pck_ref with
      | none => false
      | some pck_ref =>
        match process_queue_cts ctx
            ⟨s.min_cts, pck_ref.duration, pck_ref.sap, if pck_ref.seek_flag then 1 else 0⟩
            env.fresh with
        | none => false
        | some ctx1 =>
          decode_scan_drops fuel ext env s.min_dts s.min_cts ctx1.nb_streams 0
            ⟨ctx1, s.pending, [], false⟩
  | _ => false

/-- The attach of the chain base (pid 10, id 1), middle layer (pid 20, id 2, depends on 1)
and top layer (pid 30, id 3, depends on 2), none with a decoder configuration. -/
def attach_chain : List Call :=
  [Call.configure ext_sample (plain_pid 10 1 0) false,
    Call.configure ext_sample (plain_pid 20 2 1) false,
    Call.configure ext_sample (plain_pid 30 3 2) false]

/-- A context with two registered channels of which only the first is active, which no run
of calls from the zero-initialised context reaches. -/
def ctx_one_active : GF_OSVCDecCtx := { ctx_avc_pair with active_streams := 1 }

/-! ## Lemmas on the scans of the registry -/

/-- The scan of lines 130-132 returns at an entry that holds the pid with the checksum. -/
theorem same_cfg_scan_hit (streams : List GF_SVCStream) (pid crc i : Nat) (s : GF_SVCStream)
    (hs : streams[i]? = some s) (hpid : s.ipid = pid) (hcrc : s.cfg_crc = crc) :
    ∀ n k, k ≤ i → i < k + n → same_cfg_scan streams pid crc n k = some true := by
  intro n
  induction n with
  | zero => intro k h1 h2; omega
  | succ n ih =>
    intro k h1 h2
    have hlt : i < streams.length := by
      by_contra hge
      rw [List.getElem?_eq_none (by omega)] at hs
      cases hs
    have hk : k < streams.length := by omega
    simp only [same_cfg_scan, List.getElem?_eq_getElem hk]
    by_cases hm : streams[k].ipid = pid ∧ streams[k].cfg_crc = crc
    · simp [hm]
    · rw [if_neg hm]
      have hne : k ≠ i := by
        intro hki
        subst hki
        rw [List.getElem?_eq_getElem hk] at hs
        cases hs
        exact hm ⟨hpid, hcrc⟩
      exact ih (k + 1) (by omega) (by omega)

/-- The scan of lines 130-132 runs to its end over entries that hold other pids. -/
theorem same_cfg_scan_miss (streams : List GF_SVCStream) (pid crc : Nat) :
    ∀ n k, k + n ≤ streams.length →
      (∀ i, k ≤ i → i < k + n → (streams.getD i zero_stream).ipid ≠ pid) →
      same_cfg_scan streams pid crc n k = some false := by
  intro n
  induction n with
  | zero => intro k _ _; rfl
  | succ n ih =>
    intro k hlen hne
    have hk : k < streams.length := by omega
    have h1 := hne k (le_refl k) (by omega)
    rw [List.getD_eq_getElem _ _ hk] at h1
    simp only [same_cfg_scan, List.getElem?_eq_getElem hk]
    rw [if_neg (fun h => h1 h.1)]
    exact ih (k + 1) (by omega) (fun i hi1 hi2 => hne i (by omega) (by omega))

/-- The scan of lines 136-141 changes nothing over entries that hold other pids. -/
theorem found_scan_miss (pid crc : Nat) (streams : List GF_SVCStream) (found : Bool) :
    ∀ n k, k + n ≤ streams.length →
      (∀ i, k ≤ i → i < k + n → (streams.getD i zero_stream).ipid ≠ pid) →
      found_scan pid crc n k streams found = some (streams, found) := by
  intro n
  induction n with
  | zero => intro k _ _; rfl
  | succ n ih =>
    intro k hlen hne
    have hk : k < streams.length := by omega
    have h1 := hne k (le_refl k) (by omega)
    rw [List.getD_eq_getElem _ _ hk] at h1
    simp only [found_scan, List.getElem?_eq_getElem hk]
    rw [if_neg h1]
    exact ih (k + 1) (by omega) (fun i hi1 hi2 => hne i (by omega) (by omega))

/-- The scan of lines 147-178 for an independent new entry reaches the return of line 151
at the first independent entry, when no entry ahead of it has id 0 or depends on the new
id. -/
theorem insert_scan_conflict (streams : List GF_SVCStream) (nb : Nat) (e : GF_SVCStream)
    (he : e.dep_id = 0) (j : Nat) (hj : j < streams.length)
    (hbase : (streams.getD j zero_stream).dep_id = 0)
    (hahead : ∀ i < j, (streams.getD i zero_stream).id ≠ 0 ∧
      (streams.getD i zero_stream).dep_id ≠ e.id) :
    ∀ n k, k ≤ j → j < k + n → insert_scan streams nb e n k = some Scan.conflict := by
  intro n
  induction n with
  | zero => intro k h1 h2; omega
  | succ n ih =>
    intro k h1 h2
    have hk : k < streams.length := by omega
    simp only [insert_scan, List.getElem?_eq_getElem hk]
    by_cases hc : e.dep_id = 0 ∧ streams[k].dep_id = 0
    · rw [if_pos hc]
    · rw [if_neg hc]
      have hkj : k ≠ j := by
        intro hkj
        subst hkj
        rw [List.getD_eq_getElem _ _ hk] at hbase
        exact hc ⟨he, hbase⟩
      have hlt : k < j := by omega
      have h3 := hahead k hlt
      rw [List.getD_eq_getElem _ _ hk] at h3
      rw [if_neg (by rw [he]; exact h3.1), if_neg h3.2]
      exact ih (k + 1) (by omega) (by omega)

/-! ## The channel registry: attach -/

/-- C1, evaluated on the code: the linear chain base (id 1), middle (id 2, depends on 1),
top (id 3, depends on 2) is attached top first, then base, then middle. The middle layer
is inserted before the top layer at index 0, so the registry is middle, top, base: the
middle layer sits below the base it depends on, and the dependency order does not hold. -/
theorem C1_chain_attached_top_first :
    (attach_all ext_sample ctx_init [plain_pid 30 3 2, plain_pid 10 1 0, plain_pid 20 2 1]).map
        (fun ctx => (registered ctx, decide (dependency_ordered ctx))) =
      some ([⟨20, 0, 2, 1⟩, ⟨30, 0, 3, 2⟩, ⟨10, 0, 1, 0⟩], false) := by
  decide

/-- C2 as stated fails: with three channels registered, the base among them, a further
independent pid gets `GF_NOT_SUPPORTED` from the capacity test of line 143; with the top
layer registered ahead of the base, an independent pid whose id the top layer depends on
is inserted at index 0 and the call returns `GF_OK`; and an independent pid that fails the
capability check of line 117 gets `GF_NOT_SUPPORTED`. -/
theorem C2_second_base_not_reported :
    attach_all ext_sample ctx_init [plain_pid 10 1 0, plain_pid 20 2 1, plain_pid 30 3 2] =
        some ctx_chain ∧
      osvcdec_configure_pid ext_sample ctx_chain (plain_pid 40 4 0) false =
        some (GF_Err.GF_NOT_SUPPORTED, ctx_chain) ∧
      attach_all ext_sample ctx_init [plain_pid 30 3 2, plain_pid 10 1 0] = some ctx_top_base ∧
      (osvcdec_configure_pid ext_sample ctx_top_base (plain_pid 40 2 0) false).map
          (fun r => (r.1, registered r.2)) =
        some (GF_Err.GF_OK, [⟨40, 0, 2, 0⟩, ⟨30, 0, 3, 2⟩, ⟨10, 0, 1, 0⟩]) ∧
      osvcdec_configure_pid ext_sample ctx_top_base
          { plain_pid 40 4 0 with check_caps := false } false =
        some (GF_Err.GF_NOT_SUPPORTED, ctx_top_base) := by
  decide

/-- C2, amended: in a registry that holds fewer than `SVC_MAX_STREAMS` channels, one of
them independent (dependency id 0), with no channel ahead of it that has id 0 or that
depends on the id of the new pid, a configure call for an unregistered pid that passes the
capability check and has dependency id 0 returns `GF_REQUIRES_NEW_INSTANCE` and leaves the
context as it was. -/
theorem C2_second_base_conflict (ext : Extern) (ctx : GF_OSVCDecCtx) (pp : PidProps) (j : Nat)
    (hlen : ctx.streams.length = SVC_MAX_STREAMS)
    (hact : ctx.active_streams = ctx.nb_streams)
    (hnb : ctx.nb_streams < SVC_MAX_STREAMS)
    (hcaps : pp.check_caps = true)
    (hdep : pp.dep_id = 0)
    (hnew : ∀ i < ctx.nb_streams, (entry ctx i).ipid ≠ pp.pid)
    (hj : j < ctx.nb_streams)
    (hbase : (entry ctx j).dep_id = 0)
    (hahead : ∀ i < j, (entry ctx i).id ≠ 0 ∧ (entry ctx i).dep_id ≠ pp.id) :
    osvcdec_configure_pid ext ctx pp false =
      some (GF_Err.GF_REQUIRES_NEW_INSTANCE, ctx) := by
  have hle : 0 + ctx.nb_streams ≤ ctx.streams.length := by
    rw [hlen]
    omega
  have hmiss : ∀ i, 0 ≤ i → i < 0 + ctx.nb_streams →
      (ctx.streams.getD i zero_stream).ipid ≠ pp.pid := by
    intro i _ hi
    exact hnew i (by omega)
  have hsame : (match pp.checked_config with
      | some dc => same_cfg_scan ctx.streams pp.pid dc.crc ctx.nb_streams 0
      | none => some false) = some false := by
    cases pp.checked_config with
    | none => rfl
    | some dc => exact same_cfg_scan_miss ctx.streams pp.pid dc.crc ctx.nb_streams 0 hle hmiss
  have hfound : found_scan pp.pid pp.cfg_crc ctx.active_streams 0 ctx.streams false =
      some (ctx.streams, false) := by
    rw [hact]
    exact found_scan_miss pp.pid pp.cfg_crc ctx.streams false ctx.nb_streams 0 hle hmiss
  have hscan := insert_scan_conflict ctx.streams ctx.nb_streams
    ⟨pp.pid, pp.cfg_crc, pp.id, pp.dep_id⟩ hdep j (by omega) hbase hahead
    ctx.nb_streams 0 (Nat.zero_le j) (by omega)
  have hcap : ctx.nb_streams ≠ SVC_MAX_STREAMS := by omega
  have hreg : configure_registry ctx pp.pid pp.id pp.dep_id pp.cfg_crc =
      some (Flow.ret GF_Err.GF_REQUIRES_NEW_INSTANCE ctx) := by
    simp only [configure_registry, hfound, hscan, if_neg hcap, Bool.false_eq_true, if_false]
  simp only [osvcdec_configure_pid, hcaps, hsame, hreg, Bool.false_eq_true, if_false]
  rfl

/-- C2, amended, on a concrete state: the top layer (id 3, depends on 2) sits ahead of the
base; an independent pid with id 4 is refused. -/
theorem C2_second_base_conflict_witness :
    osvcdec_configure_pid ext_sample ctx_top_base (plain_pid 40 4 0) false =
      some (GF_Err.GF_REQUIRES_NEW_INSTANCE, ctx_top_base) :=
  C2_second_base_conflict ext_sample ctx_top_base (plain_pid 40 4 0) 1
    (by decide) (by decide) (by decide) (by decide) (by decide) (by decide) (by decide)
    (by decide) (by decide)

/-- C3, evaluated on the code: the registry holds the enhancement layer (pid 20, id 2,
depends on 1) and the base (pid 10, id 1) is attached. The call returns `GF_OK`; the base
is written over the enhancement layer at index 0 without a shift, so the registered
entries are the base and an all-zero entry, and pid 20 is gone. The insertion the spec
words gives the base followed by the enhancement layer. -/
theorem C3_insert_before_last_entry :
    (attach_all ext_sample ctx_init [plain_pid 20 2 1]).map registered =
        some [⟨20, 0, 2, 1⟩] ∧
      ((attach_all ext_sample ctx_init [plain_pid 20 2 1]).bind fun ctx =>
          (osvcdec_configure_pid ext_sample ctx (plain_pid 10 1 0) false).map
            fun r => (r.1, registered r.2, r.2.nb_streams)) =
        some (GF_Err.GF_OK, [⟨10, 0, 1, 0⟩, zero_stream], 2) ∧
      spec_insert [⟨20, 0, 2, 1⟩] ⟨10, 0, 1, 0⟩ = [⟨10, 0, 1, 0⟩, ⟨20, 0, 2, 1⟩] := by
  decide

/-! ## The frame metadata queue -/

/-- C4, evaluated on the code: from the empty queue, two pushes of lines 355-385 with the
same `cts` 5 and no pop between them. The second push finds the last record equal, takes
the branch of line 376 and writes the record again at the end: the queue holds two records
with `cts` 5 and `frame_infos_size` went from 1 to 2, whatever the new memory held. -/
theorem C4_repeated_cts_queued_twice (fresh : Nat → OSVCDecFrameInfo) :
    (run_queue fresh ctx_init [QueueOp.push (frame_at 5)]).map
        (fun ctx => (queued ctx, ctx.frame_infos_size)) = some ([frame_at 5], 1) ∧
      (run_queue fresh ctx_init [QueueOp.push (frame_at 5), QueueOp.push (frame_at 5)]).map
        (fun ctx => (queued ctx, ctx.frame_infos_size, decide (cts_distinct ctx))) =
        some ([frame_at 5, frame_at 5], 2, false) :=
  ⟨rfl, rfl⟩

/-- C5, evaluated on the code: from the empty queue, pushes with `cts` 5, 7 and 5 again.
The third push stops at index 0 on the equal record, writes nothing, and line 385 still
counts one record more: the queue now ends with slot 2 of the array, which no push wrote
and which holds what the allocation left there. With that memory all zero the `cts` values
are 5, 7, 0, not in ascending order. The slot taken in can also be one that earlier pops
left behind: after pushes of 10, 20, 25, three pops and pushes of 30, 40 and 30 again the
`cts` values are 30, 40, 25, every one of them written by a push. -/
theorem C5_queue_takes_in_unwritten_slot (fresh : Nat → OSVCDecFrameInfo) :
    (run_queue fresh ctx_init
        [QueueOp.push (frame_at 5), QueueOp.push (frame_at 7), QueueOp.push (frame_at 5)]).map
        (fun ctx => (queued ctx, ctx.frame_infos_size)) =
        some ([frame_at 5, frame_at 7, fresh 2], 3) ∧
      (run_queue fresh_zero ctx_init
        [QueueOp.push (frame_at 5), QueueOp.push (frame_at 7), QueueOp.push (frame_at 5)]).map
        (fun ctx => ((queued ctx).map OSVCDecFrameInfo.cts, decide (cts_ascending ctx))) =
        some ([5, 7, 0], false) ∧
      (run_queue fresh_zero ctx_init
        [QueueOp.push (frame_at 10), QueueOp.push (frame_at 20), QueueOp.push (frame_at 25),
          QueueOp.pop, QueueOp.pop, QueueOp.pop,
          QueueOp.push (frame_at 30), QueueOp.push (frame_at 40), QueueOp.push (frame_at 30)]).map
        (fun ctx => (queued ctx).map OSVCDecFrameInfo.cts) = some [30, 40, 25] :=
  ⟨rfl, by decide, by decide⟩

/-! ## The unit extraction loop -/

/-- C6, evaluated on the code: a packet of two well-formed records with 3-byte length
fields, each with a payload of one byte. `nalu_size` is set to zero before the loop only
(line 428), so the second length is shifted into the first: the second unit is handed to
the engine with length `2^24 + 1` where its declared length is 1. -/
theorem C6_second_length_keeps_first (decodeNAL : Nat → Nat → Nat → Int) :
    encode_records 3 [[170], [187]] = [0, 0, 1, 170, 0, 0, 1, 187] ∧
      payload_units 3 0 [[170], [187]] = [(3, 1), (7, 1)] ∧
      (extract_units (encode_records 3 [[170], [187]]) 3 decodeNAL).units =
        [(3, 1), (7, 16777217)] :=
  ⟨rfl, rfl, rfl⟩

/-- C7, evaluated on the code: a packet of five bytes with 4-byte length fields whose
first field declares ten bytes. The test of line 490 comes after the call of `decodeNAL`:
the unit at offset 4 with length 10 is handed to the engine and reaches past the end of
the packet, and only then the loop is left. -/
theorem C7_truncated_record_handed_over (decodeNAL : Nat → Nat → Nat → Int) :
    (extract_units [0, 0, 0, 10, 170] 4 decodeNAL).units = [(4, 10)] ∧
      (extract_units [0, 0, 0, 10, 170] 4 decodeNAL).ending = LoopEnd.stopped ∧
      ¬ unit_inside 5 (4, 10) :=
  ⟨rfl, rfl, by decide⟩

/-! ## The channel registry: detach and reconfigure -/

/-- C8, evaluated on the code: with three channels registered, the detach of the channel at
index 2 and the detach of the channel at index 1 each move `nb_streams - 1 = 2` entries
(line 108), from index 3 and from index 2: entries at index 3 and above are read, and for
index 2 written, outside the array of `SVC_MAX_STREAMS` entries. -/
theorem C8_detach_shift_leaves_array :
    attach_all ext_sample ctx_init [plain_pid 10 1 0, plain_pid 20 2 1, plain_pid 30 3 2] =
        some ctx_chain ∧
      osvcdec_configure_pid ext_sample ctx_chain (plain_pid 30 3 2) true = none ∧
      osvcdec_configure_pid ext_sample ctx_chain (plain_pid 20 2 1) true = none ∧
      memmove ctx_chain.streams 2 3 (ctx_chain.nb_streams - 1) = none ∧
      memmove ctx_chain.streams 1 2 (ctx_chain.nb_streams - 1) = none := by
  decide

/-- C9 as stated fails: a registered pid without decoder configuration has the stored
checksum 0 and the call computes the checksum 0, yet the call goes on to line 251 and
sets `MaxDqId` from 16 back to 0; and a call for a registered pid with the stored
checksum that fails the capability check returns `GF_NOT_SUPPORTED`. -/
theorem C9_same_checksum_not_noop :
    (plain_pid 10 1 0).cfg_crc = (entry ctx_base_running 0).cfg_crc ∧
      ctx_base_running.MaxDqId = 16 ∧
      osvcdec_configure_pid ext_sample ctx_base_running (plain_pid 10 1 0) false =
        some (GF_Err.GF_OK, { ctx_base_running with MaxDqId := 0 }) ∧
      osvcdec_configure_pid ext_sample ctx_avc_pair
          { avc_pid 20 2 1 9 with check_caps := false } false =
        some (GF_Err.GF_NOT_SUPPORTED, ctx_avc_pair) := by
  decide

/-- C9, amended: for every context and every registered channel, a configure call for its
pid that passes the capability check and carries a decoder configuration with data of
non-zero length, whose checksum is the one stored for the channel, returns `GF_OK` and
leaves the whole context as it was. -/
theorem C9_same_checksum_is_noop (ext : Extern) (ctx : GF_OSVCDecCtx) (pp : PidProps)
    (dc : DecoderConfig) (i : Nat) (s : GF_SVCStream)
    (hcaps : pp.check_caps = true)
    (hcfg : pp.decoder_config = some dc)
    (hdata : dc.has_data = true)
    (hsize : dc.data_len ≠ 0)
    (hi : i < ctx.nb_streams)
    (hs : ctx.streams[i]? = some s)
    (hpid : s.ipid = pp.pid)
    (hcrc : s.cfg_crc = dc.crc) :
    osvcdec_configure_pid ext ctx pp false = some (GF_Err.GF_OK, ctx) := by
  have hchk : pp.checked_config = some dc := by
    simp [PidProps.checked_config, hcfg, hdata, hsize]
  have hscan := same_cfg_scan_hit ctx.streams pp.pid dc.crc i s hs hpid hcrc
    ctx.nb_streams 0 (Nat.zero_le i) (by omega)
  simp only [osvcdec_configure_pid, hcaps, hchk, hscan, Bool.false_eq_true, if_false]
  rfl

/-- C9, amended, on a concrete state: the enhancement layer at index 1 is configured again
with the checksum 9 stored for it. -/
theorem C9_same_checksum_is_noop_witness :
    osvcdec_configure_pid ext_sample ctx_avc_pair (avc_pid 20 2 1 9) false =
      some (GF_Err.GF_OK, ctx_avc_pair) :=
  C9_same_checksum_is_noop ext_sample ctx_avc_pair (avc_pid 20 2 1 9)
    ⟨true, 8, 9, some ⟨4, [], 0⟩⟩ 1 ⟨20, 9, 2, 1⟩
    (by decide) (by decide) (by decide) (by decide) (by decide) (by decide) (by decide)
    (by decide)

/-- C10: for every context, the detach of the pid held by `streams[0]` returns `GF_OK` and
leaves `nb_streams = active_streams = 0`, every entry of `streams` all zero, `codec` null
and `opid` null; the other fields are as they were. -/
theorem C10_detach_base_resets (ext : Extern) (ctx : GF_OSVCDecCtx) (pp : PidProps)
    (s0 : GF_SVCStream) (h0 : ctx.streams[0]? = some s0) (hpid : s0.ipid = pp.pid) :
    ∃ ctx1, osvcdec_configure_pid ext ctx pp true = some (GF_Err.GF_OK, ctx1) ∧
      ctx1.nb_streams = 0 ∧ ctx1.active_streams = 0 ∧
      ctx1.streams = List.replicate SVC_MAX_STREAMS zero_stream ∧
      ctx1.codec = 0 ∧ ctx1.opid = 0 ∧
      ctx1 = { ctx with
        streams := List.replicate SVC_MAX_STREAMS zero_stream
        opid := 0
        nb_streams := 0
        active_streams := 0
        codec := 0 } := by
  refine ⟨_, ?_, rfl, rfl, rfl, rfl, rfl, rfl⟩
  simp only [osvcdec_configure_pid, configure_remove, h0, hpid, if_true]

/-- C10 on a concrete state: the base of the chain of three channels is detached. -/
theorem C10_detach_base_resets_witness :
    ∃ ctx1, osvcdec_configure_pid ext_sample ctx_chain (plain_pid 10 1 0) true =
        some (GF_Err.GF_OK, ctx1) ∧
      ctx1.nb_streams = 0 ∧ ctx1.active_streams = 0 ∧
      ctx1.streams = List.replicate SVC_MAX_STREAMS zero_stream ∧
      ctx1.codec = 0 ∧ ctx1.opid = 0 ∧
      ctx1 = { ctx_chain with
        streams := List.replicate SVC_MAX_STREAMS zero_stream
        opid := 0
        nb_streams := 0
        active_streams := 0
        codec := 0 } :=
  C10_detach_base_resets ext_sample ctx_chain (plain_pid 10 1 0) ⟨10, 0, 1, 0⟩
    (by decide) (by decide)

/-! ## Lemmas on arrays and on the metadata queue -/

/-- A value below `2^32` is its own `u32` reduction. -/
theorem u32_of_lt (n : Nat) (h : n < 4294967296) : u32 n = n := Nat.mod_eq_of_lt h

/-- The `memmove` of the embedding keeps the length of the array. -/
theorem memmove_length {α : Type} (a b : List α) (dst src n : Nat)
    (h : memmove a dst src n = some b) : b.length = a.length := by
  unfold memmove at h
  split at h
  · cases h; rfl
  · split at h
    · rename_i hb
      cases h
      simp only [List.length_append, List.length_take, List.length_drop]
      omega
    · cases h

/-- An assignment to an array entry keeps the length of the array. -/
theorem store_length {α : Type} (a b : List α) (i : Nat) (v : α)
    (h : store a i v = some b) : b.length = a.length := by
  unfold store at h
  split at h
  · cases h; simp
  · cases h

/-- The loop of lines 361-374 keeps the length of the array. -/
theorem queue_scan_length (fi : List OSVCDecFrameInfo) (size : Nat) (r : OSVCDecFrameInfo) :
    ∀ n i j fi1, queue_scan fi size r n i = some (j, fi1) → fi1.length = fi.length := by
  intro n
  induction n with
  | zero =>
    intro i j fi1 h
    simp only [queue_scan, Option.some.injEq, Prod.mk.injEq] at h
    rw [← h.2]
  | succ n ih =>
    intro i j fi1 h
    simp only [queue_scan] at h
    cases hx : fi[i]? with
    | none => simp [hx] at h
    | some x =>
      simp only [hx] at h
      split at h
      · simp only [Option.some.injEq, Prod.mk.injEq] at h
        rw [← h.2]
      · split at h
        · cases hm : memmove fi (i + 1) i (size - i) with
          | none => simp [hm] at h
          | some moved =>
            simp only [hm] at h
            cases hst : store moved i r with
            | none => simp [hst] at h
            | some a =>
              simp only [hst, Option.map_some', Option.some.injEq, Prod.mk.injEq] at h
              rw [← h.2, store_length _ _ _ _ hst, memmove_length _ _ _ _ _ hm]
        · exact ih _ _ _ h

/-- A block grown to `n` records holds `n` records. -/
theorem gf_realloc_length (a : List OSVCDecFrameInfo) (n : Nat) (fresh : Nat → OSVCDecFrameInfo)
    (h : a.length ≤ n) : (gf_realloc a n fresh).length = n := by
  unfold gf_realloc
  simp only [List.length_append, List.length_take, List.length_map, List.length_range]
  omega

/-- Lines 360-385 on a context `c1`: the size is counted up by one in `u32`, the array keeps
its length, and no field outside the queue changes. -/
theorem push_tail (c1 c : GF_OSVCDecCtx) (r : OSVCDecFrameInfo)
    (h : (match (if c1.frame_infos_size = 0 then some true
          else (c1.frame_infos[c1.frame_infos_size - 1]?).map fun x => decide (x.cts ≠ r.cts)) with
      | none => none
      | some search =>
        match (if search then queue_scan c1.frame_infos c1.frame_infos_size r
                c1.frame_infos_size 0
               else some (c1.frame_infos_size, c1.frame_infos)) with
        | none => none
        | some (i, fi) =>
          match (if i = c1.frame_infos_size then store fi i r else some fi) with
          | none => none
          | some fi2 =>
            some { c1 with frame_infos := fi2,
                           frame_infos_size := u32 (c1.frame_infos_size + 1) }) = some c) :
    c.frame_infos_size = u32 (c1.frame_infos_size + 1) ∧
      c.frame_infos.length = c1.frame_infos.length ∧
      c = { c1 with frame_infos := c.frame_infos, frame_infos_size := c.frame_infos_size } := by
  split at h
  · cases h
  · rename_i search hsearch
    split at h
    · cases h
    · rename_i i fi hscan
      split at h
      · cases h
      · rename_i fi2 hstore
        simp only [Option.some.injEq] at h
        have hfi : fi.length = c1.frame_infos.length := by
          split at hscan
          · exact queue_scan_length _ _ _ _ _ _ _ hscan
          · simp only [Option.some.injEq, Prod.mk.injEq] at hscan
            rw [← hscan.2]
        have hfi2 : fi2.length = fi.length := by
          split at hstore
          · exact store_length _ _ _ _ hstore
          · cases hstore; rfl
        subst h
        exact ⟨rfl, by rw [hfi2, hfi], rfl⟩

/-- A push on a well-formed queue makes it one record longer, inside the array. -/
theorem push_grows (ctx c : GF_OSVCDecCtx) (r : OSVCDecFrameInfo)
    (fresh : Nat → OSVCDecFrameInfo) (hq : queue_ok ctx)
    (h : process_queue_cts ctx r fresh = some c) :
    c.frame_infos_size = ctx.frame_infos_size + 1 ∧
      c.frame_infos_size ≤ c.frame_infos.length ∧ queue_only ctx c := by
  obtain ⟨hlen, hsize, halloc⟩ := hq
  unfold process_queue_cts at h
  have ht := push_tail _ c r h
  obtain ⟨h1, h2, h3⟩ := ht
  by_cases hfull : ctx.frame_infos_size = ctx.frame_infos_alloc
  · simp only [hfull, if_true] at h1 h2 h3
    have hu : u32 (ctx.frame_infos_alloc + 10) = ctx.frame_infos_alloc + 10 :=
      Nat.mod_eq_of_lt halloc
    have hu1 : u32 (ctx.frame_infos_alloc + 1) = ctx.frame_infos_alloc + 1 :=
      Nat.mod_eq_of_lt (by omega)
    rw [hu, gf_realloc_length _ _ _ (by omega)] at h2
    rw [hu1] at h1
    refine ⟨by rw [h1, hfull], by omega, ?_⟩
    unfold queue_only
    rw [h3]
  · simp only [hfull, if_false] at h1 h2 h3
    have hu1 : u32 (ctx.frame_infos_size + 1) = ctx.frame_infos_size + 1 :=
      Nat.mod_eq_of_lt (by omega)
    rw [hu1] at h1
    refine ⟨h1, by omega, ?_⟩
    unfold queue_only
    rw [h3]

/-- A push changes the fields of the metadata queue only. -/
theorem push_queue_only (ctx c : GF_OSVCDecCtx) (r : OSVCDecFrameInfo)
    (fresh : Nat → OSVCDecFrameInfo) (h : process_queue_cts ctx r fresh = some c) :
    queue_only ctx c := by
  unfold process_queue_cts at h
  obtain ⟨_, _, h3⟩ := push_tail _ c r h
  unfold queue_only
  rw [h3]
  split <;> rfl

/-- A push on an empty queue returns, and leaves the record alone in the queue, at index 0. -/
theorem push_empty (ctx : GF_OSVCDecCtx) (r : OSVCDecFrameInfo)
    (fresh : Nat → OSVCDecFrameInfo) (hsize : ctx.frame_infos_size = 0)
    (hlen : ctx.frame_infos.length = ctx.frame_infos_alloc) :
    ∃ c1, process_queue_cts ctx r fresh = some c1 ∧ c1.frame_infos_size = 1 ∧
      c1.frame_infos[0]? = some r ∧ c1.frame_infos.length = c1.frame_infos_alloc ∧
      queue_only ctx c1 := by
  by_cases ha : ctx.frame_infos_alloc = 0
  · have hnil : ctx.frame_infos = [] := List.length_eq_zero.mp (by rw [hlen, ha])
    refine ⟨{ ctx with
      frame_infos_alloc := 10
      frame_infos := (gf_realloc [] 10 fresh).set 0 r
      frame_infos_size := 1 }, ?_, rfl, ?_, ?_, rfl⟩
    · simp [process_queue_cts, hsize, ha, hnil, u32, queue_scan, store, gf_realloc]
    · simp [gf_realloc, List.range_succ_eq_map]
    · simp [gf_realloc]
  · have hpos : 0 < ctx.frame_infos.length := by omega
    refine ⟨{ ctx with frame_infos := ctx.frame_infos.set 0 r, frame_infos_size := 1 },
      ?_, rfl, ?_, ?_, rfl⟩
    · have hne : ¬ (0 = ctx.frame_infos_alloc) := fun h => ha h.symm
      simp [process_queue_cts, hsize, hne, u32, queue_scan, store, hpos]
    · simp [hpos]
    · simp [hlen]

/-- The function `osvcdec_drop_frameinfo` changes the fields of the metadata queue only. -/
theorem drop_queue_only (c c2 : GF_OSVCDecCtx) (h : osvcdec_drop_frameinfo c = some c2) :
    queue_only c c2 := by
  unfold osvcdec_drop_frameinfo at h
  split at h
  · split at h
    · cases h
    · simp only [Option.some.injEq] at h
      subst h
      rfl
  · simp only [Option.some.injEq] at h
    subst h
    rfl

/-- The function `osvcdec_drop_frameinfo` keeps the size of the array. -/
theorem drop_array (c c2 : GF_OSVCDecCtx) (h : osvcdec_drop_frameinfo c = some c2) :
    c2.frame_infos.length = c.frame_infos.length ∧
      c2.frame_infos_alloc = c.frame_infos_alloc := by
  unfold osvcdec_drop_frameinfo at h
  split at h
  · split at h
    · cases h
    · rename_i moved hm
      simp only [Option.some.injEq] at h
      subst h
      exact ⟨memmove_length _ _ _ _ _ hm, rfl⟩
  · simp only [Option.some.injEq] at h
    subst h
    exact ⟨rfl, rfl⟩

/-- On a queue of at least one record that lies inside the array,
`osvcdec_drop_frameinfo` removes the head and keeps the other records in order. -/
theorem drop_pops (c : GF_OSVCDecCtx) (hpos : 0 < c.frame_infos_size)
    (hfit : c.frame_infos_size ≤ c.frame_infos.length) :
    ∃ c2, osvcdec_drop_frameinfo c = some c2 ∧
      c2.frame_infos_size + 1 = c.frame_infos_size ∧ queued c2 = (queued c).tail ∧
      queue_only c c2 := by
  have hne : c.frame_infos_size ≠ 0 := by omega
  cases hfi : c.frame_infos with
  | nil => rw [hfi] at hfit; simp at hfit; omega
  | cons x t =>
    rw [hfi] at hfit
    simp only [List.length_cons] at hfit
    by_cases h1 : c.frame_infos_size - 1 = 0
    · refine ⟨{ c with frame_infos_size := c.frame_infos_size - 1, frame_infos := x :: t },
        ?_, ?_, ?_, ?_⟩
      · simp [osvcdec_drop_frameinfo, hne, memmove, h1, hfi]
      · show c.frame_infos_size - 1 + 1 = c.frame_infos_size
        omega
      · have h2 : c.frame_infos_size = 1 := by omega
        simp [queued, hfi, h1, h2]
      · rfl
    · have hb : 1 + (c.frame_infos_size - 1) ≤ (x :: t).length ∧
          0 + (c.frame_infos_size - 1) ≤ (x :: t).length := by
        simp only [List.length_cons]
        omega
      refine ⟨{ c with
          frame_infos_size := c.frame_infos_size - 1
          frame_infos := (x :: t).take 0 ++
            (((x :: t).drop 1).take (c.frame_infos_size - 1) ++
              (x :: t).drop (0 + (c.frame_infos_size - 1))) }, ?_, ?_, ?_, ?_⟩
      · simp only [osvcdec_drop_frameinfo, hne, ne_eq, not_false_eq_true, if_true, memmove, h1,
          if_false, hfi, hb, and_self]
      · show c.frame_infos_size - 1 + 1 = c.frame_infos_size
        omega
      · obtain ⟨n, hn⟩ : ∃ n, c.frame_infos_size = n + 1 := ⟨c.frame_infos_size - 1, by omega⟩
        simp only [queued, hfi, hn, Nat.add_sub_cancel, List.take_zero, List.nil_append,
          List.drop_succ_cons, List.drop_zero, List.take_succ_cons, List.tail_cons]
        rw [List.take_append_of_le_length (by simp; omega)]
        simp
      · rfl

/-! ## The channel registry at capacity -/

/-- C11: when the registry holds `SVC_MAX_STREAMS` channels, a configure call for a pid that
is not registered returns `GF_NOT_SUPPORTED` and leaves the context, and so the registry
entries, `nb_streams` and `active_streams`, as it was. -/
theorem C11_full_registry_rejects (ext : Extern) (ctx : GF_OSVCDecCtx) (pp : PidProps)
    (hlen : ctx.streams.length = SVC_MAX_STREAMS)
    (hnb : ctx.nb_streams = SVC_MAX_STREAMS)
    (hact : ctx.active_streams ≤ ctx.nb_streams)
    (hnew : ∀ i < ctx.nb_streams, (entry ctx i).ipid ≠ pp.pid) :
    osvcdec_configure_pid ext ctx pp false = some (GF_Err.GF_NOT_SUPPORTED, ctx) := by
  cases hcaps : pp.check_caps with
  | false => simp [osvcdec_configure_pid, hcaps]
  | true =>
    have hle : 0 + ctx.nb_streams ≤ ctx.streams.length := by rw [hlen, hnb]; omega
    have hle2 : 0 + ctx.active_streams ≤ ctx.streams.length := by omega
    have hmiss : ∀ i, 0 ≤ i → i < 0 + ctx.nb_streams →
        (ctx.streams.getD i zero_stream).ipid ≠ pp.pid := fun i _ hi => hnew i (by omega)
    have hmiss2 : ∀ i, 0 ≤ i → i < 0 + ctx.active_streams →
        (ctx.streams.getD i zero_stream).ipid ≠ pp.pid := fun i _ hi => hnew i (by omega)
    have hsame : (match pp.checked_config with
        | some dc => same_cfg_scan ctx.streams pp.pid dc.crc ctx.nb_streams 0
        | none => some false) = some false := by
      cases pp.checked_config with
      | none => rfl
      | some dc => exact same_cfg_scan_miss ctx.streams pp.pid dc.crc ctx.nb_streams 0 hle hmiss
    have hfound := found_scan_miss pp.pid pp.cfg_crc ctx.streams false ctx.active_streams 0
      hle2 hmiss2
    have hreg : configure_registry ctx pp.pid pp.id pp.dep_id pp.cfg_crc =
        some (Flow.ret GF_Err.GF_NOT_SUPPORTED ctx) := by
      simp only [configure_registry, hfound, if_pos hnb, Bool.false_eq_true, if_false]
    simp only [osvcdec_configure_pid, hcaps, hsame, hreg, Bool.false_eq_true, if_false]
    rfl

/-- C11 on a concrete state: the chain of three channels is registered and pid 40 is
attached. -/
theorem C11_full_registry_rejects_witness :
    osvcdec_configure_pid ext_sample ctx_chain (plain_pid 40 4 1) false =
      some (GF_Err.GF_NOT_SUPPORTED, ctx_chain) :=
  C11_full_registry_rejects ext_sample ctx_chain (plain_pid 40 4 1)
    (by decide) (by decide) (by decide) (by decide)

/-! ## The synchronizer -/

/-- An effective decode time is a `u64` value. -/
theorem effective_dts_le (p : GF_FilterPacket) : effective_dts p ≤ GF_FILTER_NO_TS := by
  unfold effective_dts gf_filter_pck_get_dts gf_filter_pck_get_cts u64 GF_FILTER_NO_TS
  split <;> omega

/-- A packet with a presentation time has an effective decode time below
`GF_FILTER_NO_TS`. -/
theorem effective_dts_lt (p : GF_FilterPacket)
    (h : gf_filter_pck_get_cts p ≠ GF_FILTER_NO_TS) : effective_dts p < GF_FILTER_NO_TS := by
  have hle := effective_dts_le p
  have hc : gf_filter_pck_get_cts p < 18446744073709551616 := Nat.mod_lt _ (by decide)
  have hne : effective_dts p ≠ GF_FILTER_NO_TS := by
    unfold effective_dts
    split
    · exact h
    · assumption
  omega

/-- Lines 340-347 depend on the selection only. -/
theorem sync_pick_same (s t : Sync) (p : GF_FilterPacket) (h : same_choice s t) :
    same_choice (sync_pick s p) (sync_pick t p) := by
  obtain ⟨h1, h2, h3⟩ := h
  unfold sync_pick
  rw [h1]
  split
  · exact ⟨rfl, rfl, rfl⟩
  · exact ⟨h1, h2, h3⟩

/-- A run of lines 340-347 over a list of packets depends on the selection only. -/
theorem foldl_pick_same (l : List GF_FilterPacket) :
    ∀ s t, same_choice s t → same_choice (l.foldl sync_pick s) (l.foldl sync_pick t) := by
  induction l with
  | nil => intro s t h; exact h
  | cons p l ih => intro s t h; exact ih _ _ (sync_pick_same s t p h)

/-- Lines 340-347 leave the input queues. -/
theorem sync_pick_pending (s : Sync) (p : GF_FilterPacket) :
    (sync_pick s p).pending = s.pending := by
  unfold sync_pick
  split <;> rfl

/-- The body of the synchronizer loop for one channel, when it does not postpone: every
channel keeps its pending access unit, and the selection is the one lines 340-347 make
from the pending unit of this channel, if it has one. -/
theorem sync_channel_choice (pid : Nat) (eos : Bool) :
    ∀ (q : List GF_FilterPacket) (s s1 : Sync), s.pending pid = q →
      sync_channel pid eos q s = SyncEnd.scanned s1 →
      (∀ x, pending_unit (s1.pending x) = pending_unit (s.pending x)) ∧
        same_choice s1 ((pending_unit q).toList.foldl sync_pick s) := by
  intro q
  induction q with
  | nil =>
    intro s s1 _ h
    cases eos with
    | false => simp [sync_channel] at h
    | true =>
      simp only [sync_channel, if_true, SyncEnd.scanned.injEq] at h
      subst h
      exact ⟨fun _ => rfl, rfl, rfl, rfl⟩
  | cons p rest ih =>
    intro s s1 hq h
    cases hd : p.data with
    | none =>
      simp only [sync_channel, hd] at h
      have h2 := ih { s with pending := set_queue s.pending pid rest } s1
        (by simp [set_queue]) h
      refine ⟨fun x => ?_, ?_⟩
      · rw [h2.1 x]
        by_cases hx : x = pid
        · subst hx
          simp [set_queue, hq, pending_unit, hd]
        · simp [set_queue, hx]
      · simp only [pending_unit, hd]
        have hs : same_choice { s with pending := set_queue s.pending pid rest } s :=
          ⟨rfl, rfl, rfl⟩
        have h3 := foldl_pick_same (pending_unit rest).toList _ _ hs
        exact ⟨h2.2.1.trans h3.1, h2.2.2.1.trans h3.2.1, h2.2.2.2.trans h3.2.2⟩
    | some d =>
      simp only [sync_channel, hd, SyncEnd.scanned.injEq] at h
      subst h
      refine ⟨fun x => by rw [sync_pick_pending], ?_⟩
      simp only [pending_unit, hd, Option.toList, List.foldl]
      exact ⟨rfl, rfl, rfl⟩

/-- The synchronizer loop, when it does not postpone, makes the selection that lines
340-347 make from the pending units of the channels it visits, in index order. -/
theorem sync_scan_choice (ctx : GF_OSVCDecCtx) (eos : Nat → Bool)
    (pending : Nat → List GF_FilterPacket) :
    ∀ n k (s s1 : Sync), (∀ x, pending_unit (s.pending x) = pending_unit (pending x)) →
      sync_scan ctx eos n k s = some (SyncEnd.scanned s1) →
      same_choice s1 ((active_units ctx pending n k).foldl sync_pick s) := by
  intro n
  induction n with
  | zero =>
    intro k s s1 _ h
    simp only [sync_scan, Option.some.injEq, SyncEnd.scanned.injEq] at h
    subst h
    exact ⟨rfl, rfl, rfl⟩
  | succ n ih =>
    intro k s s1 hP h
    cases hst : ctx.streams[k]? with
    | none => simp [sync_scan, hst] at h
    | some st =>
      have hent : entry ctx k = st := by
        unfold entry
        rw [List.getD_eq_getElem?_getD, hst]
        rfl
      simp only [sync_scan, hst] at h
      cases hch : sync_channel st.ipid (eos st.ipid) (s.pending st.ipid) s with
      | postponed p => simp [hch] at h
      | scanned s2 =>
        simp only [hch] at h
        have h1 := sync_channel_choice st.ipid (eos st.ipid) _ s s2 rfl hch
        have h2 := ih (k + 1) s2 s1 (fun x => by rw [h1.1 x, hP x]) h
        simp only [active_units, hent, List.foldl_append]
        rw [← hP st.ipid]
        have h3 := foldl_pick_same (active_units ctx pending n (k + 1)) _ _ h1.2
        exact ⟨h2.1.trans h3.1, h2.2.1.trans h3.2.1, h2.2.2.trans h3.2.2⟩

/-- The body of the synchronizer loop does not postpone on a channel that has a pending
access unit or is at end of stream. -/
theorem sync_channel_scans (pid : Nat) (eos : Bool) :
    ∀ (q : List GF_FilterPacket) (s : Sync), pending_unit q ≠ none ∨ eos = true →
      ∃ s1, sync_channel pid eos q s = SyncEnd.scanned s1 := by
  intro q
  induction q with
  | nil =>
    intro s h
    rcases h with h | h
    · exact absurd rfl h
    · subst h
      exact ⟨_, rfl⟩
  | cons p rest ih =>
    intro s h
    cases hd : p.data with
    | none =>
      simp only [sync_channel, hd]
      apply ih
      simpa [pending_unit, hd] using h
    | some d =>
      simp only [sync_channel, hd]
      exact ⟨_, rfl⟩

/-- The synchronizer loop runs to its end when every channel it visits has a pending
access unit or is at end of stream. -/
theorem sync_scan_scans (ctx : GF_OSVCDecCtx) (eos : Nat → Bool)
    (pending : Nat → List GF_FilterPacket) :
    ∀ n k (s : Sync), k + n ≤ ctx.streams.length →
      (∀ x, pending_unit (s.pending x) = pending_unit (pending x)) →
      (∀ i, k ≤ i → i < k + n →
        pending_unit (pending (entry ctx i).ipid) ≠ none ∨ eos (entry ctx i).ipid = true) →
      ∃ s1, sync_scan ctx eos n k s = some (SyncEnd.scanned s1) := by
  intro n
  induction n with
  | zero => intro k s _ _ _; exact ⟨s, rfl⟩
  | succ n ih =>
    intro k s hlen hP hready
    have hk : k < ctx.streams.length := by omega
    have hent : ctx.streams[k]? = some (entry ctx k) := by
      unfold entry
      rw [List.getD_eq_getElem _ _ hk, List.getElem?_eq_getElem hk]
    have hr := hready k (le_refl k) (by omega)
    rw [← hP] at hr
    obtain ⟨s2, hs2⟩ := sync_channel_scans (entry ctx k).ipid (eos (entry ctx k).ipid)
      (s.pending (entry ctx k).ipid) s hr
    have h1 := sync_channel_choice _ _ _ s s2 rfl hs2
    simp only [sync_scan, hent, hs2]
    exact ih (k + 1) s2 (by omega) (fun x => by rw [h1.1 x, hP x])
      (fun i hi1 hi2 => hready i (by omega) (by omega))

/-- A run of lines 340-347 over a list of packets ends with `min_dts` at most the start
value and at most every effective decode time of the list; either nothing was selected,
or `min_dts` went down to the decode time of a packet of the list and `pck_ref` is the
first packet that has it. -/
theorem foldl_pick_least (l : List GF_FilterPacket) :
    ∀ s : Sync,
      (l.foldl sync_pick s).min_dts ≤ s.min_dts ∧
      (∀ p ∈ l, (l.foldl sync_pick s).min_dts ≤ effective_dts p) ∧
      (((l.foldl sync_pick s).min_dts = s.min_dts ∧ (l.foldl sync_pick s).pck_ref = s.pck_ref) ∨
        ((l.foldl sync_pick s).min_dts < s.min_dts ∧
          (l.foldl sync_pick s).pck_ref =
            l.find? (fun p => decide (effective_dts p = (l.foldl sync_pick s).min_dts)) ∧
          ∃ p ∈ l, effective_dts p = (l.foldl sync_pick s).min_dts)) := by
  induction l with
  | nil =>
    intro s
    refine ⟨le_refl _, ?_, Or.inl ⟨rfl, rfl⟩⟩
    intro p hp
    cases hp
  | cons p l ih =>
    intro s
    simp only [List.foldl]
    by_cases hlt : s.min_dts > effective_dts p
    · obtain ⟨h1, h2, h3⟩ := ih (sync_pick s p)
      have hm : (sync_pick s p).min_dts = effective_dts p := by simp [sync_pick, hlt]
      have hr : (sync_pick s p).pck_ref = some p := by simp [sync_pick, hlt]
      rw [hm] at h1
      refine ⟨by omega, ?_, Or.inr ⟨by omega, ?_, ?_⟩⟩
      · intro q hq
        rcases List.mem_cons.mp hq with rfl | hq
        · exact h1
        · exact h2 q hq
      · rcases h3 with ⟨h4, h5⟩ | ⟨h4, h5, _⟩
        · rw [h5, hr, List.find?_cons]
          have : effective_dts p = (List.foldl sync_pick (sync_pick s p) l).min_dts := by
            rw [h4, hm]
          simp [this]
        · rw [h5, List.find?_cons]
          have : ¬ effective_dts p = (List.foldl sync_pick (sync_pick s p) l).min_dts := by
            rw [hm] at h4
            omega
          simp [this]
      · rcases h3 with ⟨h4, _⟩ | ⟨_, _, q, hq, hq2⟩
        · exact ⟨p, List.mem_cons_self _ _, by rw [h4, hm]⟩
        · exact ⟨q, List.mem_cons_of_mem _ hq, hq2⟩
    · have hs : sync_pick s p = s := by simp [sync_pick, hlt]
      obtain ⟨h1, h2, h3⟩ := ih s
      simp only [hs]
      refine ⟨h1, ?_, ?_⟩
      · intro q hq
        rcases List.mem_cons.mp hq with rfl | hq
        · omega
        · exact h2 q hq
      · rcases h3 with h4 | ⟨h4, h5, q, hq, hq2⟩
        · exact Or.inl h4
        · refine Or.inr ⟨h4, ?_, q, List.mem_cons_of_mem _ hq, hq2⟩
          rw [h5, List.find?_cons]
          have : ¬ effective_dts p = (List.foldl sync_pick s l).min_dts := by omega
          simp [this]

/-- C12 as stated fails: a single active channel whose pending access unit carries data
and has neither decode nor presentation time. The unit is the only one, its effective
decode time is the least, and the loop ends with `pck_ref` null. -/
theorem C12_untimed_unit_not_selected :
    active_units ctx_avc_base (one_queue 10 [untimed_packet]) ctx_avc_base.active_streams 0 =
        [untimed_packet] ∧
      effective_dts untimed_packet = GF_FILTER_NO_TS ∧
      sync_choice (sync_scan ctx_avc_base (fun _ => false) ctx_avc_base.active_streams 0
          (sync_start (one_queue 10 [untimed_packet]))) =
        some (GF_FILTER_NO_TS, GF_FILTER_NO_TS, none) := by
  decide

/-- C12, amended: when every active channel has a pending access unit or is at end of
stream, and at least one of the pending units has a decode or presentation time, the loop
of lines 318-348 ends with `min_dts` the least effective decode time of the pending units
of the active channels, and `pck_ref` the first unit in index order that has it. -/
theorem C12_min_dts_selected (ctx : GF_OSVCDecCtx) (pending : Nat → List GF_FilterPacket)
    (eos : Nat → Bool)
    (hlen : ctx.active_streams ≤ ctx.streams.length)
    (hready : ∀ i < ctx.active_streams,
      pending_unit (pending (entry ctx i).ipid) ≠ none ∨ eos (entry ctx i).ipid = true)
    (htime : ∃ p ∈ active_units ctx pending ctx.active_streams 0,
      effective_dts p ≠ GF_FILTER_NO_TS) :
    ∃ s, sync_scan ctx eos ctx.active_streams 0 (sync_start pending) =
        some (SyncEnd.scanned s) ∧
      (∃ p ∈ active_units ctx pending ctx.active_streams 0, effective_dts p = s.min_dts) ∧
      (∀ p ∈ active_units ctx pending ctx.active_streams 0, s.min_dts ≤ effective_dts p) ∧
      s.pck_ref = (active_units ctx pending ctx.active_streams 0).find?
        (fun p => decide (effective_dts p = s.min_dts)) := by
  obtain ⟨s, hs⟩ := sync_scan_scans ctx eos pending ctx.active_streams 0 (sync_start pending)
    (by omega) (fun _ => rfl) (fun i _ hi => hready i (by omega))
  have hc := sync_scan_choice ctx eos pending ctx.active_streams 0 (sync_start pending) s
    (fun _ => rfl) hs
  obtain ⟨h1, h2, h3⟩ := foldl_pick_least (active_units ctx pending ctx.active_streams 0)
    (sync_start pending)
  obtain ⟨p, hp, hpt⟩ := htime
  have hple := effective_dts_le p
  have hp2 := h2 p hp
  have hstart : (sync_start pending).min_dts = GF_FILTER_NO_TS := rfl
  refine ⟨s, hs, ?_⟩
  rw [hc.1, hc.2.2]
  rcases h3 with ⟨h4, _⟩ | ⟨_, h5, h6⟩
  · rw [h4, hstart] at hp2
    omega
  · exact ⟨h6, h2, h5⟩

/-- C12, amended, on a concrete state: the base has a unit at time 5, the enhancement layer
a unit at time 3 behind a packet without data. -/
theorem C12_min_dts_selected_witness :
    ∃ s, sync_scan ctx_avc_pair (fun _ => false) ctx_avc_pair.active_streams 0
          (sync_start two_queues) = some (SyncEnd.scanned s) ∧
      (∃ p ∈ active_units ctx_avc_pair two_queues ctx_avc_pair.active_streams 0,
        effective_dts p = s.min_dts) ∧
      (∀ p ∈ active_units ctx_avc_pair two_queues ctx_avc_pair.active_streams 0,
        s.min_dts ≤ effective_dts p) ∧
      s.pck_ref = (active_units ctx_avc_pair two_queues ctx_avc_pair.active_streams 0).find?
        (fun p => decide (effective_dts p = s.min_dts)) :=
  C12_min_dts_selected ctx_avc_pair two_queues (fun _ => false)
    (by decide) (by decide) (by decide)

/-- The synchronizer loop returns at the first channel without packet that is not at
end of stream, with the input queues untouched, when the head packets ahead carry data. -/
theorem sync_scan_postpone (ctx : GF_OSVCDecCtx) (eos : Nat → Bool)
    (pending : Nat → List GF_FilterPacket) (j : Nat) (hlen : j < ctx.streams.length)
    (hnone : pending (entry ctx j).ipid = []) (hlive : eos (entry ctx j).ipid = false)
    (hlow : ∀ i < j, head_has_data (pending (entry ctx i).ipid) = true) :
    ∀ n k s, s.pending = pending → k ≤ j → j < k + n →
      sync_scan ctx eos n k s = some (SyncEnd.postponed pending) := by
  intro n
  induction n with
  | zero => intro k s _ h1 h2; omega
  | succ n ih =>
    intro k s hs h1 h2
    have hk : k < ctx.streams.length := by omega
    have hent : ctx.streams[k]? = some (entry ctx k) := by
      unfold entry
      rw [List.getD_eq_getElem _ _ hk, List.getElem?_eq_getElem hk]
    simp only [sync_scan, hent, hs]
    by_cases hkj : k = j
    · subst hkj
      simp [hnone, hlive, sync_channel, hs]
    · have hlt : k < j := by omega
      cases hq : pending (entry ctx k).ipid with
      | nil =>
        cases he : eos (entry ctx k).ipid with
        | false => simp [sync_channel, hs]
        | true =>
          simp only [sync_channel, if_true]
          exact ih (k + 1) _ hs (by omega) (by omega)
      | cons p rest =>
        have hd := hlow k hlt
        rw [hq] at hd
        cases hdata : p.data with
        | none => simp [head_has_data, hdata] at hd
        | some d =>
          simp only [sync_channel, hdata]
          have : (sync_pick s p).pending = pending := by
            unfold sync_pick
            split <;> simp [hs]
          exact ih (k + 1) _ this (by omega) (by omega)

/-- C13: when the active channel `j` has no pending packet and is not at end of stream,
and the head packet of every lower channel that has one carries data, the process step
returns with the context (metadata queue, layer state and geometry included) and the
input queues as they were, with no unit handed to the engine, no packet sent and no
end-of-stream signal. -/
theorem C13_postpone_leaves_all (fuel : Nat) (ext : Extern) (env : StepEnv)
    (ctx : GF_OSVCDecCtx) (pending : Nat → List GF_FilterPacket) (eos : Nat → Bool) (j : Nat)
    (hj : j < ctx.active_streams) (hlen : j < ctx.streams.length)
    (hnone : pending (entry ctx j).ipid = []) (hlive : eos (entry ctx j).ipid = false)
    (hlow : ∀ i < j, head_has_data (pending (entry ctx i).ipid) = true) :
    osvcdec_process fuel ext env ctx pending eos =
      some ⟨ctx, pending, [], [], false, false, false⟩ := by
  have h := sync_scan_postpone ctx eos pending j hlen hnone hlive hlow ctx.active_streams 0
    (sync_start pending) rfl (Nat.zero_le j) (by omega)
  simp only [osvcdec_process, process_front, h]

/-- C13 on a concrete state: the base has a unit, the enhancement layer has none and is
not at end of stream. -/
theorem C13_postpone_leaves_all_witness :
    osvcdec_process 6 ext_sample env_sample ctx_avc_pair (one_queue 10 [unit_packet 5])
        (fun _ => false) =
      some ⟨ctx_avc_pair, one_queue 10 [unit_packet 5], [], [], false, false, false⟩ :=
  C13_postpone_leaves_all 6 ext_sample env_sample ctx_avc_pair (one_queue 10 [unit_packet 5])
    (fun _ => false) 1 (by decide) (by decide) (by decide) (by decide) (by decide)

/-! ## The quality layer controller -/

/-- One event keeps the ceiling unset or within `0..MaxDqId`, and keeps `MaxDqId`. -/
theorem event_keeps_ceiling (relayer : LayerState → Int → Int → List Int × Int × Int)
    (ctx : GF_OSVCDecCtx) (fevt : GF_FilterEvent) (hmax : -1 ≤ ctx.MaxDqId)
    (hok : ceiling_ok ctx) :
    ceiling_ok (osvcdec_process_event (UpdateLayer_one_layer relayer) ctx fevt).2 ∧
      (osvcdec_process_event (UpdateLayer_one_layer relayer) ctx fevt).2.MaxDqId =
        ctx.MaxDqId := by
  unfold ceiling_ok at hok ⊢
  cases fevt with
  | other => exact ⟨hok, rfl⟩
  | quality_switch up =>
    cases up with
    | true =>
      by_cases h1 : ctx.LimitDqId = -1
      · simp only [osvcdec_process_event, h1, if_true, lt_irrefl, if_false]
        refine ⟨?_, trivial⟩
        by_cases h2 : ctx.MaxDqId = -1
        · left; exact h2
        · right; omega
      · by_cases h2 : ctx.LimitDqId < ctx.MaxDqId
        · simp only [osvcdec_process_event, h1, if_true, if_false, h2, call_UpdateLayer,
            UpdateLayer_one_layer, layer_state]
          refine ⟨?_, trivial⟩
          right; omega
        · simp only [osvcdec_process_event, h1, if_true, if_false, h2]
          exact ⟨Or.inr (hok.resolve_left h1), trivial⟩
    | false =>
      by_cases h2 : ctx.LimitDqId > 0
      · simp only [osvcdec_process_event, h2, if_true, call_UpdateLayer,
          UpdateLayer_one_layer, layer_state, Bool.false_eq_true, if_false]
        refine ⟨?_, trivial⟩
        right
        constructor
        · simp; omega
        · simp; omega
      · simp only [osvcdec_process_event, h2, if_false, Bool.false_eq_true]
        exact ⟨hok, trivial⟩

/-- A run of events keeps the ceiling unset or within `0..MaxDqId`. -/
theorem run_events_keeps_ceiling (relayer : LayerState → Int → Int → List Int × Int × Int) :
    ∀ (evts : List GF_FilterEvent) (ctx : GF_OSVCDecCtx), -1 ≤ ctx.MaxDqId → ceiling_ok ctx →
      ceiling_ok (run_events (UpdateLayer_one_layer relayer) ctx evts) := by
  intro evts
  induction evts with
  | nil => intro ctx _ hok; exact hok
  | cons fevt rest ih =>
    intro ctx hmax hok
    have h := event_keeps_ceiling relayer ctx fevt hmax hok
    exact ih _ (by rw [h.2]; exact hmax) h.1

/-- C14 as stated fails: with the ceiling unset and `MaxDqId = -2`, a quality switch up
sets `LimitDqId` to -2 (line 280), which is neither unset nor within `0..MaxDqId`. -/
theorem C14_ceiling_leaves_range :
    ceiling_ok { ctx_init with LimitDqId := -1, MaxDqId := -2 } ∧
      (osvcdec_process_event (UpdateLayer_one_layer relayer_sample)
        { ctx_init with LimitDqId := -1, MaxDqId := -2 }
        (GF_FilterEvent.quality_switch true)).2.LimitDqId = -2 ∧
      ¬ ceiling_ok (osvcdec_process_event (UpdateLayer_one_layer relayer_sample)
        { ctx_init with LimitDqId := -1, MaxDqId := -2 }
        (GF_FilterEvent.quality_switch true)).2 := by
  decide

/-- C14, amended: with `UpdateLayer` moving the ceiling one layer in the commanded
direction, from a context whose `MaxDqId` is at least -1 and whose `LimitDqId` is unset or
within `0..MaxDqId`, the ceiling is unset or within `0..MaxDqId` after every request of
every sequence of quality switches; and for any `UpdateLayer`, a request up while
`LimitDqId = MaxDqId` and a request down while `LimitDqId = 0` leave the layer state as it
was. -/
theorem C14_ceiling_stays_in_range (relayer : LayerState → Int → Int → List Int × Int × Int)
    (UpdateLayer : LayerState → Int → Int → LayerState)
    (ctx : GF_OSVCDecCtx) (evts : List GF_FilterEvent)
    (hmax : -1 ≤ ctx.MaxDqId) (hok : ceiling_ok ctx) :
    (∀ k, ceiling_ok (run_events (UpdateLayer_one_layer relayer) ctx (evts.take k))) ∧
      (ctx.LimitDqId = ctx.MaxDqId →
        layer_state (osvcdec_process_event UpdateLayer ctx
          (GF_FilterEvent.quality_switch true)).2 = layer_state ctx) ∧
      (ctx.LimitDqId = 0 →
        layer_state (osvcdec_process_event UpdateLayer ctx
          (GF_FilterEvent.quality_switch false)).2 = layer_state ctx) := by
  refine ⟨fun k => run_events_keeps_ceiling relayer _ ctx hmax hok, ?_, ?_⟩
  · intro h
    by_cases h1 : ctx.LimitDqId = -1
    · simp only [osvcdec_process_event, if_pos h1, if_true, lt_irrefl, if_false, layer_state]
      rw [h]
    · have hlt : ¬ ctx.LimitDqId < ctx.MaxDqId := by rw [h]; exact lt_irrefl _
      simp only [osvcdec_process_event, if_neg h1, if_true, if_neg hlt]
  · intro h
    simp [osvcdec_process_event, h]

/-- C14, amended, on a concrete run: from the unset ceiling with `MaxDqId = 16`, the
requests up, down, down, up. -/
theorem C14_ceiling_stays_in_range_witness :
    (∀ k, ceiling_ok (run_events (UpdateLayer_one_layer relayer_sample) ctx_base_running
        ([GF_FilterEvent.quality_switch true, GF_FilterEvent.quality_switch false,
          GF_FilterEvent.quality_switch false, GF_FilterEvent.quality_switch true].take k))) ∧
      (ctx_base_running.LimitDqId = ctx_base_running.MaxDqId →
        layer_state (osvcdec_process_event (UpdateLayer_one_layer relayer_sample)
          ctx_base_running (GF_FilterEvent.quality_switch true)).2 =
          layer_state ctx_base_running) ∧
      (ctx_base_running.LimitDqId = 0 →
        layer_state (osvcdec_process_event (UpdateLayer_one_layer relayer_sample)
          ctx_base_running (GF_FilterEvent.quality_switch false)).2 =
          layer_state ctx_base_running) :=
  C14_ceiling_stays_in_range relayer_sample (UpdateLayer_one_layer relayer_sample)
    ctx_base_running _ (by decide) (by decide)

/-- C17: while the ceiling is unset (`LimitDqId = -1`), a quality switch up sets
`LimitDqId` to `MaxDqId` and changes nothing else (`UpdateLayer` is not called, so the
table and the temporal fields stay), and a quality switch down changes nothing at all. -/
theorem C17_switch_while_unset (UpdateLayer : LayerState → Int → Int → LayerState) (ctx : GF_OSVCDecCtx)
    (hunset : ctx.LimitDqId = -1) :
    osvcdec_process_event UpdateLayer ctx (GF_FilterEvent.quality_switch true) =
        (false, { ctx with LimitDqId := ctx.MaxDqId }) ∧
      osvcdec_process_event UpdateLayer ctx (GF_FilterEvent.quality_switch false) =
        (false, ctx) := by
  constructor
  · simp [osvcdec_process_event, hunset]
  · simp [osvcdec_process_event, hunset]

/-- C17 on a concrete state: the ceiling is unset and `MaxDqId` is 16. -/
theorem C17_switch_while_unset_witness :
    osvcdec_process_event (UpdateLayer_one_layer relayer_sample) ctx_base_running
        (GF_FilterEvent.quality_switch true) =
        (false, { ctx_base_running with LimitDqId := ctx_base_running.MaxDqId }) ∧
      osvcdec_process_event (UpdateLayer_one_layer relayer_sample) ctx_base_running
        (GF_FilterEvent.quality_switch false) = (false, ctx_base_running) :=
  C17_switch_while_unset (UpdateLayer_one_layer relayer_sample) ctx_base_running (by decide)

/-! ## Lemmas on the process step -/

/-- The relation `layers_only` is reflexive. -/
theorem layers_only_refl (c : GF_OSVCDecCtx) : layers_only c c := rfl

/-- The relation `layers_only` is transitive. -/
theorem layers_only_trans (a b c : GF_OSVCDecCtx) (h1 : layers_only a b)
    (h2 : layers_only b c) : layers_only a c := by
  unfold layers_only at *
  rw [h2, h1]

/-- Lines 411-425 write `DqIdTable`, `MaxDqId`, `layers` and `TemporalCom` only. -/
theorem select_layers_only (ext : Extern) (env : StepEnv) (c : GF_OSVCDecCtx)
    (data : List Nat) : layers_only c (select_layers ext env c data) := rfl

/-- The body of the decoding loop writes the layer fields of the context only. -/
theorem decode_channel_layers (fuel : Nat) (ext : Extern) (env : StepEnv)
    (idx pid min_dts min_cts : Nat) :
    ∀ (q : List GF_FilterPacket) (d d1 : Decode),
      decode_channel fuel ext env idx pid min_dts min_cts q d = some d1 →
      layers_only d.ctx d1.ctx := by
  intro q
  induction q with
  | nil =>
    intro d d1 h
    simp only [decode_channel, Option.some.injEq] at h
    subst h
    exact layers_only_refl _
  | cons p rest ih =>
    intro d d1 h
    simp only [decode_channel] at h
    split at h
    · simp only [Option.some.injEq] at h
      subst h
      exact layers_only_refl _
    · split at h
      · simp only [Option.some.injEq] at h
        subst h
        exact layers_only_refl _
      · split at h
        · have := ih _ _ h
          exact layers_only_trans _ _ _ (select_layers_only ext env d.ctx _) this
        · split at h
          · cases h
          · simp only [Option.some.injEq] at h
            subst h
            exact select_layers_only ext env d.ctx _

/-- The decoding loop writes the layer fields of the context only. -/
theorem decode_scan_layers (fuel : Nat) (ext : Extern) (env : StepEnv) (min_dts min_cts : Nat) :
    ∀ n i (d d1 : Decode), decode_scan fuel ext env min_dts min_cts n i d = some d1 →
      layers_only d.ctx d1.ctx := by
  intro n
  induction n with
  | zero =>
    intro i d d1 h
    simp only [decode_scan, Option.some.injEq] at h
    subst h
    exact layers_only_refl _
  | succ n ih =>
    intro i d d1 h
    simp only [decode_scan] at h
    cases hst : d.ctx.streams[i]? with
    | none => simp [hst] at h
    | some st =>
      simp only [hst] at h
      cases hd2 : decode_channel fuel ext env i st.ipid min_dts min_cts (d.pending st.ipid) d with
      | none => simp [hd2] at h
      | some d2 =>
        simp only [hd2] at h
        exact layers_only_trans _ _ _
          (decode_channel_layers fuel ext env i st.ipid min_dts min_cts _ _ _ hd2) (ih _ _ _ h)

/-- A step that returns ahead of line 502 leaves the context and sends nothing. -/
theorem front_returned (fuel : Nat) (ext : Extern) (env : StepEnv) (ctx : GF_OSVCDecCtx)
    (pending : Nat → List GF_FilterPacket) (eos : Nat → Bool) (r : Stepped)
    (h : process_front fuel ext env ctx pending eos = some (Front.returned r)) :
    r.ctx = ctx ∧ r.sent = [] ∧ r.has_pic = false := by
  unfold process_front at h
  split at h
  · cases h
  · simp only [Option.some.injEq, Front.returned.injEq] at h
    subst h
    exact ⟨rfl, rfl, rfl⟩
  · split at h
    · simp only [Option.some.injEq, Front.returned.injEq] at h
      subst h
      exact ⟨rfl, rfl, rfl⟩
    · split at h
      · simp only [Option.some.injEq, Front.returned.injEq] at h
        subst h
        exact ⟨rfl, rfl, rfl⟩
      · split at h
        · cases h
        · split at h
          · cases h
          · simp only [Option.map_eq_some'] at h
            obtain ⟨d, _, hd⟩ := h
            cases hd

/-- A step that reaches line 502 has pushed a record and then run the decoding loop. -/
theorem front_decoded (fuel : Nat) (ext : Extern) (env : StepEnv) (ctx : GF_OSVCDecCtx)
    (pending : Nat → List GF_FilterPacket) (eos : Nat → Bool) (d : Decode)
    (h : process_front fuel ext env ctx pending eos = some (Front.decoded d)) :
    ∃ (r : OSVCDecFrameInfo) (c1 : GF_OSVCDecCtx),
      process_queue_cts ctx r env.fresh = some c1 ∧ layers_only c1 d.ctx := by
  unfold process_front at h
  split at h
  · cases h
  · cases h
  · split at h
    · cases h
    · split at h
      · cases h
      · split at h
        · cases h
        · split at h
          · cases h
          · rename_i c1 hc1
            simp only [Option.map_eq_some'] at h
            obtain ⟨d1, hd, hd1⟩ := h
            simp only [Front.decoded.injEq] at hd1
            subst hd1
            exact ⟨_, c1, hc1, decode_scan_layers fuel ext env _ _ _ _ _ _ hd⟩

/-- The geometry does not depend on the metadata queue. -/
theorem queue_only_geometry (c c1 : GF_OSVCDecCtx) (h : queue_only c c1) :
    geometry c1 = geometry c := by
  unfold queue_only at h
  rw [h]
  rfl

/-- The geometry does not depend on the layer fields. -/
theorem layers_only_geometry (c c1 : GF_OSVCDecCtx) (h : layers_only c c1) :
    geometry c1 = geometry c := by
  unfold layers_only at h
  rw [h]
  rfl

/-- The metadata queue does not depend on the layer fields. -/
theorem layers_only_queue (c c1 : GF_OSVCDecCtx) (h : layers_only c c1) :
    c1.frame_infos = c.frame_infos ∧ c1.frame_infos_size = c.frame_infos_size := by
  unfold layers_only at h
  rw [h]
  exact ⟨rfl, rfl⟩

/-- Lines 504-518 leave the metadata queue. -/
theorem resize_to_queue (pic : OPENSVCFRAME) (c : GF_OSVCDecCtx) :
    (resize_to pic c).frame_infos = c.frame_infos ∧
      (resize_to pic c).frame_infos_size = c.frame_infos_size := by
  unfold resize_to
  split <;> exact ⟨rfl, rfl⟩

/-- The channel setup does not depend on the metadata queue. -/
theorem queue_only_setup (c c1 : GF_OSVCDecCtx) (h : queue_only c c1) : same_setup c c1 := by
  unfold queue_only at h
  rw [h]
  exact ⟨rfl, rfl, rfl, rfl⟩

/-- The channel setup does not depend on the layer fields. -/
theorem layers_only_setup (c c1 : GF_OSVCDecCtx) (h : layers_only c c1) : same_setup c c1 := by
  unfold layers_only at h
  rw [h]
  exact ⟨rfl, rfl, rfl, rfl⟩

/-- Lines 504-518 leave the channel setup. -/
theorem resize_to_setup (pic : OPENSVCFRAME) (c : GF_OSVCDecCtx) :
    same_setup c (resize_to pic c) := by
  unfold resize_to
  split <;> exact ⟨rfl, rfl, rfl, rfl⟩

/-- The relation `same_setup` is transitive. -/
theorem same_setup_trans (a b c : GF_OSVCDecCtx) (h1 : same_setup a b) (h2 : same_setup b c) :
    same_setup a c :=
  ⟨h2.1.trans h1.1, h2.2.1.trans h1.2.1, h2.2.2.1.trans h1.2.2.1, h2.2.2.2.trans h1.2.2.2⟩

/-- Lines 502-538 after a completed picture, on a queue of at least one record inside
the array: the head is removed, and a packet with its properties is sent unless its seek
flag is set. -/
theorem output_of (env : StepEnv) (d : Decode) (hpic : d.has_pic = true)
    (hpos : 0 < d.ctx.frame_infos_size)
    (hfit : d.ctx.frame_infos_size ≤ d.ctx.frame_infos.length) :
    ∃ head c2, d.ctx.frame_infos[0]? = some head ∧
      osvcdec_drop_frameinfo (resize_to env.pic d.ctx) = some c2 ∧
      c2.frame_infos_size + 1 = d.ctx.frame_infos_size ∧
      queued c2 = (queued d.ctx).tail ∧
      process_output env d =
        some (Stepped.mk c2 d.pending d.decoded
          (if head.seek_flag ≠ 0 then []
           else [⟨(resize_to env.pic d.ctx).out_size,
             plane_copies (resize_to env.pic d.ctx).stride (resize_to env.pic d.ctx).height,
             head.cts, head.sap_type, head.duration⟩])
          false true
          (decide (env.pic.Width ≠ d.ctx.width ∨ env.pic.Height ≠ d.ctx.height))) := by
  obtain ⟨hrfi, hrsize⟩ := resize_to_queue env.pic d.ctx
  have hpos2 : 0 < (resize_to env.pic d.ctx).frame_infos_size := by rw [hrsize]; exact hpos
  have hfit2 : (resize_to env.pic d.ctx).frame_infos_size ≤
      (resize_to env.pic d.ctx).frame_infos.length := by rw [hrsize, hrfi]; exact hfit
  obtain ⟨c2, hdrop, hc2, hc2q, _⟩ := drop_pops _ hpos2 hfit2
  have hlen : 0 < d.ctx.frame_infos.length := by omega
  have hq2 : queued (resize_to env.pic d.ctx) = queued d.ctx := by
    unfold queued
    rw [hrfi, hrsize]
  refine ⟨d.ctx.frame_infos[0], c2, List.getElem?_eq_getElem hlen, hdrop, ?_, ?_, ?_⟩
  · rw [hc2, hrsize]
  · rw [hc2q, hq2]
  · by_cases hseek : (d.ctx.frame_infos[0]).seek_flag ≠ 0
    · simp only [process_output, hpic, hrfi, List.getElem?_eq_getElem hlen, hseek, hdrop,
        Bool.true_eq_false, if_false, if_true, Option.map_some', ne_eq, not_false_eq_true]
    · simp only [process_output, hpic, hrfi, List.getElem?_eq_getElem hlen, hseek, hdrop,
        Bool.true_eq_false, if_false, Option.map_some']

/-! ## The output of a process step -/

/-- C15: in a process step that reaches line 502 with a picture completed, from a context
whose metadata array holds the queue, the step returns; the push of this step made the
queue one record longer, and the step removes exactly one record, the head, the others
keeping their order. When the head has its seek flag set no packet is sent; when it is
clear exactly one packet is sent, with the `cts`, random-access type and duration of the
head. -/
theorem C15_picture_pops_one_record (fuel : Nat) (ext : Extern) (env : StepEnv) (ctx : GF_OSVCDecCtx)
    (pending : Nat → List GF_FilterPacket) (eos : Nat → Bool) (d : Decode)
    (hq : queue_ok ctx)
    (hfront : process_front fuel ext env ctx pending eos = some (Front.decoded d))
    (hpic : d.has_pic = true) :
    ∃ head r, d.ctx.frame_infos[0]? = some head ∧
      osvcdec_process fuel ext env ctx pending eos = some r ∧
      d.ctx.frame_infos_size = ctx.frame_infos_size + 1 ∧
      r.ctx.frame_infos_size + 1 = d.ctx.frame_infos_size ∧
      queued r.ctx = (queued d.ctx).tail ∧
      (head.seek_flag ≠ 0 → r.sent = []) ∧
      (head.seek_flag = 0 → ∃ size copies,
        r.sent = [⟨size, copies, head.cts, head.sap_type, head.duration⟩]) := by
  obtain ⟨r0, c1, hpush, hlay⟩ := front_decoded fuel ext env ctx pending eos d hfront
  obtain ⟨hsz, hfit, _⟩ := push_grows ctx c1 r0 env.fresh hq hpush
  obtain ⟨hfi, hsize⟩ := layers_only_queue c1 d.ctx hlay
  obtain ⟨head, c2, hhead, _, hc2, hc2q, hout⟩ := output_of env d hpic
    (by rw [hsize, hsz]; omega) (by rw [hsize, hfi]; exact hfit)
  have hproc : osvcdec_process fuel ext env ctx pending eos = process_output env d := by
    simp only [osvcdec_process, hfront]
  rw [hout] at hproc
  refine ⟨head, _, hhead, hproc, by rw [hsize, hsz], hc2, hc2q, ?_, ?_⟩
  · intro h
    simp only [h, ne_eq, not_false_eq_true, if_true]
  · intro h
    simp only [h, ne_eq, not_true_eq_false, if_false]
    exact ⟨_, _, rfl⟩

/-- C15 on a concrete step: the single channel has one access unit at time 100, without
seek flag, and the engine completes a picture. -/
theorem C15_picture_pops_one_record_witness :
    ∃ d, process_front 6 ext_sample env_sample ctx_avc_base (one_queue 10 [unit_packet 100])
          (fun _ => false) = some (Front.decoded d) ∧
      d.has_pic = true ∧
      ∃ head r, d.ctx.frame_infos[0]? = some head ∧
        osvcdec_process 6 ext_sample env_sample ctx_avc_base (one_queue 10 [unit_packet 100])
          (fun _ => false) = some r ∧
        d.ctx.frame_infos_size = ctx_avc_base.frame_infos_size + 1 ∧
        r.ctx.frame_infos_size + 1 = d.ctx.frame_infos_size ∧
        queued r.ctx = (queued d.ctx).tail ∧
        (head.seek_flag ≠ 0 → r.sent = []) ∧
        (head.seek_flag = 0 → ∃ size copies,
          r.sent = [⟨size, copies, head.cts, head.sap_type, head.duration⟩]) :=
  ⟨_, rfl, rfl,
    C15_picture_pops_one_record 6 ext_sample env_sample ctx_avc_base
      (one_queue 10 [unit_packet 100]) (fun _ => false) _ (by decide) rfl rfl⟩

/-- One process step on a single channel whose head access unit completes a picture: the
step returns, sends one packet with the properties of the unit, consumes the unit and
leaves the metadata queue empty. -/
theorem single_step (fuel : Nat) (ext : Extern) (env : StepEnv) (ctx : GF_OSVCDecCtx)
    (pending : Nat → List GF_FilterPacket) (eos : Nat → Bool) (pid w : Nat)
    (p : GF_FilterPacket) (rest : List GF_FilterPacket)
    (hs : single_channel ctx pid w) (hq : pending pid = p :: rest)
    (hc : completes_picture fuel env w p = true) :
    ∃ r, osvcdec_process fuel ext env ctx pending eos = some r ∧
      single_channel r.ctx pid w ∧ r.pending pid = rest ∧
      r.sent.map (fun o => (o.cts, o.duration, o.sap)) =
        [(gf_filter_pck_get_cts p, p.duration, p.sap)] := by
  obtain ⟨hst, hnb, hact, hw, hsize, hlen⟩ := hs
  -- what the packet is
  unfold completes_picture at hc
  simp only [Bool.and_eq_true, Bool.not_eq_true', decide_eq_true_eq] at hc
  obtain ⟨⟨hseek, hcts⟩, hx⟩ := hc
  cases hdata : p.data with
  | none => simp [hdata] at hx
  | some data =>
    simp only [hdata] at hx
    cases hext : unit_extraction fuel env.next_start_code (env.decodeNAL 0) w data with
    | none => simp [hext] at hx
    | some x =>
      simp only [hext, Bool.and_eq_true, decide_eq_true_eq] at hx
      obtain ⟨⟨hgot, hbad⟩, hfuel⟩ := hx
      -- the registry
      cases hst0 : ctx.streams[0]? with
      | none => simp [hst0] at hst
      | some st =>
        have hpid : st.ipid = pid := by simpa [hst0] using hst
        -- the synchronizer
        have hlt := effective_dts_lt p hcts
        have hpick : sync_pick (sync_start pending) p =
            ⟨pending, 0, effective_dts p, gf_filter_pck_get_cts p, some p⟩ := by
          simp [sync_pick, sync_start, hlt, hcts]
        have hscan : sync_scan ctx eos ctx.active_streams 0 (sync_start pending) =
            some (SyncEnd.scanned ⟨pending, 0, effective_dts p, gf_filter_pck_get_cts p,
              some p⟩) := by
          rw [hact, ← hpick]
          have hq0 : (sync_start pending).pending st.ipid = p :: rest := by
            rw [hpid]; exact hq
          simp only [sync_scan, hst0, hq0, sync_channel, hdata]
        -- the metadata queue
        obtain ⟨c1, hpush, hc1size, hc1head, hc1len, hc1only⟩ :=
          push_empty ctx ⟨gf_filter_pck_get_cts p, p.duration, p.sap,
            if p.seek_flag then 1 else 0⟩ env.fresh hsize hlen
        obtain ⟨s1, s2, s3, s4⟩ := queue_only_setup ctx c1 hc1only
        -- the decoding loop
        have hlay := select_layers_only ext env c1 data
        obtain ⟨l1, l2, l3, l4⟩ := layers_only_setup _ _ hlay
        obtain ⟨lq1, lq2⟩ := layers_only_queue _ _ hlay
        have hdec : decode_scan fuel ext env (effective_dts p) (gf_filter_pck_get_cts p)
            c1.nb_streams 0 ⟨c1, pending, [], false⟩ =
            some ⟨select_layers ext env c1 data, set_queue pending pid rest,
              x.units.map (fun u => (0, u.1, u.2)), true⟩ := by
          have h1 : c1.streams[0]? = some st := by rw [s1]; exact hst0
          have h2 : ¬ (0 ≥ c1.active_streams) := by rw [s3, hact]; omega
          have h3 : ¬ ((effective_dts p ≠ GF_FILTER_NO_TS ∧ effective_dts p ≠ effective_dts p) ∨
              (effective_dts p = GF_FILTER_NO_TS ∧
                gf_filter_pck_get_cts p ≠ gf_filter_pck_get_cts p)) := by
            intro h
            rcases h with h | h
            · exact h.2 rfl
            · exact h.2 rfl
          have h4 : (select_layers ext env c1 data).nalu_size_length = w := by
            rw [l4, s4, hw]
          have h5 : ¬ (x.ending = LoopEnd.bad_read ∨ x.ending = LoopEnd.no_fuel) := by
            intro h
            rcases h with h | h
            · exact hbad h
            · exact hfuel h
          rw [s2, hnb]
          simp only [decode_scan, h1, hpid, hq, decode_channel, if_neg h2, if_neg h3, hdata,
            Option.getD_some, h4, hext, if_neg h5, hgot, List.nil_append, Bool.false_or,
            ne_eq, not_false_eq_true, decide_True, not_true_eq_false, and_false, or_self,
            if_false]
        -- the state when the loop is left
        have hfront : process_front fuel ext env ctx pending eos =
            some (Front.decoded ⟨select_layers ext env c1 data, set_queue pending pid rest,
              x.units.map (fun u => (0, u.1, u.2)), true⟩) := by
          have hne : ¬ ((0 : Nat) = ctx.active_streams) := by rw [hact]; omega
          simp only [process_front, hscan, if_neg hne, if_neg hcts, hpush, hdec,
            Option.map_some']
        -- the output
        have hdsize : (select_layers ext env c1 data).frame_infos_size = 1 := by
          rw [lq2, hc1size]
        have hdhead : (select_layers ext env c1 data).frame_infos[0]? =
            some ⟨gf_filter_pck_get_cts p, p.duration, p.sap,
              if p.seek_flag then 1 else 0⟩ := by
          rw [lq1, hc1head]
        have hdlen : 0 < (select_layers ext env c1 data).frame_infos.length := by
          by_contra hzero
          rw [List.getElem?_eq_none (by omega)] at hdhead
          cases hdhead
        obtain ⟨head, c2, hhead, hdrop, hc2, _, hout⟩ :=
          output_of env ⟨select_layers ext env c1 data, set_queue pending pid rest,
            x.units.map (fun u => (0, u.1, u.2)), true⟩ rfl
            (by show 0 < (select_layers ext env c1 data).frame_infos_size; omega)
            (by show (select_layers ext env c1 data).frame_infos_size ≤
                  (select_layers ext env c1 data).frame_infos.length; omega)
        have hheq : head = ⟨gf_filter_pck_get_cts p, p.duration, p.sap,
            if p.seek_flag then 1 else 0⟩ := by
          have : some head = some _ := hhead.symm.trans hdhead
          exact Option.some.inj this
        have hproc : osvcdec_process fuel ext env ctx pending eos =
            process_output env ⟨select_layers ext env c1 data, set_queue pending pid rest,
              x.units.map (fun u => (0, u.1, u.2)), true⟩ := by
          simp only [osvcdec_process, hfront]
        rw [hout] at hproc
        refine ⟨_, hproc, ?_, ?_, ?_⟩
        · -- the invariant
          obtain ⟨r1, r2, r3, r4⟩ := resize_to_setup env.pic (select_layers ext env c1 data)
          obtain ⟨d1, d2, d3, d4⟩ := queue_only_setup _ _ (drop_queue_only _ _ hdrop)
          obtain ⟨a1, a2⟩ := drop_array _ _ hdrop
          obtain ⟨rq1, _⟩ := resize_to_queue env.pic (select_layers ext env c1 data)
          have hqo : queue_only ctx c1 := hc1only
          refine ⟨?_, ?_, ?_, ?_, ?_, ?_⟩
          · show (c2.streams[0]?).map GF_SVCStream.ipid = some pid
            rw [d1, r1, l1, s1, hst0]
            simp [hpid]
          · show c2.nb_streams = 1
            rw [d2, r2, l2, s2, hnb]
          · show c2.active_streams = 1
            rw [d3, r3, l3, s3, hact]
          · show c2.nalu_size_length = w
            rw [d4, r4, l4, s4, hw]
          · show c2.frame_infos_size = 0
            have : c2.frame_infos_size + 1 = (select_layers ext env c1 data).frame_infos_size :=
              hc2
            omega
          · show c2.frame_infos.length = c2.frame_infos_alloc
            rw [a1, a2, rq1, lq1, hc1len]
            have e1 : (resize_to env.pic (select_layers ext env c1 data)).frame_infos_alloc =
                (select_layers ext env c1 data).frame_infos_alloc := by
              unfold resize_to
              split <;> rfl
            rw [e1]
            rfl
        · show set_queue pending pid rest pid = rest
          simp [set_queue]
        · simp [hheq, hseek]

/-- C16: for every run of `N` process steps on a context with a single channel and an
empty metadata queue, whose input queue starts with `N` access units that carry data, have
a presentation time and no seek flag, and for each of which the engine completes a picture
in its step: the `N` steps all return, each sends exactly one packet and leaves the
metadata queue empty, and the packets sent carry, in order, the `cts`, duration and
random-access type of the `N` access units. The presentation times need not increase. -/
theorem C16_single_channel_run (fuel : Nat) (ext : Extern) (eos : Nat → Bool) (pid w : Nat) :
    ∀ (steps : List (StepEnv × GF_FilterPacket)) (ctx : GF_OSVCDecCtx)
      (pending : Nat → List GF_FilterPacket) (rest : List GF_FilterPacket),
      single_channel ctx pid w → pending pid = steps.map Prod.snd ++ rest →
      (∀ ep ∈ steps, completes_picture fuel ep.1 w ep.2 = true) →
      ∃ rs, run_steps fuel ext eos (steps.map Prod.fst) ctx pending = some rs ∧
        rs.length = steps.length ∧
        (∀ r ∈ rs, r.ctx.frame_infos_size = 0 ∧ r.sent.length = 1) ∧
        (all_sent rs).map (fun o => (o.cts, o.duration, o.sap)) =
          steps.map (fun ep => (gf_filter_pck_get_cts ep.2, ep.2.duration, ep.2.sap)) := by
  intro steps
  induction steps with
  | nil =>
    intro ctx pending rest _ _ _
    refine ⟨[], rfl, rfl, ?_, rfl⟩
    intro r hr
    cases hr
  | cons ep steps ih =>
    intro ctx pending rest hs hq hc
    obtain ⟨r, hr, hrs, hrq, hrsent⟩ := single_step fuel ext ep.1 ctx pending eos pid w ep.2
      (steps.map Prod.snd ++ rest) hs (by simpa using hq) (hc ep (List.mem_cons_self _ _))
    obtain ⟨rs, hrun, hlen, hall, hsent⟩ := ih r.ctx r.pending rest hrs hrq
      (fun e he => hc e (List.mem_cons_of_mem _ he))
    have hone : r.sent.length = 1 := by
      have := congrArg List.length hrsent
      simpa using this
    refine ⟨r :: rs, ?_, ?_, ?_, ?_⟩
    · simp only [List.map_cons, run_steps, hr, hrun, Option.map_some']
    · simp [hlen]
    · intro r1 hr1
      rcases List.mem_cons.mp hr1 with rfl | hr1
      · exact ⟨hrs.2.2.2.2.1, hone⟩
      · exact hall r1 hr1
    · simp only [all_sent, List.map_append, List.map_cons, hrsent, hsent]
      rfl

/-- C16 on a concrete run: two access units at times 100 and 140 on the single channel. -/
theorem C16_single_channel_run_witness :
    ∃ rs, run_steps 6 ext_sample (fun _ => false)
          ([(env_sample, unit_packet 100), (env_sample, unit_packet 140)].map Prod.fst)
          ctx_avc_base (one_queue 10 [unit_packet 100, unit_packet 140]) = some rs ∧
      rs.length = [(env_sample, unit_packet 100), (env_sample, unit_packet 140)].length ∧
      (∀ r ∈ rs, r.ctx.frame_infos_size = 0 ∧ r.sent.length = 1) ∧
      (all_sent rs).map (fun o => (o.cts, o.duration, o.sap)) =
        [(env_sample, unit_packet 100), (env_sample, unit_packet 140)].map
          (fun ep => (gf_filter_pck_get_cts ep.2, ep.2.duration, ep.2.sap)) :=
  C16_single_channel_run 6 ext_sample (fun _ => false) 10 4
    [(env_sample, unit_packet 100), (env_sample, unit_packet 140)] ctx_avc_base
    (one_queue 10 [unit_packet 100, unit_packet 140]) [] (by decide) (by decide) (by decide)

/-! ## The end of the extraction loop -/

/-- C18, evaluated on the code: a packet of five bytes with 4-byte length fields whose
first field holds `2^32 - 4`. The sum `nalu_size + nalu_size_length` of line 490 wraps to
zero, so the test does not leave the loop and line 491 subtracts zero: after the first
iteration the loop goes on with `data_size` still 5 and `ptr` moved `2^32` bytes ahead.
In the embedding the next iteration ends the loop on a read of a length byte outside the
packet. -/
theorem C18_length_wraps_to_zero (decodeNAL : Nat → Nat → Nat → Int) (fuel : Nat) :
    extract_loop [255, 255, 255, 252, 0] 4 (fun _ _ => (0, 0)) decodeNAL (fuel + 1) 0 5 0 0 [] =
        extract_loop [255, 255, 255, 252, 0] 4 (fun _ _ => (0, 0)) decodeNAL fuel
          4294967296 5 4294967292
          (if (0 : Int) = 0 ∧ decodeNAL 0 4 4294967292 > 0 then decodeNAL 0 4 4294967292 else 0)
          [(4, 4294967292)] ∧
      (extract_units [255, 255, 255, 252, 0] 4 decodeNAL).units = [(4, 4294967292)] ∧
      (extract_units [255, 255, 255, 252, 0] 4 decodeNAL).ending = LoopEnd.bad_read :=
  ⟨rfl, rfl, rfl⟩

/-! ## The output geometry -/

/-- The relation between the geometry fields depends on these fields only. -/
theorem geometry_ok_of_geometry (c c1 : GF_OSVCDecCtx) (h : geometry c1 = geometry c)
    (hok : geometry_ok c) : geometry_ok c1 := by
  unfold geometry at h
  simp only [Prod.mk.injEq] at h
  obtain ⟨h1, h2, h3, h4⟩ := h
  unfold geometry_ok at *
  rw [h1, h2, h3, h4]
  exact hok

/-- Lines 250-253 establish the relation between the geometry fields. -/
theorem configure_geometry_ok (ext : Extern) (ctx : GF_OSVCDecCtx) :
    geometry_ok (configure_geometry ext ctx) := ⟨rfl, rfl⟩

/-- Lines 190-269 establish the relation when they return `GF_OK`, and leave the
geometry fields when they return an error. -/
theorem configure_decoder_geometry (ext : Extern) (ctx : GF_OSVCDecCtx) (dep_id : Nat)
    (p : Option DecoderConfig) :
    ((configure_decoder ext ctx dep_id p).1 = GF_Err.GF_OK →
        geometry_ok (configure_decoder ext ctx dep_id p).2) ∧
      (geometry (configure_decoder ext ctx dep_id p).2 = geometry ctx ∨
        geometry_ok (configure_decoder ext ctx dep_id p).2) := by
  unfold configure_decoder
  repeat' first | split | simp only []
  all_goals
    first
    | exact ⟨(by intro h; cases h), Or.inl rfl⟩
    | exact ⟨(by intro h; cases h), Or.inl trivial⟩
    | exact ⟨fun _ => configure_geometry_ok _ _, Or.inr (configure_geometry_ok _ _)⟩

/-- The loop of lines 104-113 leaves the geometry fields. -/
theorem remove_scan_geometry (ctx : GF_OSVCDecCtx) (pid : Nat) :
    ∀ n i e c, remove_scan ctx pid n i = some (e, c) → geometry c = geometry ctx := by
  intro n
  induction n with
  | zero =>
    intro i e c h
    simp only [remove_scan, Option.some.injEq, Prod.mk.injEq] at h
    rw [← h.2]
  | succ n ih =>
    intro i e c h
    simp only [remove_scan] at h
    split at h
    · cases h
    · split at h
      · split at h
        · cases h
        · simp only [Option.some.injEq, Prod.mk.injEq] at h
          rw [← h.2]
          rfl
      · exact ih _ _ _ h

/-- Lines 135-188 leave the geometry fields. -/
theorem configure_registry_geometry (ctx : GF_OSVCDecCtx) (pid id dep_id cfg_crc : Nat)
    (f : Flow) (h : configure_registry ctx pid id dep_id cfg_crc = some f) :
    match f with
    | Flow.ret _ c => geometry c = geometry ctx
    | Flow.next c => geometry c = geometry ctx := by
  unfold configure_registry at h
  split at h
  · cases h
  · simp only at h
    split at h
    · simp only [Option.some.injEq] at h
      subst h
      rfl
    · split at h
      · simp only [Option.some.injEq] at h
        subst h
        rfl
      · split at h
        · cases h
        · simp only [Option.some.injEq] at h
          subst h
          rfl
        · simp only [Option.some.injEq] at h
          subst h
          rfl
        · split at h
          · cases h
          · simp only [Option.some.injEq] at h
            subst h
            rfl

/-- A configure call leaves the geometry fields or establishes their relation. -/
theorem configure_pid_geometry (ext : Extern) (ctx : GF_OSVCDecCtx) (pp : PidProps)
    (is_remove : Bool) (e : GF_Err) (c : GF_OSVCDecCtx)
    (h : osvcdec_configure_pid ext ctx pp is_remove = some (e, c)) :
    geometry c = geometry ctx ∨ geometry_ok c := by
  unfold osvcdec_configure_pid at h
  split at h
  · unfold configure_remove at h
    split at h
    · cases h
    · split at h
      · simp only [Option.some.injEq, Prod.mk.injEq] at h
        rw [← h.2]
        exact Or.inl rfl
      · exact Or.inl (remove_scan_geometry ctx pp.pid _ _ _ _ h)
  · split at h
    · simp only [Option.some.injEq, Prod.mk.injEq] at h
      rw [← h.2]
      exact Or.inl rfl
    · split at h
      · cases h
      · simp only [Option.some.injEq, Prod.mk.injEq] at h
        rw [← h.2]
        exact Or.inl rfl
      · split at h
        · cases h
        · rename_i hreg
          have hg := configure_registry_geometry _ _ _ _ _ _ hreg
          simp only [Option.some.injEq, Prod.mk.injEq] at h
          rw [← h.2]
          exact Or.inl hg
        · rename_i c1 hreg
          have hg := configure_registry_geometry _ _ _ _ _ _ hreg
          simp only at hg
          simp only [Option.some.injEq] at h
          have hd := (configure_decoder_geometry ext c1 pp.dep_id pp.decoder_config).2
          rw [h] at hd
          rcases hd with hd | hd
          · exact Or.inl (hd.trans hg)
          · exact Or.inr hd

/-- A process step leaves the geometry fields, or a picture of another size was completed
and the fields follow it. -/
theorem process_geometry (fuel : Nat) (ext : Extern) (env : StepEnv) (ctx : GF_OSVCDecCtx)
    (pending : Nat → List GF_FilterPacket) (eos : Nat → Bool) (r : Stepped)
    (h : osvcdec_process fuel ext env ctx pending eos = some r) :
    geometry r.ctx = geometry ctx ∨
      (r.has_pic = true ∧ (env.pic.Width ≠ ctx.width ∨ env.pic.Height ≠ ctx.height) ∧
        r.ctx.width = env.pic.Width ∧ r.ctx.height = env.pic.Height ∧ geometry_ok r.ctx) := by
  unfold osvcdec_process at h
  split at h
  · cases h
  · rename_i r1 hfront
    simp only [Option.some.injEq] at h
    subst h
    rw [(front_returned fuel ext env ctx pending eos _ hfront).1]
    exact Or.inl rfl
  · rename_i d hfront
    obtain ⟨r0, c1, hpush, hlay⟩ := front_decoded fuel ext env ctx pending eos d hfront
    have hg : geometry d.ctx = geometry ctx :=
      (layers_only_geometry c1 d.ctx hlay).trans
        (queue_only_geometry ctx c1 (push_queue_only ctx c1 r0 env.fresh hpush))
    have hw : d.ctx.width = ctx.width := congrArg (fun g => g.1) hg
    have hh : d.ctx.height = ctx.height := congrArg (fun g => g.2.1) hg
    unfold process_output at h
    split at h
    · simp only [Option.some.injEq] at h
      subst h
      exact Or.inl hg
    · simp only at h
      split at h
      · cases h
      · have key : ∀ c2, osvcdec_drop_frameinfo (resize_to env.pic d.ctx) = some c2 →
            geometry c2 = geometry ctx ∨
              ((env.pic.Width ≠ ctx.width ∨ env.pic.Height ≠ ctx.height) ∧
                c2.width = env.pic.Width ∧ c2.height = env.pic.Height ∧ geometry_ok c2) := by
          intro c2 hc2
          have hq := queue_only_geometry _ _ (drop_queue_only _ _ hc2)
          by_cases hdiff : env.pic.Width ≠ d.ctx.width ∨ env.pic.Height ≠ d.ctx.height
          · right
            have hres : geometry (resize_to env.pic d.ctx) =
                (env.pic.Width, env.pic.Height, u32 (env.pic.Width + 32),
                  frame_size (u32 (env.pic.Width + 32)) env.pic.Height) := by
              simp only [resize_to, hdiff, if_true, geometry]
            rw [hres] at hq
            unfold geometry at hq
            simp only [Prod.mk.injEq] at hq
            obtain ⟨q1, q2, q3, q4⟩ := hq
            refine ⟨by rw [← hw, ← hh]; exact hdiff, q1, q2, ?_, ?_⟩
            · rw [q3, q1]
            · rw [q4, q3, q2]
              rfl
          · left
            have hres : resize_to env.pic d.ctx = d.ctx := by
              simp only [resize_to, hdiff, if_false]
            rw [hres] at hq
            exact hq.trans hg
        split at h
        · simp only [Option.map_eq_some'] at h
          obtain ⟨c2, hc2, hr⟩ := h
          subst hr
          rcases key c2 hc2 with hk | hk
          · exact Or.inl hk
          · exact Or.inr ⟨rfl, hk⟩
        · simp only [Option.map_eq_some'] at h
          obtain ⟨c2, hc2, hr⟩ := h
          subst hr
          rcases key c2 hc2 with hk | hk
          · exact Or.inl hk
          · exact Or.inr ⟨rfl, hk⟩

/-- An event leaves the geometry fields. -/
theorem event_geometry (UpdateLayer : LayerState → Int → Int → LayerState)
    (ctx : GF_OSVCDecCtx) (fevt : GF_FilterEvent) :
    geometry (osvcdec_process_event UpdateLayer ctx fevt).2 = geometry ctx := by
  cases fevt with
  | other => rfl
  | quality_switch up =>
    simp only [osvcdec_process_event]
    repeat' first | split | rfl

/-- A call leaves the geometry fields or leaves them in their relation. -/
theorem call_geometry (ctx c1 : GF_OSVCDecCtx) (c : Call) (h : call_ctx ctx c = some c1) :
    geometry c1 = geometry ctx ∨ geometry_ok c1 := by
  cases c with
  | configure ext pp is_remove =>
    simp only [call_ctx, Option.map_eq_some'] at h
    obtain ⟨⟨e, c2⟩, h, rfl⟩ := h
    exact configure_pid_geometry ext ctx pp is_remove e c2 h
  | process fuel ext env pending eos =>
    simp only [call_ctx, Option.map_eq_some'] at h
    obtain ⟨r, h, rfl⟩ := h
    rcases process_geometry fuel ext env ctx pending eos r h with hg | hg
    · exact Or.inl hg
    · exact Or.inr hg.2.2.2.2
  | event UpdateLayer fevt =>
    simp only [call_ctx, Option.some.injEq] at h
    subst h
    exact Or.inl (event_geometry UpdateLayer ctx fevt)

/-- A run of calls that starts with the geometry fields in their relation has them in
their relation after each call. -/
theorem run_calls_geometry : ∀ (cs : List Call) (ctx : GF_OSVCDecCtx) (l : List GF_OSVCDecCtx),
    geometry_ok ctx → run_calls cs ctx = some l → ∀ c ∈ l, geometry_ok c
  | [], _, l, _, h => by
    simp only [run_calls, Option.some.injEq] at h
    subst h
    intro c hc
    cases hc
  | c0 :: cs, ctx, l, hok, h => by
    simp only [run_calls] at h
    cases hc : call_ctx ctx c0 with
    | none => rw [hc] at h; cases h
    | some c1 =>
      rw [hc] at h
      simp only [Option.map_eq_some'] at h
      obtain ⟨l1, hl1, rfl⟩ := h
      have hok1 : geometry_ok c1 := by
        rcases call_geometry ctx c1 c0 hc with hg | hg
        · exact geometry_ok_of_geometry ctx c1 hg hok
        · exact hg
      intro c hmem
      rcases List.mem_cons.mp hmem with rfl | hmem
      · exact hok1
      · exact run_calls_geometry cs c1 l1 hok1 hl1 c hmem

/-- Lines 190-269 leave the geometry fields when they return an error. -/
theorem configure_decoder_error_geometry (ext : Extern) (ctx : GF_OSVCDecCtx) (dep_id : Nat)
    (p : Option DecoderConfig)
    (h : (configure_decoder ext ctx dep_id p).1 ≠ GF_Err.GF_OK) :
    geometry (configure_decoder ext ctx dep_id p).2 = geometry ctx := by
  revert h
  unfold configure_decoder
  repeat' first | split | simp only []
  all_goals
    first
    | exact fun _ => rfl
    | exact fun h => absurd rfl h
    | (intro _; trivial)

/-- A configure call that runs lines 250-253 returns `GF_OK` and leaves the geometry
fields in their relation. -/
theorem reaches_geometry_ok (ext : Extern) (ctx : GF_OSVCDecCtx) (pp : PidProps)
    (is_remove : Bool) (h : reaches_geometry_update ext ctx pp is_remove = true) :
    ∃ c, osvcdec_configure_pid ext ctx pp is_remove = some (GF_Err.GF_OK, c) ∧
      geometry_ok c := by
  unfold reaches_geometry_update at h
  unfold osvcdec_configure_pid
  split at h
  · cases h
  · rename_i hrem
    rw [if_neg hrem]
    split at h
    · cases h
    · rename_i hcaps
      rw [if_neg hcaps]
      split at h
      · cases h
      · cases h
      · split at h
        · cases h
        · cases h
        · rename_i c1 hreg
          simp only [decide_eq_true_eq] at h
          refine ⟨(configure_decoder ext c1 pp.dep_id pp.decoder_config).2, ?_,
            (configure_decoder_geometry ext c1 pp.dep_id pp.decoder_config).1 h⟩
          simp only [Option.some.injEq]
          rw [← h]

/-- A configure call that returns without running lines 250-253 leaves the geometry
fields as they were. -/
theorem skips_geometry_same (ext : Extern) (ctx : GF_OSVCDecCtx) (pp : PidProps)
    (is_remove : Bool) (e : GF_Err) (c : GF_OSVCDecCtx)
    (h : osvcdec_configure_pid ext ctx pp is_remove = some (e, c))
    (hskip : reaches_geometry_update ext ctx pp is_remove = false) :
    geometry c = geometry ctx := by
  unfold reaches_geometry_update at hskip
  unfold osvcdec_configure_pid at h
  split at h
  · unfold configure_remove at h
    split at h
    · cases h
    · split at h
      · simp only [Option.some.injEq, Prod.mk.injEq] at h
        rw [← h.2]
        rfl
      · exact remove_scan_geometry ctx pp.pid _ _ _ _ h
  · rename_i hrem
    rw [if_neg hrem] at hskip
    split at h
    · simp only [Option.some.injEq, Prod.mk.injEq] at h
      rw [← h.2]
    · rename_i hcaps
      rw [if_neg hcaps] at hskip
      split at h
      · cases h
      · simp only [Option.some.injEq, Prod.mk.injEq] at h
        rw [← h.2]
      · rename_i hscan
        rw [hscan] at hskip
        simp only at hskip
        split at h
        · cases h
        · rename_i hreg
          have hg := configure_registry_geometry _ _ _ _ _ _ hreg
          simp only [Option.some.injEq, Prod.mk.injEq] at h
          rw [← h.2]
          exact hg
        · rename_i c1 hreg
          have hg := configure_registry_geometry _ _ _ _ _ _ hreg
          simp only at hg
          rw [hreg] at hskip
          simp only [decide_eq_false_iff_not] at hskip
          simp only [Option.some.injEq] at h
          have hd := configure_decoder_error_geometry ext c1 pp.dep_id pp.decoder_config hskip
          rw [h] at hd
          exact hd.trans hg

/-- A process step that returns sets the geometry fields from the picture when a picture
was completed whose width or height differs from the current one, and leaves them as they
were otherwise. -/
theorem process_geometry_exact (fuel : Nat) (ext : Extern) (env : StepEnv)
    (ctx : GF_OSVCDecCtx) (pending : Nat → List GF_FilterPacket) (eos : Nat → Bool)
    (r : Stepped) (h : osvcdec_process fuel ext env ctx pending eos = some r) :
    geometry r.ctx =
      if r.has_pic = true ∧ (env.pic.Width ≠ ctx.width ∨ env.pic.Height ≠ ctx.height) then
        picture_geometry env.pic
      else geometry ctx := by
  unfold osvcdec_process at h
  split at h
  · cases h
  · rename_i r1 hfront
    simp only [Option.some.injEq] at h
    subst h
    obtain ⟨h1, _, h3⟩ := front_returned fuel ext env ctx pending eos _ hfront
    rw [h1, h3]
    simp only [Bool.false_eq_true, false_and, if_false]
  · rename_i d hfront
    obtain ⟨r0, c1, hpush, hlay⟩ := front_decoded fuel ext env ctx pending eos d hfront
    have hg : geometry d.ctx = geometry ctx :=
      (layers_only_geometry c1 d.ctx hlay).trans
        (queue_only_geometry ctx c1 (push_queue_only ctx c1 r0 env.fresh hpush))
    have hw : d.ctx.width = ctx.width := congrArg (fun g => g.1) hg
    have hh : d.ctx.height = ctx.height := congrArg (fun g => g.2.1) hg
    unfold process_output at h
    split at h
    · simp only [Option.some.injEq] at h
      subst h
      simp only [Bool.false_eq_true, false_and, if_false]
      exact hg
    · simp only at h
      split at h
      · cases h
      · have key : ∀ c2, osvcdec_drop_frameinfo (resize_to env.pic d.ctx) = some c2 →
            geometry c2 =
              if env.pic.Width ≠ ctx.width ∨ env.pic.Height ≠ ctx.height then
                picture_geometry env.pic
              else geometry ctx := by
          intro c2 hc2
          have hq := queue_only_geometry _ _ (drop_queue_only _ _ hc2)
          rw [hq, ← hw, ← hh]
          by_cases hdiff : env.pic.Width ≠ d.ctx.width ∨ env.pic.Height ≠ d.ctx.height
          · rw [if_pos hdiff]
            simp only [resize_to, hdiff, if_true, geometry, picture_geometry]
          · rw [if_neg hdiff]
            simp only [resize_to, hdiff, if_false]
            exact hg
        split at h
        · simp only [Option.map_eq_some'] at h
          obtain ⟨c2, hc2, hr⟩ := h
          subst hr
          simp only [true_and]
          exact key c2 hc2
        · simp only [Option.map_eq_some'] at h
          obtain ⟨c2, hc2, hr⟩ := h
          subst hr
          simp only [true_and]
          exact key c2 hc2

/-- C19 as stated fails: the attach of a base whose decoder configuration cannot be parsed
returns at line 192, after the pid was registered and before lines 250-253; the same
attach repeated returns `GF_OK` at line 131; neither call runs the geometry update. A
process step on this context, with an access unit pending or with none, returns and leaves
width, height, stride and output size all zero, so `stride = width + 32` does not hold
after it. -/
theorem C19_step_before_geometry_update :
    osvcdec_configure_pid ext_sample ctx_init unparsed_pid false =
        some (GF_Err.GF_NON_COMPLIANT_BITSTREAM, ctx_unparsed) ∧
      osvcdec_configure_pid ext_sample ctx_unparsed unparsed_pid false =
        some (GF_Err.GF_OK, ctx_unparsed) ∧
      reaches_geometry_update ext_sample ctx_init unparsed_pid false = false ∧
      reaches_geometry_update ext_sample ctx_unparsed unparsed_pid false = false ∧
      (osvcdec_process 4 ext_sample env_sample ctx_unparsed (one_queue 10 [unit_packet 1])
          (fun _ => false)).map (fun r => (geometry r.ctx, decide (geometry_ok r.ctx))) =
        some ((0, 0, 0, 0), false) ∧
      (osvcdec_process 4 ext_sample env_sample ctx_unparsed (fun _ => [])
          (fun _ => false)).map (fun r => (geometry r.ctx, decide (geometry_ok r.ctx))) =
        some ((0, 0, 0, 0), false) ∧
      (run_calls
          [Call.configure ext_sample unparsed_pid false,
            Call.configure ext_sample unparsed_pid false,
            Call.process 4 ext_sample env_sample (one_queue 10 [unit_packet 1])
              (fun _ => false)]
          ctx_init).map (fun l => l.map fun c => (geometry c, decide (geometry_ok c))) =
        some [((0, 0, 0, 0), false), ((0, 0, 0, 0), false), ((0, 0, 0, 0), false)] := by
  refine ⟨by decide, by decide, by decide, by decide, by decide, by decide, by decide⟩

/-- C19, amended: a configure call that runs lines 250-253 returns `GF_OK` and leaves
`stride = width + 32` and `out_size = stride * height * 3 / 2` in `u32`, and the relation
then holds after each call of every run of configure calls, process steps and events that
follows; a configure call that returns without running these lines leaves width, height,
stride and output size as they were; a process step that returns sets width and height to
the picture's, stride to width + 32 and the output size to `stride * height * 3 / 2` when
it completed a picture whose width or height differs from the current one, leaves the four
fields as they were in every other case, and keeps the relation when it holds before the
step; and from any context in which the relation holds, it holds after each call of every
run of calls. -/
theorem C19_geometry_relation_kept :
    (∀ (ext : Extern) (ctx : GF_OSVCDecCtx) (pp : PidProps) (is_remove : Bool),
      reaches_geometry_update ext ctx pp is_remove = true →
        ∃ c, osvcdec_configure_pid ext ctx pp is_remove = some (GF_Err.GF_OK, c) ∧
          geometry_ok c ∧
          ∀ (cs : List Call) (l : List GF_OSVCDecCtx), run_calls cs c = some l →
            ∀ c1 ∈ l, geometry_ok c1) ∧
    (∀ (ext : Extern) (ctx : GF_OSVCDecCtx) (pp : PidProps) (is_remove : Bool) (e : GF_Err)
      (c : GF_OSVCDecCtx), osvcdec_configure_pid ext ctx pp is_remove = some (e, c) →
        reaches_geometry_update ext ctx pp is_remove = false →
          geometry c = geometry ctx) ∧
    (∀ (fuel : Nat) (ext : Extern) (env : StepEnv) (ctx : GF_OSVCDecCtx)
      (pending : Nat → List GF_FilterPacket) (eos : Nat → Bool) (r : Stepped),
      osvcdec_process fuel ext env ctx pending eos = some r →
        geometry r.ctx =
            (if r.has_pic = true ∧
                (env.pic.Width ≠ ctx.width ∨ env.pic.Height ≠ ctx.height) then
              picture_geometry env.pic
            else geometry ctx) ∧
          (geometry_ok ctx → geometry_ok r.ctx)) ∧
    (∀ (cs : List Call) (ctx : GF_OSVCDecCtx) (l : List GF_OSVCDecCtx),
      geometry_ok ctx → run_calls cs ctx = some l → ∀ c ∈ l, geometry_ok c) := by
  refine ⟨?_, skips_geometry_same, ?_, run_calls_geometry⟩
  · intro ext ctx pp is_remove h
    obtain ⟨c, hc, hok⟩ := reaches_geometry_ok ext ctx pp is_remove h
    exact ⟨c, hc, hok, fun cs l hl => run_calls_geometry cs c l hok hl⟩
  · intro fuel ext env ctx pending eos r h
    refine ⟨process_geometry_exact fuel ext env ctx pending eos r h, fun hok => ?_⟩
    rcases process_geometry fuel ext env ctx pending eos r h with hg | hg
    · exact geometry_ok_of_geometry ctx r.ctx hg hok
    · exact hg.2.2.2.2

/-- C19, amended, on concrete calls: the attach of a base without decoder configuration to
the zero-initialised context runs the geometry update; and from the context of an attached
base, with width and height 0 and stride 32, a process step that completes a picture of 16
by 16, a quality switch and the attach of an enhancement layer leave width 16, height 16,
stride 48 and output size 1152. -/
theorem C19_geometry_relation_kept_witness :
    (∃ c, osvcdec_configure_pid ext_sample ctx_init (plain_pid 10 1 0) false =
          some (GF_Err.GF_OK, c) ∧
        geometry_ok c ∧
        ∀ (cs : List Call) (l : List GF_OSVCDecCtx), run_calls cs c = some l →
          ∀ c1 ∈ l, geometry_ok c1) ∧
      geometry ctx_avc_base = (0, 0, 32, 0) ∧
      ∃ l, run_calls calls_sample ctx_avc_base = some l ∧
        l.map geometry = [(16, 16, 48, 1152), (16, 16, 48, 1152), (16, 16, 48, 1152)] ∧
        ∀ c ∈ l, geometry_ok c :=
  ⟨C19_geometry_relation_kept.1 ext_sample ctx_init (plain_pid 10 1 0) false (by decide),
    by decide, (run_calls calls_sample ctx_avc_base).getD [], rfl, rfl,
    C19_geometry_relation_kept.2.2.2 calls_sample ctx_avc_base _ (by decide) rfl⟩

/-- C20: for every stride and height with `5 * stride * height < 2^32`, the three plane
copies are luma at offset 0 with length `stride * height`, first chroma at offset
`stride * height` and second chroma at offset `5 * stride * height / 4`, each chroma with
length `stride * height / 4`; each starts where the one before ends, they are pairwise
disjoint, and the last ends at or before `out_size = stride * height * 3 / 2`. -/
theorem C20_plane_copies_tile (stride height : Nat) (h : 5 * stride * height < 4294967296) :
    plane_copies stride height =
        [(0, stride * height), (stride * height, stride * height / 4),
          (5 * stride * height / 4, stride * height / 4)] ∧
      frame_size stride height = stride * height * 3 / 2 ∧
      stride * height + stride * height / 4 = 5 * stride * height / 4 ∧
      5 * stride * height / 4 + stride * height / 4 ≤ frame_size stride height ∧
      regions_disjoint (0, stride * height) (stride * height, stride * height / 4) ∧
      regions_disjoint (0, stride * height) (5 * stride * height / 4, stride * height / 4) ∧
      regions_disjoint (stride * height, stride * height / 4)
        (5 * stride * height / 4, stride * height / 4) := by
  have hx : 5 * stride * height = 5 * (stride * height) := by ring
  have h1 : u32 (stride * height) = stride * height := u32_of_lt _ (by omega)
  have h3 : u32 (stride * height * 3) = stride * height * 3 := u32_of_lt _ (by omega)
  have h5 : u32 (u32 (5 * stride) * height) = 5 * stride * height := by
    rcases Nat.eq_zero_or_pos height with h0 | hpos
    · subst h0; simp [u32]
    · have : 5 * stride ≤ 5 * stride * height := Nat.le_mul_of_pos_right _ hpos
      rw [u32_of_lt (5 * stride) (by omega), u32_of_lt _ h]
  have hf : frame_size stride height = stride * height * 3 / 2 := by
    unfold frame_size
    rw [h1, h3]
  refine ⟨?_, hf, ?_, ?_, ?_, ?_, ?_⟩
  · simp only [plane_copies, h1, h5]
  · omega
  · rw [hf]; omega
  · left; simp
  · left; simp only; omega
  · left; simp only; omega

/-- C20 on a concrete size: width 16, so stride 48, and height 16. -/
theorem C20_plane_copies_tile_witness :
    plane_copies 48 16 = [(0, 48 * 16), (48 * 16, 48 * 16 / 4), (5 * 48 * 16 / 4, 48 * 16 / 4)] ∧
      frame_size 48 16 = 48 * 16 * 3 / 2 ∧
      48 * 16 + 48 * 16 / 4 = 5 * 48 * 16 / 4 ∧
      5 * 48 * 16 / 4 + 48 * 16 / 4 ≤ frame_size 48 16 ∧
      regions_disjoint (0, 48 * 16) (48 * 16, 48 * 16 / 4) ∧
      regions_disjoint (0, 48 * 16) (5 * 48 * 16 / 4, 48 * 16 / 4) ∧
      regions_disjoint (48 * 16, 48 * 16 / 4) (5 * 48 * 16 / 4, 48 * 16 / 4) :=
  C20_plane_copies_tile 48 16 (by decide)

/-! ## The stream counters over runs of calls -/

/-- The loop of lines 130-132 stays inside the array when its last index does. -/
theorem same_cfg_scan_total (streams : List GF_SVCStream) (pid crc : Nat) :
    ∀ n i, i + n ≤ streams.length → ∃ b, same_cfg_scan streams pid crc n i = some b := by
  intro n
  induction n with
  | zero => intro i _; exact ⟨false, rfl⟩
  | succ n ih =>
    intro i h
    have hi : i < streams.length := by omega
    simp only [same_cfg_scan, List.getElem?_eq_getElem hi]
    split
    · exact ⟨true, rfl⟩
    · exact ih (i + 1) (by omega)

/-- The loop of lines 136-141 stays inside the array when its last index does, and keeps
the number of entries. -/
theorem found_scan_total (pid crc : Nat) :
    ∀ n i (streams : List GF_SVCStream) (found : Bool), i + n ≤ streams.length →
      ∃ s f, found_scan pid crc n i streams found = some (s, f) ∧
        s.length = streams.length := by
  intro n
  induction n with
  | zero => intro i streams found _; exact ⟨streams, found, rfl, rfl⟩
  | succ n ih =>
    intro i streams found h
    have hi : i < streams.length := by omega
    simp only [found_scan, List.getElem?_eq_getElem hi]
    split
    · obtain ⟨s, f, hs, hl⟩ := ih (i + 1) (streams.set i { streams[i] with cfg_crc := crc })
        true (by rw [List.length_set]; omega)
      exact ⟨s, f, hs, by rw [hl, List.length_set]⟩
    · exact ih (i + 1) streams found (by omega)

/-- The loop of lines 147-178 on a registry below capacity stays inside the array, and an
insertion keeps the number of entries of the array. -/
theorem insert_scan_total (streams : List GF_SVCStream) (nb_streams : Nat) (e : GF_SVCStream)
    (hnb : nb_streams < streams.length) :
    ∀ n i, i + n ≤ nb_streams → ∃ r, insert_scan streams nb_streams e n i = some r ∧
      ∀ s, r = Scan.placed s → s.length = streams.length := by
  intro n
  induction n with
  | zero =>
    intro i _
    exact ⟨Scan.not_placed, rfl, fun s hs => by cases hs⟩
  | succ n ih =>
    intro i h
    have hi : i < streams.length := by omega
    simp only [insert_scan, List.getElem?_eq_getElem hi]
    split
    · exact ⟨Scan.conflict, rfl, fun s hs => by cases hs⟩
    · split
      · by_cases hg : nb_streams > i + 2
        · simp only [hg, if_true]
          have hn : nb_streams - i - 1 ≠ 0 := by omega
          have hb : i + 2 + (nb_streams - i - 1) ≤ streams.length ∧
              i + 1 + (nb_streams - i - 1) ≤ streams.length := by omega
          simp only [memmove, hn, if_false, hb, and_self, if_true, store]
          have hl : i + 1 < (List.take (i + 1) streams ++
              (List.take (nb_streams - i - 1) (List.drop (i + 2) streams) ++
                List.drop (i + 1 + (nb_streams - i - 1)) streams)).length := by
            simp only [List.length_append, List.length_take, List.length_drop]
            omega
          simp only [hl, if_true, Option.map_some']
          refine ⟨_, rfl, fun s hs => ?_⟩
          simp only [Scan.placed.injEq] at hs
          rw [← hs, List.length_set]
          simp only [List.length_append, List.length_take, List.length_drop]
          omega
        · simp only [hg, if_false, store]
          have hs : i + 1 < streams.length := by omega
          simp only [hs, if_true, Option.map_some']
          exact ⟨_, rfl, fun s hs => by
            simp only [Scan.placed.injEq] at hs
            rw [← hs, List.length_set]⟩
      · split
        · by_cases hg : nb_streams > i + 1
          · simp only [hg, if_true]
            have hn : nb_streams - i ≠ 0 := by omega
            have hb : i + (nb_streams - i) ≤ streams.length ∧
                i + 1 + (nb_streams - i) ≤ streams.length := by omega
            simp only [memmove, hn, if_false, hb, and_self, if_true, store]
            have hl : i < (List.take (i + 1) streams ++
                (List.take (nb_streams - i) (List.drop i streams) ++
                  List.drop (i + 1 + (nb_streams - i)) streams)).length := by
              simp only [List.length_append, List.length_take, List.length_drop]
              omega
            simp only [hl, if_true, Option.map_some']
            refine ⟨_, rfl, fun s hs => ?_⟩
            simp only [Scan.placed.injEq] at hs
            rw [← hs, List.length_set]
            simp only [List.length_append, List.length_take, List.length_drop]
            omega
          · simp only [hg, if_false, store, hi, if_true, Option.map_some']
            exact ⟨_, rfl, fun s hs => by
              simp only [Scan.placed.injEq] at hs
              rw [← hs, List.length_set]⟩
        · exact ih (i + 1) (by omega)
/-- Lines 135-188 on a context whose counters agree stay inside the array; the counters
agree afterwards, and `nb_streams` is as before or one more, at most the capacity. -/
theorem configure_registry_counters (ctx : GF_OSVCDecCtx) (pid id dep_id cfg_crc : Nat)
    (h : counters_ok ctx) :
    ∃ f, configure_registry ctx pid id dep_id cfg_crc = some f ∧
      match f with
      | Flow.ret _ c => counters_ok c ∧ c.nb_streams = ctx.nb_streams
      | Flow.next c =>
        counters_ok c ∧
          (c.nb_streams = ctx.nb_streams ∨ c.nb_streams = ctx.nb_streams + 1) := by
  obtain ⟨hact, hnb, hlen⟩ := h
  have hnb3 : ctx.nb_streams ≤ 3 := hnb
  have hlen3 : ctx.streams.length = 3 := hlen
  obtain ⟨s1, f1, hf, hl1⟩ := found_scan_total pid cfg_crc ctx.active_streams 0 ctx.streams
    false (by omega)
  unfold configure_registry
  rw [hf]
  simp only
  cases f1 with
  | true =>
    simp only [if_true]
    exact ⟨_, rfl, ⟨hact, hnb, hl1.trans hlen⟩, Or.inl rfl⟩
  | false =>
    simp only [Bool.false_eq_true, if_false]
    by_cases hfull : ctx.nb_streams = SVC_MAX_STREAMS
    · simp only [hfull, if_true]
      exact ⟨_, rfl, ⟨hact.trans hfull, le_of_eq rfl, hl1.trans hlen⟩, rfl⟩
    · simp only [hfull, if_false]
      have hlt : ctx.nb_streams < 3 := lt_of_le_of_ne hnb3 hfull
      have hu : u32 (ctx.nb_streams + 1) = ctx.nb_streams + 1 := by
        unfold u32
        omega
      obtain ⟨r, hr, hrl⟩ := insert_scan_total s1 ctx.nb_streams ⟨pid, cfg_crc, id, dep_id⟩
        (by omega) ctx.nb_streams 0 (by omega)
      rw [hr]
      cases r with
      | conflict => exact ⟨_, rfl, ⟨hact, hnb, hl1.trans hlen⟩, rfl⟩
      | placed s2 =>
        refine ⟨_, rfl, ⟨rfl, ?_, ?_⟩, Or.inr hu⟩
        · show u32 (ctx.nb_streams + 1) ≤ 3
          omega
        · exact (hrl s2 rfl).trans (hl1.trans hlen)
      | not_placed =>
        simp only [store]
        have hs : ctx.nb_streams < s1.length := by omega
        simp only [hs, if_true]
        refine ⟨_, rfl, ⟨rfl, ?_, ?_⟩, Or.inr hu⟩
        · show u32 (ctx.nb_streams + 1) ≤ 3
          omega
        · show (s1.set ctx.nb_streams _).length = 3
          rw [List.length_set]
          omega

/-- Lines 190-269 leave the array `streams` and the two counters. -/
theorem configure_decoder_setup (ext : Extern) (ctx : GF_OSVCDecCtx) (dep_id : Nat)
    (p : Option DecoderConfig) :
    (configure_decoder ext ctx dep_id p).2.streams = ctx.streams ∧
      (configure_decoder ext ctx dep_id p).2.nb_streams = ctx.nb_streams ∧
      (configure_decoder ext ctx dep_id p).2.active_streams = ctx.active_streams := by
  unfold configure_decoder configure_geometry apply_first_sps
  repeat' first | exact ⟨rfl, rfl, rfl⟩ | split | simp only []

/-- A configure call with `is_remove` false on a context whose counters agree returns;
the counters agree afterwards, and `nb_streams` is as before or one more. -/
theorem attach_counters (ext : Extern) (ctx : GF_OSVCDecCtx) (pp : PidProps)
    (h : counters_ok ctx) :
    ∃ e c, osvcdec_configure_pid ext ctx pp false = some (e, c) ∧ counters_ok c ∧
      (c.nb_streams = ctx.nb_streams ∨ c.nb_streams = ctx.nb_streams + 1) := by
  have hnb3 : ctx.nb_streams ≤ 3 := h.2.1
  have hlen3 : ctx.streams.length = 3 := h.2.2
  unfold osvcdec_configure_pid
  simp only [Bool.false_eq_true, if_false]
  by_cases hcaps : pp.check_caps = false
  · simp only [hcaps, if_true]
    exact ⟨_, _, rfl, h, Or.inl rfl⟩
  · simp only [hcaps, if_false]
    have hscan : ∃ b, (match pp.checked_config with
        | some dc => same_cfg_scan ctx.streams pp.pid dc.crc ctx.nb_streams 0
        | none => some false) = some b := by
      cases pp.checked_config with
      | none => exact ⟨false, rfl⟩
      | some dc => exact same_cfg_scan_total ctx.streams pp.pid dc.crc ctx.nb_streams 0 (by omega)
    obtain ⟨b, hb⟩ := hscan
    rw [hb]
    cases b with
    | true => exact ⟨_, _, rfl, h, Or.inl rfl⟩
    | false =>
      obtain ⟨f, hf, hprop⟩ := configure_registry_counters ctx pp.pid pp.id pp.dep_id pp.cfg_crc h
      simp only [hf]
      cases f with
      | ret e c => exact ⟨_, _, rfl, hprop.1, Or.inl hprop.2⟩
      | next c =>
        simp only at hprop
        obtain ⟨h1, h2, h3⟩ := configure_decoder_setup ext c pp.dep_id pp.decoder_config
        refine ⟨(configure_decoder ext c pp.dep_id pp.decoder_config).1,
          (configure_decoder ext c pp.dep_id pp.decoder_config).2, rfl, ⟨?_, ?_, ?_⟩, ?_⟩
        · rw [h3, h2]; exact hprop.1.1
        · rw [h2]; exact hprop.1.2.1
        · rw [h1]; exact hprop.1.2.2
        · rw [h2]; exact hprop.2
/-- An array of `SVC_MAX_STREAMS` entries has three entries. -/
theorem streams_three (l : List GF_SVCStream) (h : l.length = SVC_MAX_STREAMS) :
    ∃ a b c, l = [a, b, c] := by
  match l, h with
  | [a, b, c], _ => exact ⟨a, b, c, rfl⟩

/-- The branch `if (is_remove)` on a context whose counters agree: it leaves the array
exactly when the registry is full and the pid is registered at index 1 or 2 and not at
index 0; when it returns, it returns `GF_OK`, the counters agree and neither has grown. -/
theorem detach_counters (ctx : GF_OSVCDecCtx) (pid : Nat) (h : counters_ok ctx) :
    (configure_remove ctx pid = none ↔
      ctx.nb_streams = SVC_MAX_STREAMS ∧ (entry ctx 0).ipid ≠ pid ∧
        ((entry ctx 1).ipid = pid ∨ (entry ctx 2).ipid = pid)) ∧
    ∀ e c, configure_remove ctx pid = some (e, c) →
      e = GF_Err.GF_OK ∧ counters_ok c ∧ c.nb_streams ≤ ctx.nb_streams ∧
        c.active_streams ≤ ctx.active_streams := by
  obtain ⟨hact, hnb, hlen⟩ := h
  obtain ⟨a, b, c, hs⟩ := streams_three ctx.streams hlen
  have hnb3 : ctx.nb_streams ≤ 3 := hnb
  have hcases : ctx.nb_streams = 0 ∨ ctx.nb_streams = 1 ∨ ctx.nb_streams = 2 ∨
      ctx.nb_streams = 3 := by omega
  by_cases ha : a.ipid = pid
  · simp [configure_remove, hs, ha, entry, counters_ok, SVC_MAX_STREAMS]
  · by_cases hb : b.ipid = pid
    · rcases hcases with hn | hn | hn | hn <;>
        simp [configure_remove, remove_scan, memmove, u32_dec, hs, ha, hb, hn, entry,
          counters_ok, SVC_MAX_STREAMS, hact]
    · by_cases hc : c.ipid = pid
      · rcases hcases with hn | hn | hn | hn <;>
          simp [configure_remove, remove_scan, memmove, u32_dec, hs, ha, hb, hc, hn, entry,
            counters_ok, SVC_MAX_STREAMS, hact]
      · rcases hcases with hn | hn | hn | hn <;>
          simp [configure_remove, remove_scan, memmove, u32_dec, hs, ha, hb, hc, hn, entry,
            counters_ok, SVC_MAX_STREAMS, hact]
/-- A process step leaves the array `streams`, the two counters and the prefix width. -/
theorem process_setup (fuel : Nat) (ext : Extern) (env : StepEnv) (ctx : GF_OSVCDecCtx)
    (pending : Nat → List GF_FilterPacket) (eos : Nat → Bool) (r : Stepped)
    (h : osvcdec_process fuel ext env ctx pending eos = some r) : same_setup ctx r.ctx := by
  unfold osvcdec_process at h
  split at h
  · cases h
  · rename_i r1 hfront
    simp only [Option.some.injEq] at h
    subst h
    rw [(front_returned fuel ext env ctx pending eos _ hfront).1]
    exact ⟨rfl, rfl, rfl, rfl⟩
  · rename_i d hfront
    obtain ⟨r0, c1, hpush, hlay⟩ := front_decoded fuel ext env ctx pending eos d hfront
    have hd : same_setup ctx d.ctx :=
      same_setup_trans _ _ _ (queue_only_setup _ _ (push_queue_only ctx c1 r0 env.fresh hpush))
        (layers_only_setup _ _ hlay)
    unfold process_output at h
    split at h
    · simp only [Option.some.injEq] at h
      subst h
      exact hd
    · simp only at h
      split at h
      · cases h
      · have key : ∀ c2, osvcdec_drop_frameinfo (resize_to env.pic d.ctx) = some c2 →
            same_setup ctx c2 := fun c2 hc2 =>
          same_setup_trans _ _ _ hd
            (same_setup_trans _ _ _ (resize_to_setup env.pic d.ctx)
              (queue_only_setup _ _ (drop_queue_only _ _ hc2)))
        split at h
        · simp only [Option.map_eq_some'] at h
          obtain ⟨c2, hc2, hr⟩ := h
          subst hr
          exact key c2 hc2
        · simp only [Option.map_eq_some'] at h
          obtain ⟨c2, hc2, hr⟩ := h
          subst hr
          exact key c2 hc2

/-- An event leaves the array `streams` and the two counters. -/
theorem event_setup (UpdateLayer : LayerState → Int → Int → LayerState)
    (ctx : GF_OSVCDecCtx) (fevt : GF_FilterEvent) :
    same_setup ctx (osvcdec_process_event UpdateLayer ctx fevt).2 := by
  cases fevt with
  | other => exact ⟨rfl, rfl, rfl, rfl⟩
  | quality_switch up =>
    simp only [osvcdec_process_event]
    repeat' first | exact ⟨rfl, rfl, rfl, rfl⟩ | split

/-- The agreement of the counters depends on the channel setup only. -/
theorem counters_ok_of_setup (c c1 : GF_OSVCDecCtx) (h : same_setup c c1)
    (hok : counters_ok c) : counters_ok c1 := by
  obtain ⟨h1, h2, h3, _⟩ := h
  unfold counters_ok
  rw [h1, h2, h3]
  exact hok

/-- A call that returns, on a context whose counters agree, leaves them in agreement. -/
theorem call_counters (ctx c1 : GF_OSVCDecCtx) (c : Call) (hok : counters_ok ctx)
    (h : call_ctx ctx c = some c1) : counters_ok c1 := by
  cases c with
  | configure ext pp is_remove =>
    simp only [call_ctx, Option.map_eq_some'] at h
    obtain ⟨⟨e, c2⟩, h, rfl⟩ := h
    cases is_remove with
    | false =>
      obtain ⟨e1, c3, h3, hc3, _⟩ := attach_counters ext ctx pp hok
      rw [h3] at h
      simp only [Option.some.injEq, Prod.mk.injEq] at h
      rw [← h.2]
      exact hc3
    | true =>
      simp only [osvcdec_configure_pid, if_true] at h
      exact ((detach_counters ctx pp.pid hok).2 e c2 h).2.1
  | process fuel ext env pending eos =>
    simp only [call_ctx, Option.map_eq_some'] at h
    obtain ⟨r, h, rfl⟩ := h
    exact counters_ok_of_setup _ _ (process_setup fuel ext env ctx pending eos r h) hok
  | event UpdateLayer fevt =>
    simp only [call_ctx, Option.some.injEq] at h
    subst h
    exact counters_ok_of_setup _ _ (event_setup UpdateLayer ctx fevt) hok

/-- In a run of calls that return, from a context whose counters agree, the counters agree
after each call. -/
theorem run_calls_counters : ∀ (cs : List Call) (ctx : GF_OSVCDecCtx) (l : List GF_OSVCDecCtx),
    counters_ok ctx → run_calls cs ctx = some l → ∀ c ∈ l, counters_ok c
  | [], _, l, _, h => by
    simp only [run_calls, Option.some.injEq] at h
    subst h
    intro c hc
    cases hc
  | c0 :: cs, ctx, l, hok, h => by
    simp only [run_calls] at h
    cases hc : call_ctx ctx c0 with
    | none => rw [hc] at h; cases h
    | some c1 =>
      rw [hc] at h
      simp only [Option.map_eq_some'] at h
      obtain ⟨l1, hl1, rfl⟩ := h
      have hok1 : counters_ok c1 := call_counters ctx c1 c0 hok hc
      intro c hmem
      rcases List.mem_cons.mp hmem with rfl | hmem
      · exact hok1
      · exact run_calls_counters cs c1 l1 hok1 hl1 c hmem
/-- The body of the decoding loop does not reach line 396 for a channel whose index is
below `active_streams`. -/
theorem decode_channel_no_drop (fuel : Nat) (ext : Extern) (env : StepEnv)
    (idx pid min_dts min_cts : Nat) :
    ∀ (q : List GF_FilterPacket) (d : Decode), idx < d.ctx.active_streams →
      decode_channel_drops fuel ext env idx pid min_dts min_cts q d = false := by
  intro q
  induction q with
  | nil => intro d _; rfl
  | cons p rest ih =>
    intro d h
    simp only [decode_channel_drops]
    rw [if_neg (by omega)]
    split
    · rfl
    · split
      · exact ih _ h
      · rfl

/-- The decoding loop does not reach line 396 when all the channels it visits have an
index below `active_streams`. -/
theorem decode_scan_no_drop (fuel : Nat) (ext : Extern) (env : StepEnv)
    (min_dts min_cts : Nat) :
    ∀ n i (d : Decode), i + n ≤ d.ctx.active_streams →
      decode_scan_drops fuel ext env min_dts min_cts n i d = false := by
  intro n
  induction n with
  | zero => intro i d _; rfl
  | succ n ih =>
    intro i d h
    simp only [decode_scan_drops]
    split
    · rfl
    · rename_i st _
      rw [decode_channel_no_drop fuel ext env i st.ipid min_dts min_cts _ d (by omega)]
      simp only [Bool.false_or]
      cases hd : decode_channel fuel ext env i st.ipid min_dts min_cts (d.pending st.ipid) d with
      | none => rfl
      | some d1 =>
        have hs := layers_only_setup _ _ (decode_channel_layers fuel ext env i st.ipid min_dts
          min_cts _ d d1 hd)
        exact ih (i + 1) d1 (by rw [hs.2.2.1]; omega)

/-- A process step on a context whose counters agree does not reach line 396. -/
theorem process_no_drop (fuel : Nat) (ext : Extern) (env : StepEnv) (ctx : GF_OSVCDecCtx)
    (pending : Nat → List GF_FilterPacket) (eos : Nat → Bool)
    (h : ctx.active_streams = ctx.nb_streams) :
    process_drops fuel ext env ctx pending eos = false := by
  unfold process_drops
  split
  · split
    · rfl
    · split
      · rfl
      · split
        · rfl
        · split
          · rfl
          · rename_i c1 hc1
            have hs := queue_only_setup _ _ (push_queue_only ctx c1 _ env.fresh hc1)
            exact decode_scan_no_drop fuel ext env _ _ _ 0 _
              (by show 0 + c1.nb_streams ≤ c1.active_streams; rw [hs.2.1, hs.2.2.1, h]; omega)
  · rfl
/-- C21, evaluated on the code: from the zero-initialised context the base, the middle
layer and the top layer are attached, and the counters are 1, 2, 3 after these calls; then
the top layer (index 2) or the middle layer (index 1) is detached, and the `memmove` of
line 108 moves `nb_streams - 1 = 2` entries, out of the array `streams`: the detach has no
defined result, and the run has no context after it. Every other call keeps the counters:
on a context with `active_streams = nb_streams`, at most `SVC_MAX_STREAMS`, every attach
returns and leaves `nb_streams` as it was or one more; a detach returns unless the
registry is full and the pid is registered at index 1 or 2 and not at index 0, and when it
returns neither counter has grown (none wraps below zero); the counters agree after each
call of every run of calls from the zero-initialised context in which every call returns;
and a process step on a context whose counters agree does not reach line 396, which a
step on a context with an inactive channel does. -/
theorem C21_detach_from_full_registry_undefined :
    (run_calls attach_chain ctx_init).map
        (fun l => l.map fun c => (c.streams.map GF_SVCStream.ipid, c.nb_streams,
          c.active_streams)) =
        some [([10, 0, 0], 1, 1), ([10, 20, 0], 2, 2), ([10, 20, 30], 3, 3)] ∧
      (run_calls attach_chain ctx_init).bind List.getLast? = some ctx_chain ∧
      osvcdec_configure_pid ext_sample ctx_chain (plain_pid 30 3 2) true = none ∧
      run_calls (attach_chain ++ [Call.configure ext_sample (plain_pid 30 3 2) true])
        ctx_init = none ∧
      run_calls (attach_chain ++ [Call.configure ext_sample (plain_pid 20 2 1) true])
        ctx_init = none ∧
      (∀ (ext : Extern) (ctx : GF_OSVCDecCtx) (pp : PidProps), counters_ok ctx →
        ∃ e c, osvcdec_configure_pid ext ctx pp false = some (e, c) ∧ counters_ok c ∧
          (c.nb_streams = ctx.nb_streams ∨ c.nb_streams = ctx.nb_streams + 1)) ∧
      (∀ (ext : Extern) (ctx : GF_OSVCDecCtx) (pp : PidProps), counters_ok ctx →
        (osvcdec_configure_pid ext ctx pp true = none ↔
          ctx.nb_streams = SVC_MAX_STREAMS ∧ (entry ctx 0).ipid ≠ pp.pid ∧
            ((entry ctx 1).ipid = pp.pid ∨ (entry ctx 2).ipid = pp.pid)) ∧
        ∀ e c, osvcdec_configure_pid ext ctx pp true = some (e, c) →
          e = GF_Err.GF_OK ∧ counters_ok c ∧ c.nb_streams ≤ ctx.nb_streams ∧
            c.active_streams ≤ ctx.active_streams) ∧
      (∀ (cs : List Call) (l : List GF_OSVCDecCtx), run_calls cs ctx_init = some l →
        ∀ c ∈ l, counters_ok c) ∧
      (∀ (fuel : Nat) (ext : Extern) (env : StepEnv) (ctx : GF_OSVCDecCtx)
        (pending : Nat → List GF_FilterPacket) (eos : Nat → Bool),
        ctx.active_streams = ctx.nb_streams →
          process_drops fuel ext env ctx pending eos = false) ∧
      process_drops 6 ext_sample env_sample ctx_one_active two_queues (fun _ => false) =
        true := by
  refine ⟨by decide, by decide, by decide, by decide, by decide, attach_counters, ?_,
    fun cs l => run_calls_counters cs ctx_init l (by decide), process_no_drop, by decide⟩
  intro ext ctx pp hok
  simp only [osvcdec_configure_pid, if_true]
  exact detach_counters ctx pp.pid hok

end OpenSVC
